import Mathlib

/-!
Verification of the MQTT 5 codec, reassembly transformer and session engine
of the ts-zeug repository against its specification.

Shallow embedding conventions:
* A byte buffer is a `List Nat`; every cell of a real buffer holds a value
  below 256 (`DataView`/`Uint8Array` semantics), so reader primitives that
  extract single cells reduce them modulo 256, exactly as the typed-array
  storage does on the writer side.
* JavaScript strings are represented by their UTF-8 byte sequences
  (`TextEncoder.encodeInto` on the way out, the non-fatal `TextDecoder` on
  the way in; on valid UTF-8 the two are mutually inverse, so a string is
  identified with its encoding).
* `DataReader` sub-views and `Uint8Array` copies carry the same bytes and are
  both modelled as the underlying byte list.
* Fallible operations return `Except String`.
-/

namespace MqttSpec

abbrev Bytes := List Nat

abbrev Err := String

/-- DataWriter.addUint8: the DataView stores the value modulo 256. -/
def u8 (n : Nat) : Bytes := [n % 256]

/-- DataWriter.addUint16: big-endian, stored modulo 2^16. -/
def u16 (n : Nat) : Bytes := [n / 256 % 256, n % 256]

/-- DataWriter.addUint32: big-endian, stored modulo 2^32. -/
def u32 (n : Nat) : Bytes :=
  [n / 16777216 % 256, n / 65536 % 256, n / 256 % 256, n % 256]

/-- Structural helper for addVariableByteInteger: the first argument is
recursion fuel; any fuel of at least the value itself is sufficient, the
exhausted branch is unreachable then (`encodeVBI_eq` recovers the loop
equation). -/
def encodeVBIAux : Nat → Nat → Bytes
  | 0, n => [n % 128]
  | fuel + 1, n =>
    if n < 128 then [n] else (n % 128 + 128) :: encodeVBIAux fuel (n / 128)

/-- Writer.addVariableByteInteger from serialize.ts: 7 bits per byte, most
significant bit is the continuation flag.  The source's do-while loop never
throws; it simply keeps emitting bytes until the remaining value is zero. -/
def encodeVBI (n : Nat) : Bytes := encodeVBIAux n n

/-- Writer.lengthVariableByteInteger: `Math.ceil((32 - Math.clz32 n) / 7)`,
with the special case 1 for n = 0.  For 0 < n < 2^32 the expression
`32 - clz32 n` is the bit length of n, i.e. `Nat.log2 n + 1`. -/
def lengthVBI (n : Nat) : Nat :=
  if n = 0 then 1 else (Nat.log2 n + 1 + 6) / 7

/-- Reader.getUint8 over a window list (DataReader view, value below 256). -/
def readU8 : Bytes → Except Err (Nat × Bytes)
  | [] => .error "BufferUnderflow"
  | b :: l => .ok (b % 256, l)

/-- Reader.getUint16, big-endian. -/
def readU16 : Bytes → Except Err (Nat × Bytes)
  | a :: b :: l => .ok ((a % 256) * 256 + b % 256, l)
  | _ => .error "BufferUnderflow"

/-- Reader.getUint32, big-endian. -/
def readU32 : Bytes → Except Err (Nat × Bytes)
  | a :: b :: c :: d :: l =>
    .ok ((a % 256) * 16777216 + (b % 256) * 65536 + (c % 256) * 256 + d % 256, l)
  | _ => .error "BufferUnderflow"

/-- Reader.getDataReader / getUint8Array: split off a window of `n` bytes,
failing when fewer than `n` bytes remain. -/
def takeN (n : Nat) (l : Bytes) : Except Err (Bytes × Bytes) :=
  if n ≤ l.length then .ok (l.take n, l.drop n) else .error "BufferUnderflow"

/-- The loop body of readVariableByteInteger from deserialize.ts.  `graceful`
is the gracefullyHandleIncompleteNumbers flag: running off the end of the
buffer yields `none` instead of an error.  The multiplier check rejects a
fifth continuation byte with "Malformed Variable Byte Integer". -/
def readVBILoop (graceful : Bool) (multiplier value : Nat) :
    Bytes → Except Err (Option (Nat × Bytes))
  | [] => if graceful then .ok none else .error "BufferUnderflow"
  | b :: l =>
    let value' := value + (b % 256 % 128) * multiplier
    if multiplier > 2097152 then .error "Malformed Variable Byte Integer"
    else if b % 256 < 128 then .ok (some (value', l))
    else readVBILoop graceful (multiplier * 128) value' l

/-- readVariableByteInteger without the graceful flag (throwing variant). -/
def readVBI (l : Bytes) : Except Err (Nat × Bytes) :=
  match readVBILoop false 1 0 l with
  | .error e => .error e
  | .ok none => .error "BufferUnderflow"
  | .ok (some r) => .ok r

/-- readVariableByteInteger with gracefullyHandleIncompleteNumbers. -/
def readVBIGraceful (l : Bytes) : Except Err (Option (Nat × Bytes)) :=
  readVBILoop true 1 0 l

/-- Writer.addUTF8String: a two-byte big-endian length prefix (the number of
bytes actually written, stored modulo 2^16) followed by the UTF-8 bytes. -/
def utf8S (s : Bytes) : Bytes := u16 s.length ++ s

/-- Writer.addBinaryData: rejects data longer than 65535 bytes, otherwise a
two-byte length prefix followed by the bytes. -/
def binData (b : Bytes) : Except Err Bytes :=
  if b.length > 65535 then .error "data limit is 65535"
  else .ok (u16 b.length ++ b)

/-- readUTF8String helper of deserialize.ts: a length-prefixed byte read.
The non-fatal TextDecoder never throws, so the result is the raw bytes. -/
def readUTF8 (l : Bytes) : Except Err (Bytes × Bytes) :=
  match readU16 l with
  | .error e => .error e
  | .ok (n, l) => takeN n l

/-- readBinaryData of deserialize.ts (sub-view or copy, same bytes). -/
def readBinary (l : Bytes) : Except Err (Bytes × Bytes) :=
  readUTF8 l

/-- Concatenation of a list of byte chunks. -/
def catList : List Bytes → Bytes
  | [] => []
  | b :: t => b ++ catList t

/-- asTopic from packets.ts: a topic must be non-empty, must not start with
the slash byte 47 and must not contain the bytes 35 (the hash wildcard) or
43 (the plus wildcard).  All three characters are ASCII, so the byte-level
check coincides with the string-level one on any valid UTF-8 input. -/
def asTopicE (s : Bytes) : Except Err Bytes :=
  if s = [] then .error "Invalid Topic: cannot be empty"
  else if s.head? = some 47 then .error "Invalid Topic: cannot start with a slash"
  else if 35 ∈ s then .error "Invalid Topic: cannot contain hash"
  else if 43 ∈ s then .error "Invalid Topic: cannot contain plus"
  else .ok s

/-- The per-level check inside asTopicFilter: the hash level must only be
the last one, a plus level is fine, any other level must not contain the
wildcard bytes. -/
def topicFilterLevelOK (isLast : Bool) (level : Bytes) : Bool :=
  if level = [35] then isLast
  else if level = [43] then true
  else decide (35 ∉ level) && decide (43 ∉ level)

/-- The loop over the levels of a topic filter. -/
def topicFilterLevelsOK : List Bytes → Bool
  | [] => true
  | [l] => topicFilterLevelOK true l
  | l :: rest => topicFilterLevelOK false l && topicFilterLevelsOK rest

/-- asTopicFilter from packets.ts: non-empty, no leading slash, each
slash-separated level is checked by `topicFilterLevelOK`. -/
def asTopicFilterE (s : Bytes) : Except Err Bytes :=
  if s = [] then .error "Invalid TopicFilter: cannot be empty"
  else if s.head? = some 47 then .error "Invalid TopicFilter: cannot start with a slash"
  else if topicFilterLevelsOK (s.splitOn 47) then .ok s
  else .error "Invalid TopicFilter: invalid wildcard use"

/-- Boolean form of the asTopic check, used inside validity predicates. -/
def topicOKb (s : Bytes) : Bool :=
  decide (¬ s = []) && decide (¬ s.head? = some 47) && decide (35 ∉ s) && decide (43 ∉ s)

/-- Boolean form of the asTopicFilter check. -/
def topicFilterOKb (s : Bytes) : Bool :=
  decide (¬ s = []) && decide (¬ s.head? = some 47) && topicFilterLevelsOK (s.splitOn 47)

/-- The decoded property record.  Mirrors the `AllProperties` type of
packets.ts: every known property identifier has a slot; the decoder of
deserialize.ts fills the slots one entry at a time.  Strings and binary
data are byte sequences, booleans reflect the decoder's comparisons. -/
structure AllProperties where
  payload_format_indicator : Option Nat := none
  message_expiry_interval : Option Nat := none
  content_type : Option Bytes := none
  response_topic : Option Bytes := none
  correlation_data : Option Bytes := none
  subscription_identifier : Option (List Nat) := none
  session_expiry_interval : Option Nat := none
  assigned_client_id : Option Bytes := none
  server_keep_alive : Option Nat := none
  authentication_method : Option Bytes := none
  authentication_data : Option Bytes := none
  request_problem_information : Option Bool := none
  will_delay_interval : Option Nat := none
  request_response_information : Option Bool := none
  response_information : Option Bytes := none
  server_reference : Option Bytes := none
  reason_string : Option Bytes := none
  receive_maximum : Option Nat := none
  topic_alias_maximum : Option Nat := none
  topic_alias : Option Nat := none
  maximum_QoS : Option Nat := none
  retain_available : Option Bool := none
  user_properties : Option (List (Bytes × Bytes)) := none
  maximum_packet_size : Option Nat := none
  wildcard_subscription_available : Option Bool := none
  subscription_identifiers_available : Option Bool := none
  shared_subscription_available : Option Bool := none
deriving Repr, DecidableEq

/-- A single property entry as the encoders of serialize.ts emit it: the
constructor fixes the property identifier and the value payload. -/
inductive PropEntry where
  | pfi (v : Nat)
  | mei (v : Nat)
  | contentType (s : Bytes)
  | responseTopic (s : Bytes)
  | correlationData (b : Bytes)
  | subId (v : Nat)
  | sei (v : Nat)
  | assignedClientId (s : Bytes)
  | serverKeepAlive (v : Nat)
  | authMethod (s : Bytes)
  | authData (b : Bytes)
  | reqProbInfo (v : Nat)
  | willDelay (v : Nat)
  | reqRespInfo (v : Nat)
  | respInfo (s : Bytes)
  | serverRef (s : Bytes)
  | reasonString (s : Bytes)
  | recvMax (v : Nat)
  | topicAliasMax (v : Nat)
  | topicAlias (v : Nat)
  | maxQoS (v : Nat)
  | retainAvail (v : Nat)
  | userProp (k v : Bytes)
  | maxPacketSize (v : Nat)
  | wildcardAvail (v : Nat)
  | subIdAvail (v : Nat)
  | sharedAvail (v : Nat)
deriving Repr, DecidableEq

/-- Wire bytes of one property entry: the one-byte identifier from the
`Property` enum followed by the value in its MQTT encoding, exactly as the
writers in serialize.ts produce them. -/
def encodePropEntry : PropEntry → Bytes
  | .pfi v => 1 :: u8 v
  | .mei v => 2 :: u32 v
  | .contentType s => 3 :: utf8S s
  | .responseTopic s => 8 :: utf8S s
  | .correlationData b => 9 :: (u16 b.length ++ b)
  | .subId v => 11 :: encodeVBI v
  | .sei v => 17 :: u32 v
  | .assignedClientId s => 18 :: utf8S s
  | .serverKeepAlive v => 19 :: u16 v
  | .authMethod s => 21 :: utf8S s
  | .authData b => 22 :: (u16 b.length ++ b)
  | .reqProbInfo v => 23 :: u8 v
  | .willDelay v => 24 :: u32 v
  | .reqRespInfo v => 25 :: u8 v
  | .respInfo s => 26 :: utf8S s
  | .serverRef s => 28 :: utf8S s
  | .reasonString s => 31 :: utf8S s
  | .recvMax v => 33 :: u16 v
  | .topicAliasMax v => 34 :: u16 v
  | .topicAlias v => 35 :: u16 v
  | .maxQoS v => 36 :: u8 v
  | .retainAvail v => 37 :: u8 v
  | .userProp k v => 38 :: (utf8S k ++ utf8S v)
  | .maxPacketSize v => 39 :: u32 v
  | .wildcardAvail v => 40 :: u8 v
  | .subIdAvail v => 41 :: u8 v
  | .sharedAvail v => 42 :: u8 v

/-- Effect of decoding one property entry on the accumulated record, as
performed by the switch inside readProperties of deserialize.ts.  Booleans
reflect the decoder's comparisons (`!== 0` or `=== 1`), repeating entries
append to their list. -/
def applyEntry (a : AllProperties) : PropEntry → AllProperties
  | .pfi v => { a with payload_format_indicator := some v }
  | .mei v => { a with message_expiry_interval := some v }
  | .contentType s => { a with content_type := some s }
  | .responseTopic s => { a with response_topic := some s }
  | .correlationData b => { a with correlation_data := some b }
  | .subId v =>
    { a with subscription_identifier := some (a.subscription_identifier.getD [] ++ [v]) }
  | .sei v => { a with session_expiry_interval := some v }
  | .assignedClientId s => { a with assigned_client_id := some s }
  | .serverKeepAlive v => { a with server_keep_alive := some v }
  | .authMethod s => { a with authentication_method := some s }
  | .authData b => { a with authentication_data := some b }
  | .reqProbInfo v => { a with request_problem_information := some (v ≠ 0) }
  | .willDelay v => { a with will_delay_interval := some v }
  | .reqRespInfo v => { a with request_response_information := some (v = 1) }
  | .respInfo s => { a with response_information := some s }
  | .serverRef s => { a with server_reference := some s }
  | .reasonString s => { a with reason_string := some s }
  | .recvMax v => { a with receive_maximum := some v }
  | .topicAliasMax v => { a with topic_alias_maximum := some v }
  | .topicAlias v => { a with topic_alias := some v }
  | .maxQoS v => { a with maximum_QoS := some v }
  | .retainAvail v => { a with retain_available := some (v = 1) }
  | .userProp k v =>
    { a with user_properties := some (a.user_properties.getD [] ++ [(k, v)]) }
  | .maxPacketSize v => { a with maximum_packet_size := some v }
  | .wildcardAvail v => { a with wildcard_subscription_available := some (v ≠ 0) }
  | .subIdAvail v => { a with subscription_identifiers_available := some (v ≠ 0) }
  | .sharedAvail v => { a with shared_subscription_available := some (v ≠ 0) }

/-- Validity of an entry: numeric values fit the width the codec writes
them at, strings fit the two-byte length prefix, every embedded byte fits a
buffer cell, and topics fed to the decoder's asTopic validation are valid. -/
def ValidEntry : PropEntry → Prop
  | .pfi v => v < 256
  | .mei v => v < 4294967296
  | .contentType s => s.length ≤ 65535 ∧ ∀ b ∈ s, b < 256
  | .responseTopic s =>
    (s.length ≤ 65535 ∧ ∀ b ∈ s, b < 256) ∧ topicOKb s = true
  | .correlationData b => b.length ≤ 65535 ∧ ∀ x ∈ b, x < 256
  | .subId v => v ≤ 268435455
  | .sei v => v < 4294967296
  | .assignedClientId s => s.length ≤ 65535 ∧ ∀ b ∈ s, b < 256
  | .serverKeepAlive v => v < 65536
  | .authMethod s => s.length ≤ 65535 ∧ ∀ b ∈ s, b < 256
  | .authData b => b.length ≤ 65535 ∧ ∀ x ∈ b, x < 256
  | .reqProbInfo v => v < 256
  | .willDelay v => v < 4294967296
  | .reqRespInfo v => v < 256
  | .respInfo s =>
    (s.length ≤ 65535 ∧ ∀ b ∈ s, b < 256) ∧ topicOKb s = true
  | .serverRef s => s.length ≤ 65535 ∧ ∀ b ∈ s, b < 256
  | .reasonString s => s.length ≤ 65535 ∧ ∀ b ∈ s, b < 256
  | .recvMax v => v < 65536
  | .topicAliasMax v => v < 65536
  | .topicAlias v => v < 65536
  | .maxQoS v => v < 256
  | .retainAvail v => v < 256
  | .userProp k v =>
    (k.length ≤ 65535 ∧ ∀ b ∈ k, b < 256) ∧ (v.length ≤ 65535 ∧ ∀ b ∈ v, b < 256)
  | .maxPacketSize v => v < 4294967296
  | .wildcardAvail v => v < 256
  | .subIdAvail v => v < 256
  | .sharedAvail v => v < 256

instance : DecidablePred ValidEntry := by
  intro e
  cases e <;> (unfold ValidEntry) <;> infer_instance

/-- Two property entries address the same single-valued field of the record:
same constructor, excluding User_Property and Subscription_Identifier, whose
`applyEntry` cases accumulate into a list instead of overwriting. -/
def sameProp : PropEntry → PropEntry → Bool
  | .pfi _, .pfi _ => true
  | .mei _, .mei _ => true
  | .contentType _, .contentType _ => true
  | .responseTopic _, .responseTopic _ => true
  | .correlationData _, .correlationData _ => true
  | .sei _, .sei _ => true
  | .assignedClientId _, .assignedClientId _ => true
  | .serverKeepAlive _, .serverKeepAlive _ => true
  | .authMethod _, .authMethod _ => true
  | .authData _, .authData _ => true
  | .reqProbInfo _, .reqProbInfo _ => true
  | .willDelay _, .willDelay _ => true
  | .reqRespInfo _, .reqRespInfo _ => true
  | .respInfo _, .respInfo _ => true
  | .serverRef _, .serverRef _ => true
  | .reasonString _, .reasonString _ => true
  | .recvMax _, .recvMax _ => true
  | .topicAliasMax _, .topicAliasMax _ => true
  | .topicAlias _, .topicAlias _ => true
  | .maxQoS _, .maxQoS _ => true
  | .retainAvail _, .retainAvail _ => true
  | .maxPacketSize _, .maxPacketSize _ => true
  | .wildcardAvail _, .wildcardAvail _ => true
  | .subIdAvail _, .subIdAvail _ => true
  | .sharedAvail _, .sharedAvail _ => true
  | _, _ => false

/-- One iteration of the switch in readProperties of deserialize.ts: given
the property identifier byte just consumed and the remaining window, read
the value and update the record.  A property identifier the switch does not
recognise matches no case, so nothing is consumed and nothing changes. -/
def propStep (a : AllProperties) (id : Nat) (w : Bytes) :
    Except Err (AllProperties × Bytes) :=
  if id = 1 then
    match readU8 w with
    | .error e => .error e
    | .ok (v, w) => .ok ({ a with payload_format_indicator := some v }, w)
  else if id = 2 then
    match readU32 w with
    | .error e => .error e
    | .ok (v, w) => .ok ({ a with message_expiry_interval := some v }, w)
  else if id = 3 then
    match readUTF8 w with
    | .error e => .error e
    | .ok (s, w) => .ok ({ a with content_type := some s }, w)
  else if id = 8 then
    match readUTF8 w with
    | .error e => .error e
    | .ok (s, w) =>
      match asTopicE s with
      | .error e => .error e
      | .ok s => .ok ({ a with response_topic := some s }, w)
  else if id = 9 then
    match readBinary w with
    | .error e => .error e
    | .ok (b, w) => .ok ({ a with correlation_data := some b }, w)
  else if id = 11 then
    match readVBI w with
    | .error e => .error e
    | .ok (v, w) =>
      .ok ({ a with subscription_identifier :=
                      some (a.subscription_identifier.getD [] ++ [v]) }, w)
  else if id = 17 then
    match readU32 w with
    | .error e => .error e
    | .ok (v, w) => .ok ({ a with session_expiry_interval := some v }, w)
  else if id = 18 then
    match readUTF8 w with
    | .error e => .error e
    | .ok (s, w) => .ok ({ a with assigned_client_id := some s }, w)
  else if id = 19 then
    match readU16 w with
    | .error e => .error e
    | .ok (v, w) => .ok ({ a with server_keep_alive := some v }, w)
  else if id = 21 then
    match readUTF8 w with
    | .error e => .error e
    | .ok (s, w) => .ok ({ a with authentication_method := some s }, w)
  else if id = 22 then
    match readBinary w with
    | .error e => .error e
    | .ok (b, w) => .ok ({ a with authentication_data := some b }, w)
  else if id = 23 then
    match readU8 w with
    | .error e => .error e
    | .ok (v, w) => .ok ({ a with request_problem_information := some (v ≠ 0) }, w)
  else if id = 24 then
    match readU32 w with
    | .error e => .error e
    | .ok (v, w) => .ok ({ a with will_delay_interval := some v }, w)
  else if id = 25 then
    match readU8 w with
    | .error e => .error e
    | .ok (v, w) => .ok ({ a with request_response_information := some (v = 1) }, w)
  else if id = 26 then
    match readUTF8 w with
    | .error e => .error e
    | .ok (s, w) =>
      match asTopicE s with
      | .error e => .error e
      | .ok s => .ok ({ a with response_information := some s }, w)
  else if id = 28 then
    match readUTF8 w with
    | .error e => .error e
    | .ok (s, w) => .ok ({ a with server_reference := some s }, w)
  else if id = 31 then
    match readUTF8 w with
    | .error e => .error e
    | .ok (s, w) => .ok ({ a with reason_string := some s }, w)
  else if id = 33 then
    match readU16 w with
    | .error e => .error e
    | .ok (v, w) => .ok ({ a with receive_maximum := some v }, w)
  else if id = 34 then
    match readU16 w with
    | .error e => .error e
    | .ok (v, w) => .ok ({ a with topic_alias_maximum := some v }, w)
  else if id = 35 then
    match readU16 w with
    | .error e => .error e
    | .ok (v, w) => .ok ({ a with topic_alias := some v }, w)
  else if id = 36 then
    match readU8 w with
    | .error e => .error e
    | .ok (v, w) => .ok ({ a with maximum_QoS := some v }, w)
  else if id = 37 then
    match readU8 w with
    | .error e => .error e
    | .ok (v, w) => .ok ({ a with retain_available := some (v = 1) }, w)
  else if id = 38 then
    match readUTF8 w with
    | .error e => .error e
    | .ok (k, w) =>
      match readUTF8 w with
      | .error e => .error e
      | .ok (v, w) =>
        .ok ({ a with user_properties :=
                        some (a.user_properties.getD [] ++ [(k, v)]) }, w)
  else if id = 39 then
    match readU32 w with
    | .error e => .error e
    | .ok (v, w) => .ok ({ a with maximum_packet_size := some v }, w)
  else if id = 40 then
    match readU8 w with
    | .error e => .error e
    | .ok (v, w) => .ok ({ a with wildcard_subscription_available := some (v ≠ 0) }, w)
  else if id = 41 then
    match readU8 w with
    | .error e => .error e
    | .ok (v, w) =>
      .ok ({ a with subscription_identifiers_available := some (v ≠ 0) }, w)
  else if id = 42 then
    match readU8 w with
    | .error e => .error e
    | .ok (v, w) => .ok ({ a with shared_subscription_available := some (v ≠ 0) }, w)
  else
    .ok (a, w)

/-- Structural helper for the readProperties loop: the first argument is
recursion fuel (any fuel of at least the window length is sufficient, since
every iteration consumes at least the identifier byte; the exhausted branch
is unreachable then).  `propStep` always returns a suffix of its input, so
the inner `take` is the identity. -/
def readPropsLoopF : Nat → AllProperties → Bytes → Except Err AllProperties
  | _, a, [] => .ok a
  | 0, a, _ :: _ => .ok a
  | fuel + 1, a, idb :: w' =>
    match propStep a (idb % 256) w' with
    | .error e => .error e
    | .ok (a', rest) => readPropsLoopF fuel a' (rest.take w'.length)

/-- The while-loop of readProperties: as long as the window has bytes left,
read one identifier byte and apply `propStep`. -/
def readPropsLoop (a : AllProperties) (w : Bytes) : Except Err AllProperties :=
  readPropsLoopF w.length a w

/-- readProperties of deserialize.ts: nothing left means no properties; a
zero length means no properties; otherwise decode the block of exactly
`length` bytes through the loop. -/
def readProperties (l : Bytes) : Except Err (Option AllProperties × Bytes) :=
  if l.isEmpty then .ok (none, l)
  else
    match readVBI l with
    | .error e => .error e
    | .ok (len, l) =>
      if len = 0 then .ok (none, l)
      else
        match takeN len l with
        | .error e => .error e
        | .ok (w, rest) =>
          match readPropsLoop {} w with
          | .error e => .error e
          | .ok a => .ok (some a, rest)

/-- A publish or will payload: a JavaScript string (kept as its UTF-8
bytes) or binary data (a DataReader or Uint8Array, kept as its bytes). -/
inductive PayloadVal where
  | str (s : Bytes)
  | bin (b : Bytes)
deriving Repr, DecidableEq

/-- The UTF-8 bytes of the protocol name "MQTT". -/
def mqttStr : Bytes := [77, 81, 84, 84]

/-- The will member of a ConnectPacket (packets.ts). -/
structure Will where
  qos : Option Nat := none
  retain : Option Bool := none
  topic : Bytes
  payload : Option PayloadVal := none
  properties : Option AllProperties := none
deriving Repr, DecidableEq

/-- ConnectPacket of packets.ts.  The TS type constrains protocol_name to
the literal "MQTT" and protocol_version to 5 when present; here they are
byte-level options and the validity predicate carries the constraint.
Properties records are carried as the full `AllProperties`; the encoder
reads only the fields of the corresponding TS property type. -/
structure ConnectPacket where
  protocol_name : Option Bytes := none
  protocol_version : Option Nat := none
  clean_start : Option Bool := none
  client_id : Option Bytes := none
  username : Option Bytes := none
  password : Option Bytes := none
  keepalive : Option Nat := none
  will : Option Will := none
  properties : Option AllProperties := none
deriving Repr, DecidableEq

/-- ConnAckPacket of packets.ts. -/
structure ConnAckPacket where
  session_present : Option Bool := none
  connect_reason_code : Option Nat := none
  properties : Option AllProperties := none
deriving Repr, DecidableEq

/-- PublishPacket of packets.ts. -/
structure PublishPacket where
  packet_identifier : Option Nat := none
  dup : Option Bool := none
  qos : Option Nat := none
  retain : Option Bool := none
  topic : Bytes
  payload : Option PayloadVal := none
  properties : Option AllProperties := none
deriving Repr, DecidableEq

/-- Common shape of PubAckPacket, PubRecPacket, PubRelPacket and
PubCompPacket of packets.ts. -/
structure PubAckLikePacket where
  packet_identifier : Nat
  reason_code : Option Nat := none
  properties : Option AllProperties := none
deriving Repr, DecidableEq

/-- One subscription entry of a SubscribePacket (packets.ts 3.8.3.1). -/
structure Subscription where
  topic : Bytes
  qos : Option Nat := none
  no_local : Option Bool := none
  retain_handling : Option Nat := none
  retain_as_published : Option Bool := none
deriving Repr, DecidableEq

/-- The properties member of a SubscribePacket: a single scalar
subscription identifier plus user properties. -/
structure SubscribeProps where
  subscription_identifier : Option Nat := none
  user_properties : Option (List (Bytes × Bytes)) := none
deriving Repr, DecidableEq

/-- SubscribePacket of packets.ts. -/
structure SubscribePacket where
  packet_identifier : Nat
  subscriptions : List Subscription
  properties : Option SubscribeProps := none
deriving Repr, DecidableEq

/-- Common shape of SubAckPacket and UnsubAckPacket of packets.ts. -/
structure SubAckPacket where
  packet_identifier : Nat
  reason_codes : List Nat
  properties : Option AllProperties := none
deriving Repr, DecidableEq

/-- UnsubscribePacket of packets.ts. -/
structure UnsubscribePacket where
  packet_identifier : Nat
  topic_filters : List Bytes
  properties : Option AllProperties := none
deriving Repr, DecidableEq

/-- Common shape of DisconnectPacket and AuthPacket of packets.ts. -/
structure ReasonCodePacket where
  reason_code : Option Nat := none
  properties : Option AllProperties := none
deriving Repr, DecidableEq

/-- The tagged union AllPacket of packets.ts. -/
inductive Packet where
  | connect (p : ConnectPacket)
  | connack (p : ConnAckPacket)
  | publish (p : PublishPacket)
  | puback (p : PubAckLikePacket)
  | pubrec (p : PubAckLikePacket)
  | pubrel (p : PubAckLikePacket)
  | pubcomp (p : PubAckLikePacket)
  | subscribe (p : SubscribePacket)
  | suback (p : SubAckPacket)
  | unsubscribe (p : UnsubscribePacket)
  | unsuback (p : SubAckPacket)
  | pingreq
  | pingresp
  | disconnect (p : ReasonCodePacket)
  | auth (p : ReasonCodePacket)
deriving Repr, DecidableEq

/-- Entry emitted for a property the encoder writes when the value is not
undefined. -/
def optDef (x : Option α) (f : α → PropEntry) : List PropEntry :=
  match x with
  | some v => [f v]
  | none => []

/-- Entry emitted for a numeric property the encoder guards with a JS
truthiness test (so 0 is dropped like undefined). -/
def optTruthyNat (x : Option Nat) (f : Nat → PropEntry) : List PropEntry :=
  match x with
  | some v => if v = 0 then [] else [f v]
  | none => []

/-- Entry emitted for a string property the encoder guards with a JS
truthiness test (so the empty string is dropped like undefined). -/
def optTruthyStr (x : Option Bytes) (f : Bytes → PropEntry) : List PropEntry :=
  match x with
  | some s => if s = [] then [] else [f s]
  | none => []

/-- Entry emitted when a boolean property is truthy. -/
def optTrue (x : Option Bool) (e : PropEntry) : List PropEntry :=
  match x with
  | some true => [e]
  | _ => []

/-- Entry emitted when a boolean property is explicitly false. -/
def optFalse (x : Option Bool) (e : PropEntry) : List PropEntry :=
  match x with
  | some false => [e]
  | _ => []

/-- Writer.addUserProperties: one entry per pair, nothing when absent. -/
def userPropEntries (x : Option (List (Bytes × Bytes))) : List PropEntry :=
  (x.getD []).map (fun kv => .userProp kv.1 kv.2)

/-- Serialized properties section: variable-byte-integer length prefix and
the concatenated entries (Writer.addProperties). -/
def propsBlock (es : List PropEntry) : Bytes :=
  let b := catList (es.map encodePropEntry)
  encodeVBI b.length ++ b

/-- The shared guard of serialize.ts around authentication data: data
without a method is rejected, then addBinaryData rejects overlong data.
When both checks pass the data entry is appended after the base list. -/
def authCheckedEntries (base : List PropEntry) (method data : Option Bytes) :
    Except Err (List PropEntry) :=
  match data with
  | none => .ok base
  | some d =>
    if method = none then
      .error "authentication data can only be set if the authentication method is set"
    else if d.length > 65535 then .error "data limit is 65535"
    else .ok (base ++ [.authData d])

/-- Properties of serializeConnectPacket, in the order the source writes
them (session expiry, receive maximum, maximum packet size, topic alias
maximum, request response information, request problem information, user
properties, authentication method, authentication data). -/
def connectPropEntriesE (pr : AllProperties) : Except Err (List PropEntry) :=
  authCheckedEntries
    (optDef pr.session_expiry_interval .sei
      ++ optTruthyNat pr.receive_maximum .recvMax
      ++ optTruthyNat pr.maximum_packet_size .maxPacketSize
      ++ optDef pr.topic_alias_maximum .topicAliasMax
      ++ optTrue pr.request_response_information (.reqRespInfo 1)
      ++ optFalse pr.request_problem_information (.reqProbInfo 0)
      ++ userPropEntries pr.user_properties
      ++ optDef pr.authentication_method .authMethod)
    pr.authentication_method pr.authentication_data

/-- Will properties of serializeConnectPacket: the payload format indicator
is derived from the payload type, then expiry, content type, response
topic, correlation data, will delay, user properties. -/
def willPropEntries (payloadIsStr : Bool) (pr : AllProperties) : List PropEntry :=
  (if payloadIsStr then [.pfi 1] else [])
    ++ optDef pr.message_expiry_interval .mei
    ++ optDef pr.content_type .contentType
    ++ optDef pr.response_topic .responseTopic
    ++ optDef pr.correlation_data .correlationData
    ++ optDef pr.will_delay_interval .willDelay
    ++ userPropEntries pr.user_properties

/-- Wrapper performing the addBinaryData length check on correlation data
(the only fallible write in the will and publish property sections). -/
def corrCheckedEntries (es : List PropEntry) (corr : Option Bytes) :
    Except Err (List PropEntry) :=
  match corr with
  | some b => if b.length > 65535 then .error "data limit is 65535" else .ok es
  | none => .ok es

/-- Properties of serializeConnAckPacket, in source order. -/
def connAckPropEntriesE (pr : AllProperties) : Except Err (List PropEntry) :=
  authCheckedEntries
    (optDef pr.session_expiry_interval .sei
      ++ optTruthyNat pr.receive_maximum .recvMax
      ++ optTruthyNat pr.maximum_QoS .maxQoS
      ++ optTrue pr.retain_available (.retainAvail 1)
      ++ optTruthyNat pr.maximum_packet_size .maxPacketSize
      ++ optTruthyStr pr.assigned_client_id .assignedClientId
      ++ optTruthyNat pr.topic_alias_maximum .topicAliasMax
      ++ optDef pr.reason_string .reasonString
      ++ userPropEntries pr.user_properties
      ++ optFalse pr.wildcard_subscription_available (.wildcardAvail 0)
      ++ optFalse pr.subscription_identifiers_available (.subIdAvail 0)
      ++ optFalse pr.shared_subscription_available (.sharedAvail 0)
      ++ optTruthyNat pr.server_keep_alive .serverKeepAlive
      ++ optTruthyStr pr.response_information .respInfo
      ++ optTruthyStr pr.server_reference .serverRef
      ++ optDef pr.authentication_method .authMethod)
    pr.authentication_method pr.authentication_data

/-- Properties of serializePublishPacket, in source order; the payload
format indicator is derived from the payload type. -/
def publishPropEntries (payloadIsStr : Bool) (pr : AllProperties) : List PropEntry :=
  (if payloadIsStr then [.pfi 1] else [])
    ++ optDef pr.message_expiry_interval .mei
    ++ optDef pr.content_type .contentType
    ++ optDef pr.response_topic .responseTopic
    ++ optDef pr.correlation_data .correlationData
    ++ (pr.subscription_identifier.getD []).map .subId
    ++ optTruthyNat pr.topic_alias .topicAlias
    ++ userPropEntries pr.user_properties

/-- Properties of the four publish acknowledgement packets, of SubAck and
of UnsubAck: reason string then user properties. -/
def ackPropEntries (pr : AllProperties) : List PropEntry :=
  optDef pr.reason_string .reasonString ++ userPropEntries pr.user_properties

/-- Properties of serializeSubscribePacket: a truthiness-guarded single
subscription identifier, then user properties. -/
def subscribePropEntries (pr : SubscribeProps) : List PropEntry :=
  optTruthyNat pr.subscription_identifier .subId ++ userPropEntries pr.user_properties

/-- Properties of serializeUnsubscribePacket: user properties only. -/
def unsubscribePropEntries (pr : AllProperties) : List PropEntry :=
  userPropEntries pr.user_properties

/-- Properties of serializeDisconnectPacket, in source order. -/
def disconnectPropEntries (pr : AllProperties) : List PropEntry :=
  optDef pr.session_expiry_interval .sei
    ++ optDef pr.reason_string .reasonString
    ++ userPropEntries pr.user_properties
    ++ optTruthyStr pr.server_reference .serverRef

/-- Properties of serializeAuthPacket, in source order. -/
def authPropEntriesE (pr : AllProperties) : Except Err (List PropEntry) :=
  match authCheckedEntries (optDef pr.authentication_method .authMethod)
      pr.authentication_method pr.authentication_data with
  | .error e => .error e
  | .ok base =>
    .ok (base ++ optDef pr.reason_string .reasonString
      ++ userPropEntries pr.user_properties)

/-- Default of Writer.maximumPacketSize (268_435_455). -/
def defaultMaxPacketSize : Nat := 268435455

/-- Writer.finalizeMessage: reject flags beyond 4 bits, reject a body whose
size is at least the maximum packet size, otherwise produce the control
byte, the remaining length as a variable-byte integer, and the body.  The
source reserves 5 header bytes and backfills them; for any admissible size
the backfill produces exactly this concatenation because
lengthVariableByteInteger agrees with the emitted length. -/
def finalizeMessage (maxSize ty flags : Nat) (body : Bytes) : Except Err Bytes :=
  if flags > 15 then .error "flags only allows setting up to 4 bits"
  else if body.length ≥ maxSize then .error "Message size is too large"
  else .ok (u8 (ty * 16 + flags) ++ encodeVBI body.length ++ body)

/-- Connect flags byte (3.1.2.3): username, password, will retain, will QoS
(two bits, truthiness-guarded), will flag, clean start (set when undefined
or true).  The bit fields are disjoint for any QoS value of the TS enum
(0..3), so the source's bitwise or is plain addition. -/
def connectFlags (p : ConnectPacket) : Nat :=
  (if p.username ≠ none then 128 else 0)
    + (if p.password ≠ none then 64 else 0)
    + (if (p.will.bind (·.retain)) = some true then 32 else 0)
    + (match p.will.bind (·.qos) with
       | some q => if q = 0 then 0 else q * 8
       | none => 0)
    + (if p.will ≠ none then 4 else 0)
    + (if p.clean_start = none ∨ p.clean_start = some true then 2 else 0)

/-- Whether a payload is a JavaScript string (typeof check in the source). -/
def isStrPayload : Option PayloadVal → Bool
  | some (.str _) => true
  | _ => false

/-- The raw payload bytes serializePublishPacket appends after the
properties (nothing, the string bytes, or the binary bytes). -/
def payloadBytes : Option PayloadVal → Bytes
  | none => []
  | some (.str s) => s
  | some (.bin b) => b

/-- The Publish fixed-header flags: dup bit 3, QoS bits 1-2, retain bit 0
(disjoint contributions for the TS QoS enum 0..3, so the bitwise or is
plain addition). -/
def publishFlags (p : PublishPacket) : Nat :=
  (if p.dup = some true then 8 else 0) + p.qos.getD 0 * 2
    + (if p.retain = some true then 1 else 0)

/-- The username/password suffix of serializeConnectPacket: a
length-prefixed string when present, nothing otherwise. -/
def optUserBytes : Option Bytes → Bytes
  | some u => utf8S u
  | none => []

/-- The will-payload bytes of serializeConnectPacket: an absent payload is
written as a zero-length string, a string payload as a length-prefixed
string, a binary payload through addBinaryData (whose length guard is
checked separately by the serializer). -/
def willPayloadB : Option PayloadVal → Bytes
  | none => u16 0
  | some (.str s) => utf8S s
  | some (.bin b) => u16 b.length ++ b

/-- The raw bytes of a will payload, as the decoder's text decoder
recovers them. -/
def willRawBytes : Option PayloadVal → Bytes
  | none => []
  | some (.str s) => s
  | some (.bin b) => b

/-- The serialized will section: will properties, will topic, will
payload. -/
def willBytesOpt : Option Will → Bytes
  | none => []
  | some wl =>
    propsBlock (willPropEntries (isStrPayload wl.payload) (wl.properties.getD {}))
      ++ utf8S wl.topic ++ willPayloadB wl.payload

/-- serializeConnectPacket of serialize.ts. -/
def serializeConnect (maxSize : Nat) (p : ConnectPacket) : Except Err Bytes :=
  match connectPropEntriesE (p.properties.getD {}) with
  | .error e => .error e
  | .ok pe =>
    match (match p.will with
           | none => .ok []
           | some wl =>
             match corrCheckedEntries
                 (willPropEntries (isStrPayload wl.payload) (wl.properties.getD {}))
                 ((wl.properties.getD {}).correlation_data) with
             | .error e => .error e
             | .ok wpe =>
               match (match wl.payload with
                      | none => .ok (u16 0)
                      | some (.str s) => .ok (utf8S s)
                      | some (.bin b) => binData b : Except Err Bytes) with
               | .error e => .error e
               | .ok payloadBytes =>
                 .ok (propsBlock wpe ++ utf8S wl.topic ++ payloadBytes)
           : Except Err Bytes) with
    | .error e => .error e
    | .ok willPart =>
      finalizeMessage maxSize 1 0
        (utf8S (p.protocol_name.getD mqttStr)
          ++ u8 (p.protocol_version.getD 5)
          ++ u8 (connectFlags p)
          ++ u16 (p.keepalive.getD 0)
          ++ propsBlock pe
          ++ utf8S (p.client_id.getD [])
          ++ willPart
          ++ (match p.username with | some u => utf8S u | none => [])
          ++ (match p.password with | some pw => utf8S pw | none => []))

/-- serializeConnAckPacket of serialize.ts, including the server_reference
versus reason-code guard (reason codes 156 = Use_another_server and
157 = Server_moved). -/
def serializeConnAck (maxSize : Nat) (p : ConnAckPacket) : Except Err Bytes :=
  if ((p.properties.getD {}).server_reference.getD []) ≠ []
      ∧ p.connect_reason_code ≠ some 157 ∧ p.connect_reason_code ≠ some 156 then
    .error "server_reference can only be set if the reason_code is Server_moved or Use_another_server"
  else
    match connAckPropEntriesE (p.properties.getD {}) with
    | .error e => .error e
    | .ok pe =>
      finalizeMessage maxSize 2 0
        (u8 (if p.session_present.getD false then 1 else 0)
          ++ u8 (p.connect_reason_code.getD 0)
          ++ propsBlock pe)

/-- serializePublishPacket of serialize.ts: the packet identifier must be
present exactly for QoS above 0; flags carry dup, QoS and retain. -/
def serializePublish (maxSize : Nat) (p : PublishPacket) : Except Err Bytes :=
  let qos := p.qos.getD 0
  match (match p.packet_identifier with
         | some pid =>
           if qos = 0 then .error "packet_identifier can only be set for QoS above 0"
           else .ok (u16 pid)
         | none =>
           if qos ≠ 0 then .error "packet_identifier are required for QoS above 0"
           else .ok [] : Except Err Bytes) with
  | .error e => .error e
  | .ok pidBytes =>
    match corrCheckedEntries
        (publishPropEntries (isStrPayload p.payload) (p.properties.getD {}))
        ((p.properties.getD {}).correlation_data) with
    | .error e => .error e
    | .ok pe =>
      finalizeMessage maxSize 3 (publishFlags p)
        (utf8S p.topic ++ pidBytes ++ propsBlock pe ++ payloadBytes p.payload)

/-- Common serializer of PubAck, PubRec, PubRel and PubComp: two bytes when
the reason code is explicitly Success (0) and no properties are given,
otherwise reason code and properties follow the identifier. -/
def serializePubAckLike (maxSize ty flags : Nat) (p : PubAckLikePacket) :
    Except Err Bytes :=
  finalizeMessage maxSize ty flags
    (u16 p.packet_identifier
      ++ (if p.reason_code = some 0 ∧ p.properties = none then []
          else u8 (p.reason_code.getD 0)
            ++ propsBlock (ackPropEntries (p.properties.getD {}))))

/-- Flag byte of one subscription entry (3.8.3.1): QoS in bits 0-1,
no-local bit 2, retain-as-published bit 3, retain handling in bits 4-5. -/
def subscriptionFlagByte (s : Subscription) : Nat :=
  s.qos.getD 0
    + (if s.no_local = some true then 4 else 0)
    + (if s.retain_as_published = some true then 8 else 0)
    + s.retain_handling.getD 0 * 16

/-- serializeSubscribePacket of serialize.ts. -/
def serializeSubscribe (maxSize : Nat) (p : SubscribePacket) : Except Err Bytes :=
  if p.subscriptions = [] then .error "Empty subscriptions are not allowed"
  else
    finalizeMessage maxSize 8 2
      (u16 p.packet_identifier
        ++ propsBlock (subscribePropEntries (p.properties.getD {}))
        ++ catList (p.subscriptions.map
            (fun s => utf8S s.topic ++ u8 (subscriptionFlagByte s))))

/-- serializeSubAckPacket / serializeUnsubAckPacket of serialize.ts: the
reason-code list must be non-empty. -/
def serializeSubAckLike (maxSize ty : Nat) (p : SubAckPacket) : Except Err Bytes :=
  if p.reason_codes = [] then .error "reason_codes cannot be empty"
  else
    finalizeMessage maxSize ty 0
      (u16 p.packet_identifier
        ++ propsBlock (ackPropEntries (p.properties.getD {}))
        ++ catList (p.reason_codes.map u8))

/-- serializeUnsubscribePacket of serialize.ts: the topic-filter list must
be non-empty (the check sits after the properties are written, which does
not change the result). -/
def serializeUnsubscribe (maxSize : Nat) (p : UnsubscribePacket) : Except Err Bytes :=
  if p.topic_filters = [] then .error "Empty subscriptions are not allowed"
  else
    finalizeMessage maxSize 10 2
      (u16 p.packet_identifier
        ++ propsBlock (unsubscribePropEntries (p.properties.getD {}))
        ++ catList (p.topic_filters.map utf8S))

/-- serializeDisconnectPacket of serialize.ts: two bytes when the reason
code defaults to Normal_disconnection (0) and no properties are given. -/
def serializeDisconnect (maxSize : Nat) (p : ReasonCodePacket) : Except Err Bytes :=
  if p.reason_code.getD 0 = 0 ∧ p.properties = none then
    finalizeMessage maxSize 14 0 []
  else
    finalizeMessage maxSize 14 0
      (u8 (p.reason_code.getD 0)
        ++ propsBlock (disconnectPropEntries (p.properties.getD {})))

/-- serializeAuthPacket of serialize.ts: two bytes when the reason code
defaults to Success (0) and no properties are given. -/
def serializeAuth (maxSize : Nat) (p : ReasonCodePacket) : Except Err Bytes :=
  if p.reason_code.getD 0 = 0 ∧ p.properties = none then
    finalizeMessage maxSize 15 0 []
  else
    match authPropEntriesE (p.properties.getD {}) with
    | .error e => .error e
    | .ok pe =>
      finalizeMessage maxSize 15 0 (u8 (p.reason_code.getD 0) ++ propsBlock pe)

/-- PingReqMessage of serialize.ts: precomputed once through
finalizeMessage on a fresh writer (so with the default maximum size). -/
def PingReqMessage : Except Err Bytes := finalizeMessage defaultMaxPacketSize 12 0 []

/-- PingRespMessage of serialize.ts. -/
def PingRespMessage : Except Err Bytes := finalizeMessage defaultMaxPacketSize 13 0 []

/-- The serialize dispatch of serialize.ts.  PingReq and PingResp return
the precomputed singletons, bypassing the current writer state. -/
def serialize (maxSize : Nat) : Packet → Except Err Bytes
  | .connect p => serializeConnect maxSize p
  | .connack p => serializeConnAck maxSize p
  | .publish p => serializePublish maxSize p
  | .puback p => serializePubAckLike maxSize 4 0 p
  | .pubrec p => serializePubAckLike maxSize 5 0 p
  | .pubrel p => serializePubAckLike maxSize 6 2 p
  | .pubcomp p => serializePubAckLike maxSize 7 0 p
  | .subscribe p => serializeSubscribe maxSize p
  | .suback p => serializeSubAckLike maxSize 9 p
  | .unsubscribe p => serializeUnsubscribe maxSize p
  | .unsuback p => serializeSubAckLike maxSize 11 p
  | .pingreq => PingReqMessage
  | .pingresp => PingRespMessage
  | .disconnect p => serializeDisconnect maxSize p
  | .auth p => serializeAuth maxSize p

/-- The try-catch around the will payload in deserializeConnectPacket: the
length prefix is read, the string read is attempted (it only fails on
underflow, since the TextDecoder is non-fatal), and on failure the reader
sits after the length prefix and readBinaryData starts over from there. -/
def readWillPayload (w : Bytes) : Except Err (PayloadVal × Bytes) :=
  match readU16 w with
  | .error e => .error e
  | .ok (len, w2) =>
    match takeN len w2 with
    | .ok (s, w') => .ok (.str s, w')
    | .error _ =>
      match readBinary w2 with
      | .error e => .error e
      | .ok (b, w') => .ok (.bin b, w')

/-- deserializeConnectPacket of deserialize.ts.  The bit tests on the
connect flags byte are written arithmetically: for a byte below 256,
`(f & 128) !== 0` is `f / 128 % 2 = 1`, and the will QoS field
`(f & 0b11000) >> 3` is `f / 8 % 4`. -/
def parseConnect (w : Bytes) : Except Err ConnectPacket :=
  match readUTF8 w with
  | .error e => .error e
  | .ok (pname, w) =>
    if pname ≠ mqttStr then .error "received the invalid protocol_name"
    else
      match readU8 w with
      | .error e => .error e
      | .ok (pver, w) =>
        if pver ≠ 5 then .error "received the invalid protocol_version"
        else
          match readU8 w with
          | .error e => .error e
          | .ok (f, w) =>
            match readU16 w with
            | .error e => .error e
            | .ok (keepalive, w) =>
              match readProperties w with
              | .error e => .error e
              | .ok (props, w) =>
                match readUTF8 w with
                | .error e => .error e
                | .ok (cid, w) =>
                  match (if f / 4 % 2 = 1 then
                           match readProperties w with
                           | .error e => .error e
                           | .ok (wprops, w) =>
                             match readUTF8 w with
                             | .error e => .error e
                             | .ok (wtopic, w) =>
                               match readWillPayload w with
                               | .error e => .error e
                               | .ok (wpayload, w) =>
                                 .ok (some { qos := some (f / 8 % 4),
                                             retain := some (f / 32 % 2 = 1),
                                             topic := wtopic,
                                             payload := some wpayload,
                                             properties := wprops }, w)
                         else .ok (none, w) :
                           Except Err (Option Will × Bytes)) with
                  | .error e => .error e
                  | .ok (will, w) =>
                    match (if f / 128 % 2 = 1 then
                             match readUTF8 w with
                             | .error e => .error e
                             | .ok (u, w) => .ok (some u, w)
                           else .ok (none, w) :
                             Except Err (Option Bytes × Bytes)) with
                    | .error e => .error e
                    | .ok (username, w) =>
                      match (if f / 64 % 2 = 1 then
                               match readUTF8 w with
                               | .error e => .error e
                               | .ok (pw, w) => .ok (some pw, w)
                             else .ok (none, w) :
                               Except Err (Option Bytes × Bytes)) with
                      | .error e => .error e
                      | .ok (password, _) =>
                        .ok { protocol_name := some mqttStr,
                              protocol_version := some 5,
                              clean_start := some (f / 2 % 2 = 1),
                              client_id := some cid,
                              username := username,
                              password := password,
                              keepalive := some keepalive,
                              will := will,
                              properties := props }

/-- deserializeConnAckPacket of deserialize.ts. -/
def parseConnAck (w : Bytes) : Except Err ConnAckPacket :=
  match readU8 w with
  | .error e => .error e
  | .ok (sp, w) =>
    match readU8 w with
    | .error e => .error e
    | .ok (rc, w) =>
      match readProperties w with
      | .error e => .error e
      | .ok (props, _) =>
        .ok { session_present := some (sp = 1),
              connect_reason_code := some rc,
              properties := props }

/-- deserializePublishPacket of deserialize.ts with the default
PayloadFormatIndicator option: dup bit 3, retain bit 0, QoS bits 1-2; the
packet identifier is read exactly when the QoS is non-zero; the remaining
window is the payload, a string when the decoded payload format indicator
property is truthy, otherwise a DataReader sub-view. -/
def parsePublish (flags : Nat) (w : Bytes) : Except Err PublishPacket :=
  match readUTF8 w with
  | .error e => .error e
  | .ok (t, w) =>
    match asTopicE t with
    | .error e => .error e
    | .ok topic =>
      match (if flags / 2 % 4 ≠ 0 then
               match readU16 w with
               | .error e => .error e
               | .ok (pid, w) => .ok (some (flags / 2 % 4), some pid, w)
             else .ok (none, none, w) :
               Except Err (Option Nat × Option Nat × Bytes)) with
      | .error e => .error e
      | .ok (qos, pid, w) =>
        match readProperties w with
        | .error e => .error e
        | .ok (props, w) =>
          .ok { packet_identifier := pid,
                dup := if flags / 8 % 2 = 1 then some true else none,
                qos := qos,
                retain := if flags % 2 = 1 then some true else none,
                topic := topic,
                payload :=
                  match w with
                  | [] => none
                  | _ :: _ =>
                    match props.bind (·.payload_format_indicator) with
                    | some v => if v ≠ 0 then some (.str w) else some (.bin w)
                    | none => some (.bin w),
                properties := props }

/-- Common decoder of PubAck, PubRec, PubRel and PubComp: after the packet
identifier, a reason code and properties follow only when bytes remain. -/
def parsePubAckLike (w : Bytes) : Except Err PubAckLikePacket :=
  match readU16 w with
  | .error e => .error e
  | .ok (pid, w) =>
    match w with
    | [] => .ok { packet_identifier := pid }
    | _ :: _ =>
      match readU8 w with
      | .error e => .error e
      | .ok (rc, w) =>
        match readProperties w with
        | .error e => .error e
        | .ok (props, _) =>
          .ok { packet_identifier := pid, reason_code := some rc, properties := props }

/-- Structural helper for the subscription-entry loop (fuel as in
`readPropsLoopF`; every iteration consumes at least three bytes, and the
inner `take` is the identity). -/
def readSubscriptionsF : Nat → Bytes → Except Err (List Subscription)
  | _, [] => .ok []
  | 0, _ :: _ => .ok []
  | fuel + 1, w@(_ :: tl) =>
    match readUTF8 w with
    | .error e => .error e
    | .ok (t, w2) =>
      match asTopicFilterE t with
      | .error e => .error e
      | .ok t =>
        match readU8 w2 with
        | .error e => .error e
        | .ok (f, rest) =>
          match readSubscriptionsF fuel (rest.take tl.length) with
          | .error e => .error e
          | .ok subs =>
            .ok ({ topic := t,
                   qos := if f % 4 = 0 then none else some (f % 4),
                   no_local := if f / 4 % 2 = 1 then some true else none,
                   retain_handling := if f / 16 = 0 then none else some (f / 16),
                   retain_as_published := if f / 8 % 2 = 1 then some true else none } :: subs)

/-- The subscription-entry loop of deserializeSubscribePacket. -/
def readSubscriptions (w : Bytes) : Except Err (List Subscription) :=
  readSubscriptionsF w.length w

/-- The post-processing of the decoded properties in
deserializeSubscribePacket: the subscription identifier list collapses to
its first element, user properties are copied, all other properties are
dropped; the record exists only when one of the two is present. -/
def subscribePropsOfAll (a : Option AllProperties) : Option SubscribeProps :=
  let si := a.bind (·.subscription_identifier)
  let up := a.bind (·.user_properties)
  if si = none ∧ up = none then none
  else some { subscription_identifier := si.bind List.head?, user_properties := up }

/-- deserializeSubscribePacket of deserialize.ts, including its flag check. -/
def parseSubscribe (flags : Nat) (w : Bytes) : Except Err SubscribePacket :=
  if flags ≠ 2 then .error "Invalid flags for Subscribe packet"
  else
    match readU16 w with
    | .error e => .error e
    | .ok (pid, w) =>
      match readProperties w with
      | .error e => .error e
      | .ok (props, w) =>
        match readSubscriptions w with
        | .error e => .error e
        | .ok subs =>
          .ok { packet_identifier := pid,
                subscriptions := subs,
                properties := subscribePropsOfAll props }

/-- The reason-code tail of SubAck and UnsubAck: one byte per entry until
the window ends (each getUint8 masks the stored cell). -/
def readReasonCodes (w : Bytes) : List Nat := w.map (· % 256)

/-- deserializeSubAckPacket / deserializeUnsubAckPacket of deserialize.ts. -/
def parseSubAckLike (w : Bytes) : Except Err SubAckPacket :=
  match readU16 w with
  | .error e => .error e
  | .ok (pid, w) =>
    match readProperties w with
    | .error e => .error e
    | .ok (props, w) =>
      .ok { packet_identifier := pid,
            reason_codes := readReasonCodes w,
            properties := props }

/-- Structural helper for the topic-filter loop (fuel as in
`readPropsLoopF`; the inner `take` is the identity). -/
def readTopicFiltersF : Nat → Bytes → Except Err (List Bytes)
  | _, [] => .ok []
  | 0, _ :: _ => .ok []
  | fuel + 1, w@(_ :: tl) =>
    match readUTF8 w with
    | .error e => .error e
    | .ok (t, rest) =>
      match asTopicFilterE t with
      | .error e => .error e
      | .ok t =>
        match readTopicFiltersF fuel (rest.take tl.length) with
        | .error e => .error e
        | .ok ts => .ok (t :: ts)

/-- The topic-filter loop of deserializeUnsubscribePacket. -/
def readTopicFilters (w : Bytes) : Except Err (List Bytes) :=
  readTopicFiltersF w.length w

/-- deserializeUnsubscribePacket of deserialize.ts. -/
def parseUnsubscribe (w : Bytes) : Except Err UnsubscribePacket :=
  match readU16 w with
  | .error e => .error e
  | .ok (pid, w) =>
    match readProperties w with
    | .error e => .error e
    | .ok (props, w) =>
      match readTopicFilters w with
      | .error e => .error e
      | .ok ts =>
        .ok { packet_identifier := pid, topic_filters := ts, properties := props }

/-- deserializeDisconnectPacket / deserializeAuthPacket of deserialize.ts:
an empty window yields the bare packet, otherwise reason code and
properties follow. -/
def parseReasonCodePacket (w : Bytes) : Except Err ReasonCodePacket :=
  match w with
  | [] => .ok {}
  | _ :: _ =>
    match readU8 w with
    | .error e => .error e
    | .ok (rc, w) =>
      match readProperties w with
      | .error e => .error e
      | .ok (props, _) => .ok { reason_code := some rc, properties := props }

/-- FixedHeader of packets.ts. -/
structure FixedHeader where
  type : Nat
  flags : Nat
  length : Nat
deriving Repr, DecidableEq

/-- readFixedHeader of deserialize.ts: the control byte, then the remaining
length read gracefully; an incomplete variable-byte integer yields
undefined (`none`). -/
def readFixedHeader (l : Bytes) : Except Err (Option (FixedHeader × Bytes)) :=
  match readU8 l with
  | .error e => .error e
  | .ok (d, l) =>
    match readVBIGraceful l with
    | .error e => .error e
    | .ok none => .ok none
    | .ok (some (len, l)) =>
      .ok (some ({ type := d / 16, flags := d % 16, length := len }, l))

/-- The per-type dispatch of deserializePacket over a window that holds
exactly the remaining length.  PubRel checks its reserved flag nibble. -/
def parseBody (ty flags : Nat) (w : Bytes) : Except Err Packet :=
  if ty = 1 then (parseConnect w).map .connect
  else if ty = 2 then (parseConnAck w).map .connack
  else if ty = 3 then (parsePublish flags w).map .publish
  else if ty = 4 then (parsePubAckLike w).map .puback
  else if ty = 5 then (parsePubAckLike w).map .pubrec
  else if ty = 6 then
    if flags ≠ 2 then .error "Invalid flags for PubRel packet"
    else (parsePubAckLike w).map .pubrel
  else if ty = 7 then (parsePubAckLike w).map .pubcomp
  else if ty = 8 then (parseSubscribe flags w).map .subscribe
  else if ty = 9 then (parseSubAckLike w).map .suback
  else if ty = 10 then (parseUnsubscribe w).map .unsubscribe
  else if ty = 11 then (parseSubAckLike w).map .unsuback
  else if ty = 12 then .ok .pingreq
  else if ty = 13 then .ok .pingresp
  else if ty = 14 then (parseReasonCodePacket w).map .disconnect
  else if ty = 15 then (parseReasonCodePacket w).map .auth
  else .error "not implemented yet"

/-- deserializePacket of deserialize.ts: split off the window of exactly
`remainingLength` bytes (advancing the outer reader), then dispatch.  The
second component is what remains of the outer stream. -/
def deserializePacket (fh : FixedHeader) (l : Bytes) : Except Err (Packet × Bytes) :=
  match takeN fh.length l with
  | .error e => .error e
  | .ok (w, rest) =>
    match parseBody fh.type fh.flags w with
    | .error e => .error e
    | .ok p => .ok (p, rest)

/-- Decoding one whole packet from the front of a buffer: fixed header
followed by the dispatch; an incomplete header is an error here. -/
def decodePacket (l : Bytes) : Except Err (Packet × Bytes) :=
  match readFixedHeader l with
  | .error e => .error e
  | .ok none => .error "incomplete fixed header"
  | .ok (some (fh, l)) => deserializePacket fh l

instance instDecEqExcept {A B : Type} [DecidableEq A] [DecidableEq B] :
    DecidableEq (Except A B)
  | .error x, .error y =>
    if h : x = y then .isTrue (by rw [h])
    else .isFalse (by intro hc; cases hc; exact h rfl)
  | .error _, .ok _ => .isFalse (by intro hc; cases hc)
  | .ok _, .error _ => .isFalse (by intro hc; cases hc)
  | .ok x, .ok y =>
    if h : x = y then .isTrue (by rw [h])
    else .isFalse (by intro hc; cases hc; exact h rfl)

/-- Result of one DeserializeStream.transform call: the sequence of
controller emissions (a decoded packet per enqueue, an error per
controller.error), the partial-chunk carry afterwards ([] plays the role of
undefined), and an exception escaping transform (only a malformed
remaining-length in the fixed header, which the source does not catch).
The loop of transform: read a fixed header; when it is incomplete or fewer
bytes than the remaining length follow, the rest of the buffer becomes the
carry; otherwise decode the window, emit, and continue. -/
structure ChunkOut where
  emits : List (Except Err Packet)
  carry : Bytes
  thrown : Option Err := none
deriving Repr, DecidableEq

/-- The loop of DeserializeStream.transform over the merged buffer: read a
fixed header; when it is incomplete or fewer bytes than the remaining
length follow, the rest of the buffer becomes the carry; otherwise decode
the window, emit, and continue.  The inner `take` is the identity (the
header consumes at least two bytes); it makes the structural decrease
evident. -/
def processChunkF : Nat → Bytes → ChunkOut
  | _, [] => { emits := [], carry := [] }
  | 0, bs@(_ :: _) => { emits := [], carry := bs }
  | fuel + 1, bs@(_ :: tl) =>
    match readFixedHeader bs with
    | .error e => { emits := [], carry := [], thrown := some e }
    | .ok none => { emits := [], carry := bs }
    | .ok (some (fh, after)) =>
      if after.length < fh.length then { emits := [], carry := bs }
      else
        match takeN fh.length after with
        | .error e => { emits := [], carry := [], thrown := some e }
        | .ok (w, rest) =>
          let out := processChunkF fuel (rest.take tl.length)
          { out with emits := parseBody fh.type fh.flags w :: out.emits }

/-- The loop of DeserializeStream.transform (fuel as in `readPropsLoopF`;
the header consumes at least two bytes, so fuel at or above the buffer
length is sufficient and the inner `take` is the identity). -/
def processChunk (bs : Bytes) : ChunkOut := processChunkF bs.length bs

/-- DeserializeStream.transform: prepend the carry to the incoming chunk
and run the loop. -/
def transformStep (carry chunk : Bytes) : ChunkOut := processChunk (carry ++ chunk)

/-- Feeding a sequence of chunks through the transformer, collecting all
emissions and the final carry.  After an escaped exception the stream is
errored and no further chunk is processed. -/
def feed (carry : Bytes) : List Bytes → List (Except Err Packet) × Bytes
  | [] => ([], carry)
  | c :: cs =>
    let out := transformStep carry c
    match out.thrown with
    | some _ => (out.emits, out.carry)
    | none =>
      let (es, fin) := feed out.carry cs
      (out.emits ++ es, fin)

/-- Decoded form of a serialized property section: the section carries no
record when no entry was written, otherwise the decoder folds the entries
into the empty record in writing order. -/
def normalizeProps (es : List PropEntry) : Option AllProperties :=
  if es.isEmpty then none else some (es.foldl applyEntry {})

/-- Decoded form of an Except-producing property section (total; the error
branch is unreachable whenever serialization succeeded). -/
def normalizePropsE (r : Except Err (List PropEntry)) : Option AllProperties :=
  match r with
  | .ok es => normalizeProps es
  | .error _ => none

/-- Canonical form of a will after a round trip: QoS and retain become
explicit (defaulting to 0 and false), the payload always decodes as a
string (absent encodes as a zero-length string; a binary payload is read
back through the non-fatal text decoder), and the property record is the
decoded section. -/
def normalizeWill (w : Will) : Will :=
  { qos := some (w.qos.getD 0),
    retain := some (w.retain.getD false),
    topic := w.topic,
    payload := some (.str (willRawBytes w.payload)),
    properties := normalizeProps
      (willPropEntries (isStrPayload w.payload) (w.properties.getD {})) }

/-- Canonical form of a Connect packet after a round trip. -/
def normalizeConnect (p : ConnectPacket) : ConnectPacket :=
  { protocol_name := some mqttStr,
    protocol_version := some 5,
    clean_start := some (p.clean_start.getD true),
    client_id := some (p.client_id.getD []),
    username := p.username,
    password := p.password,
    keepalive := some (p.keepalive.getD 0),
    will := p.will.map normalizeWill,
    properties := normalizePropsE (connectPropEntriesE (p.properties.getD {})) }

/-- Canonical form of a ConnAck packet after a round trip. -/
def normalizeConnAck (p : ConnAckPacket) : ConnAckPacket :=
  { session_present := some (p.session_present.getD false),
    connect_reason_code := some (p.connect_reason_code.getD 0),
    properties := normalizePropsE (connAckPropEntriesE (p.properties.getD {})) }

/-- Canonical form of a Publish packet after a round trip: dup, retain and
QoS are materialized only when set, an empty payload decodes as absent, the
payload format indicator is derived from the payload type. -/
def normalizePublish (p : PublishPacket) : PublishPacket :=
  { packet_identifier := if p.qos.getD 0 = 0 then none else p.packet_identifier,
    dup := if p.dup = some true then some true else none,
    qos := if p.qos.getD 0 = 0 then none else some (p.qos.getD 0),
    retain := if p.retain = some true then some true else none,
    topic := p.topic,
    payload := match p.payload with
      | none => none
      | some (.str s) => if s = [] then none else some (.str s)
      | some (.bin b) => if b = [] then none else some (.bin b),
    properties := normalizeProps
      (publishPropEntries (isStrPayload p.payload) (p.properties.getD {})) }

/-- Canonical form of the four publish acknowledgement packets. -/
def normalizePubAckLike (p : PubAckLikePacket) : PubAckLikePacket :=
  if p.reason_code = some 0 ∧ p.properties = none then
    { packet_identifier := p.packet_identifier }
  else
    { packet_identifier := p.packet_identifier,
      reason_code := some (p.reason_code.getD 0),
      properties := normalizeProps (ackPropEntries (p.properties.getD {})) }

/-- Canonical form of one subscription entry. -/
def normalizeSubscription (s : Subscription) : Subscription :=
  { topic := s.topic,
    qos := if s.qos.getD 0 = 0 then none else some (s.qos.getD 0),
    no_local := if s.no_local = some true then some true else none,
    retain_handling :=
      if s.retain_handling.getD 0 = 0 then none else some (s.retain_handling.getD 0),
    retain_as_published :=
      if s.retain_as_published = some true then some true else none }

/-- Canonical form of a Subscribe packet. -/
def normalizeSubscribe (p : SubscribePacket) : SubscribePacket :=
  { packet_identifier := p.packet_identifier,
    subscriptions := p.subscriptions.map normalizeSubscription,
    properties := subscribePropsOfAll
      (normalizeProps (subscribePropEntries (p.properties.getD {}))) }

/-- Canonical form of SubAck and UnsubAck packets. -/
def normalizeSubAckLike (p : SubAckPacket) : SubAckPacket :=
  { packet_identifier := p.packet_identifier,
    reason_codes := p.reason_codes,
    properties := normalizeProps (ackPropEntries (p.properties.getD {})) }

/-- Canonical form of an Unsubscribe packet. -/
def normalizeUnsubscribe (p : UnsubscribePacket) : UnsubscribePacket :=
  { packet_identifier := p.packet_identifier,
    topic_filters := p.topic_filters,
    properties := normalizeProps (unsubscribePropEntries (p.properties.getD {})) }

/-- Canonical form of a Disconnect packet. -/
def normalizeDisconnect (p : ReasonCodePacket) : ReasonCodePacket :=
  if p.reason_code.getD 0 = 0 ∧ p.properties = none then {}
  else
    { reason_code := some (p.reason_code.getD 0),
      properties := normalizeProps (disconnectPropEntries (p.properties.getD {})) }

/-- Canonical form of an Auth packet. -/
def normalizeAuth (p : ReasonCodePacket) : ReasonCodePacket :=
  if p.reason_code.getD 0 = 0 ∧ p.properties = none then {}
  else
    { reason_code := some (p.reason_code.getD 0),
      properties := normalizePropsE (authPropEntriesE (p.properties.getD {})) }

/-- Canonical form of a packet: the value the decoder returns for the bytes
the encoder produces.  Fields the encoder defaults are materialized, fields
the decoder leaves out at their default are dropped, truthiness-suppressed
properties disappear, and the payload format indicator is derived from the
payload type. -/
def normalizePacket : Packet → Packet
  | .connect p => .connect (normalizeConnect p)
  | .connack p => .connack (normalizeConnAck p)
  | .publish p => .publish (normalizePublish p)
  | .puback p => .puback (normalizePubAckLike p)
  | .pubrec p => .pubrec (normalizePubAckLike p)
  | .pubrel p => .pubrel (normalizePubAckLike p)
  | .pubcomp p => .pubcomp (normalizePubAckLike p)
  | .subscribe p => .subscribe (normalizeSubscribe p)
  | .suback p => .suback (normalizeSubAckLike p)
  | .unsubscribe p => .unsubscribe (normalizeUnsubscribe p)
  | .unsuback p => .unsuback (normalizeSubAckLike p)
  | .pingreq => .pingreq
  | .pingresp => .pingresp
  | .disconnect p => .disconnect (normalizeDisconnect p)
  | .auth p => .auth (normalizeAuth p)

/-- A byte sequence that fits a two-byte length prefix, every cell a byte. -/
def StrOK (s : Bytes) : Prop := s.length ≤ 65535 ∧ ∀ b ∈ s, b < 256

/-- Every cell a byte (for raw, unprefixed payloads). -/
def RawOK (s : Bytes) : Prop := ∀ b ∈ s, b < 256

/-- Validity of a property-entry list: each entry valid and the serialized
section short enough for its variable-byte-integer length prefix. -/
def ValidEntries (es : List PropEntry) : Prop :=
  (∀ e ∈ es, ValidEntry e) ∧ (catList (es.map encodePropEntry)).length ≤ 268435455

/-- Validity of an Except-producing property section: constraints apply
when the section serializes at all. -/
def ValidEntriesE (r : Except Err (List PropEntry)) : Prop :=
  match r with
  | .ok es => ValidEntries es
  | .error _ => True

/-- Validity of a will: well-formed topic string, QoS within its two flag
bits, a payload that is a string when present (a binary will payload is
read back as text by the decoder and is excluded here), valid props. -/
def ValidWill (w : Will) : Prop :=
  StrOK w.topic ∧ w.qos.getD 0 ≤ 3 ∧
  (match w.payload with
   | none => True
   | some (.str s) => StrOK s
   | some (.bin _) => False) ∧
  ValidEntries (willPropEntries (isStrPayload w.payload) (w.properties.getD {}))

/-- Validity of a Connect packet (its TS type pins the protocol name and
version when present). -/
def ValidConnect (p : ConnectPacket) : Prop :=
  (p.protocol_name = none ∨ p.protocol_name = some mqttStr) ∧
  (p.protocol_version = none ∨ p.protocol_version = some 5) ∧
  StrOK (p.client_id.getD []) ∧
  (∀ u, p.username = some u → StrOK u) ∧
  (∀ pw, p.password = some pw → StrOK pw) ∧
  p.keepalive.getD 0 < 65536 ∧
  (∀ w, p.will = some w → ValidWill w) ∧
  ValidEntriesE (connectPropEntriesE (p.properties.getD {}))

/-- Validity of a ConnAck packet. -/
def ValidConnAck (p : ConnAckPacket) : Prop :=
  p.connect_reason_code.getD 0 < 256 ∧
  ValidEntriesE (connAckPropEntriesE (p.properties.getD {}))

/-- Validity of a Publish packet: a valid topic (the decoder re-validates
it), QoS within its two flag bits, a sixteen-bit identifier, byte-clean
payload, valid props. -/
def ValidPublish (p : PublishPacket) : Prop :=
  StrOK p.topic ∧ topicOKb p.topic = true ∧
  p.qos.getD 0 ≤ 3 ∧
  (∀ i, p.packet_identifier = some i → i < 65536) ∧
  (match p.payload with
   | none => True
   | some (.str s) => RawOK s
   | some (.bin b) => RawOK b) ∧
  ValidEntries (publishPropEntries (isStrPayload p.payload) (p.properties.getD {}))

/-- Validity of the four publish acknowledgement packets. -/
def ValidPubAckLike (p : PubAckLikePacket) : Prop :=
  p.packet_identifier < 65536 ∧ p.reason_code.getD 0 < 256 ∧
  ValidEntries (ackPropEntries (p.properties.getD {}))

/-- Validity of a Subscribe packet: valid topic filters (the decoder
re-validates them), QoS and retain handling within their flag bits. -/
def ValidSubscribe (p : SubscribePacket) : Prop :=
  p.packet_identifier < 65536 ∧
  (∀ s ∈ p.subscriptions,
    StrOK s.topic ∧ topicFilterOKb s.topic = true ∧
    s.qos.getD 0 ≤ 3 ∧ s.retain_handling.getD 0 ≤ 3) ∧
  ValidEntries (subscribePropEntries (p.properties.getD {}))

/-- Validity of SubAck and UnsubAck packets. -/
def ValidSubAckLike (p : SubAckPacket) : Prop :=
  p.packet_identifier < 65536 ∧
  (∀ rc ∈ p.reason_codes, rc < 256) ∧
  ValidEntries (ackPropEntries (p.properties.getD {}))

/-- Validity of an Unsubscribe packet. -/
def ValidUnsubscribe (p : UnsubscribePacket) : Prop :=
  p.packet_identifier < 65536 ∧
  (∀ f ∈ p.topic_filters, StrOK f ∧ topicFilterOKb f = true) ∧
  ValidEntries (unsubscribePropEntries (p.properties.getD {}))

/-- Validity of a Disconnect packet. -/
def ValidDisconnect (p : ReasonCodePacket) : Prop :=
  p.reason_code.getD 0 < 256 ∧
  ValidEntries (disconnectPropEntries (p.properties.getD {}))

/-- Validity of an Auth packet. -/
def ValidAuth (p : ReasonCodePacket) : Prop :=
  p.reason_code.getD 0 < 256 ∧
  ValidEntriesE (authPropEntriesE (p.properties.getD {}))

/-- Validity of a packet built from its typed representation. -/
def ValidPacket : Packet → Prop
  | .connect p => ValidConnect p
  | .connack p => ValidConnAck p
  | .publish p => ValidPublish p
  | .puback p => ValidPubAckLike p
  | .pubrec p => ValidPubAckLike p
  | .pubrel p => ValidPubAckLike p
  | .pubcomp p => ValidPubAckLike p
  | .subscribe p => ValidSubscribe p
  | .suback p => ValidSubAckLike p
  | .unsubscribe p => ValidUnsubscribe p
  | .unsuback p => ValidSubAckLike p
  | .pingreq => True
  | .pingresp => True
  | .disconnect p => ValidDisconnect p
  | .auth p => ValidAuth p

instance : DecidablePred StrOK := fun s => by unfold StrOK; infer_instance

instance : DecidablePred RawOK := fun s => by unfold RawOK; infer_instance

instance : DecidablePred ValidEntries := fun es => by unfold ValidEntries; infer_instance

instance : DecidablePred ValidEntriesE := fun r => by
  unfold ValidEntriesE; cases r <;> simp <;> infer_instance

instance : DecidablePred ValidWill := fun w => by
  unfold ValidWill
  have : Decidable (match w.payload with
   | none => True
   | some (.str s) => StrOK s
   | some (.bin _) => False) := by
    rcases w.payload with _ | pv
    · exact inferInstanceAs (Decidable True)
    · cases pv <;> simp <;> infer_instance
  exact instDecidableAnd

instance : DecidablePred ValidConnect := fun p => by unfold ValidConnect; infer_instance

instance : DecidablePred ValidConnAck := fun p => by unfold ValidConnAck; infer_instance

instance : DecidablePred ValidPublish := fun p => by
  unfold ValidPublish
  have : Decidable (match p.payload with
   | none => True
   | some (.str s) => RawOK s
   | some (.bin b) => RawOK b) := by
    rcases p.payload with _ | pv
    · exact inferInstanceAs (Decidable True)
    · cases pv <;> simp <;> infer_instance
  infer_instance

instance : DecidablePred ValidPubAckLike := fun p => by
  unfold ValidPubAckLike; infer_instance

instance : DecidablePred ValidSubscribe := fun p => by
  unfold ValidSubscribe; infer_instance

instance : DecidablePred ValidSubAckLike := fun p => by
  unfold ValidSubAckLike; infer_instance

instance : DecidablePred ValidUnsubscribe := fun p => by
  unfold ValidUnsubscribe; infer_instance

instance : DecidablePred ValidDisconnect := fun p => by
  unfold ValidDisconnect; infer_instance

instance : DecidablePred ValidAuth := fun p => by unfold ValidAuth; infer_instance

instance : DecidablePred ValidPacket := fun p => by
  cases p <;> unfold ValidPacket <;> infer_instance

/-- A whole encoded control packet: a control byte, the remaining length as
a variable-byte integer within the protocol bound, and exactly that many
body bytes.  Every successful output of `serialize` has this shape. -/
def Framed (bs : Bytes) : Prop :=
  ∃ b n body, bs = b :: encodeVBI n ++ body ∧ body.length = n ∧ n ≤ 268435455

/-- The packet value the transformer emits for one whole frame: the decode
of the frame, first component only (transform drops the empty remainder). -/
def frameEmit (f : Bytes) : Except Err Packet := (decodePacket f).map Prod.fst

/-- ClientProperties of Client.ts (times in milliseconds). -/
structure ClientProperties where
  reconnectTime : Option Nat := none
  connectTimeout : Option Nat := none
deriving Repr, DecidableEq

/-- DefaultClientProperties of Client.ts. -/
structure ResolvedClientProperties where
  reconnectTime : Nat
  connectTimeout : Nat
deriving Repr, DecidableEq

/-- DefaultClientProperties of Client.ts: reconnect after 1000 ms, await
the ConnAck for 10000 ms. -/
def DefaultClientProperties : ResolvedClientProperties :=
  { reconnectTime := 1000, connectTimeout := 10000 }

/-- The deadline (in milliseconds) Client.#handleMessages actually passes
to `deadline(r.read(), ...)` while awaiting the ConnAck: the literal 1000,
ignoring the configured connectTimeout (Client.ts line 461). -/
def connAckAwaitDeadlineMs (_props : Option ClientProperties) : Nat := 1000

/-- The delay between reconnect attempts: the configured reconnectTime or
its documented default. -/
def reconnectDelayMs (props : Option ClientProperties) : Nat :=
  ((props.bind (·.reconnectTime)).getD DefaultClientProperties.reconnectTime)

/-- Outcome of the ConnAck wait in Client.#handleMessages: the connection
is accepted only when a packet arrived in time, the stream was not done and
the packet is a ConnAck; otherwise the transport is closed, a
FailedConnectionAttempt is emitted, the engine sleeps reconnectTime and
retries.  `none` stands for a deadline overrun or a closed stream. -/
inductive ConnAckOutcome where
  | accepted (ack : ConnAckPacket)
  | failedAttempt
deriving Repr, DecidableEq

/-- The dispatch on the first read result in Client.#handleMessages. -/
def connAckPhase (readResult : Option Packet) : ConnAckOutcome :=
  match readResult with
  | some (.connack a) => .accepted a
  | _ => .failedAttempt

/-- JS truthiness of an optional number (0 and undefined are falsy). -/
def truthyNat : Option Nat → Bool
  | none => false
  | some n => decide (n ≠ 0)

/-- The guard in Client.#handleMessages around the keepalive timer: a timer
is started only when the requested keepalive or the server-advertised
keepalive is truthy. -/
def keepaliveTimerStarted (ck sk : Option Nat) : Bool :=
  truthyNat ck || truthyNat sk

/-- The keepalive seconds the timer uses: the server-advertised value when
defined, else the requested one, else the defensive 5-second fallback
(which the guard makes unreachable). -/
def keepAliveSecondsUsed (ck sk : Option Nat) : Nat :=
  match sk with
  | some s => s
  | none =>
    match ck with
    | some c => c
    | none => 5

/-- The setInterval period: keepalive seconds times 1000 minus the 100 ms
safety margin (in JS arithmetic, possibly negative). -/
def pingIntervalMs (ck sk : Option Nat) : Int :=
  (keepAliveSecondsUsed ck sk : Int) * 1000 - 100

/-- What one keepalive tick does. -/
inductive TickResult where
  | sentPingReq
  | aborted
deriving Repr, DecidableEq

/-- One tick of the keepalive interval in Client.#handleMessages: if the
time since the last PingResp exceeds keepalive seconds times 1500 ms, the
tick signals PingFailed and closes the transport without sending; otherwise
it writes the PingReq singleton, and a failed write also signals PingFailed
and closes the transport. -/
def keepaliveTick (msSinceLastPingResp keepAliveSeconds : Nat)
    (writeSucceeds : Bool) : TickResult :=
  if msSinceLastPingResp > keepAliveSeconds * 1500 then .aborted
  else if writeSucceeds then .sentPingReq else .aborted

/-- The reply-correlation table of Client.ts: one slot per packet
identifier, `true` when a resolver pair occupies the slot.  Slot 0 holds
the sentinel resolver after #clearPendingReplies. -/
def clearPendingReplies : List Bool := [true]

/-- Client.#getPacketIdentifierHandler: find the smallest free slot; when
none exists the next slot is the list length, rejected beyond 65535;
allocation occupies the chosen slot (growing the list by one at the end). -/
def allocIdentifier (l : List Bool) : Except Err (Nat × List Bool) :=
  match l.findIdx? (fun b => b = false) with
  | some i => .ok (i, l.set i true)
  | none =>
    if l.length > 65535 then .error "Too many pending replies, max is 65535"
    else .ok (l.length, l ++ [true])

/-- The SubAck/UnsubAck dispatch in Client.#handleMessages clears the slot
of the acknowledged identifier unconditionally; a JS assignment beyond the
array length extends it with holes, which behave as free slots. -/
def resolveSlot (l : List Bool) (pid : Nat) : List Bool :=
  if pid < l.length then l.set pid false
  else l ++ List.replicate (pid + 1 - l.length) false

/-- States of the reply-correlation table reachable through the operations
of Client.ts: the initial clear, an allocation by subscribe or unsubscribe,
the dispatch of an acknowledgement carrying any sixteen-bit identifier, and
the clear on connection loss. -/
inductive ReachableTable : List Bool → Prop where
  | init : ReachableTable clearPendingReplies
  | alloc (l : List Bool) (i : Nat) (l' : List Bool) :
      ReachableTable l → allocIdentifier l = .ok (i, l') → ReachableTable l'
  | resolve (l : List Bool) (pid : Nat) :
      ReachableTable l → pid < 65536 → ReachableTable (resolveSlot l pid)
  | clear (l : List Bool) : ReachableTable l → ReachableTable clearPendingReplies

/-- States reachable when every incoming acknowledgement carries a non-zero
identifier (the identifiers the client itself issues). -/
inductive ReachableTableNZ : List Bool → Prop where
  | init : ReachableTableNZ clearPendingReplies
  | alloc (l : List Bool) (i : Nat) (l' : List Bool) :
      ReachableTableNZ l → allocIdentifier l = .ok (i, l') → ReachableTableNZ l'
  | resolve (l : List Bool) (pid : Nat) :
      ReachableTableNZ l → 1 ≤ pid → pid < 65536 → ReachableTableNZ (resolveSlot l pid)
  | clear (l : List Bool) : ReachableTableNZ l → ReachableTableNZ clearPendingReplies

/-- Number of outstanding replies: occupied slots above the sentinel. -/
def outstandingCount (l : List Bool) : Nat :=
  (l.drop 1).count true

theorem readU8_u8 (n : Nat) (r : Bytes) : readU8 (u8 n ++ r) = .ok (n % 256, r) := by
  have h : n % 256 % 256 = n % 256 := by omega
  simp [u8, readU8, h]

theorem readU16_u16 (n : Nat) (r : Bytes) :
    readU16 (u16 n ++ r) = .ok (n % 65536, r) := by
  simp [u16, readU16]
  omega

theorem readU32_u32 (n : Nat) (r : Bytes) :
    readU32 (u32 n ++ r) = .ok (n % 4294967296, r) := by
  simp [u32, readU32]
  omega

theorem takeN_exact {a : Bytes} {n : Nat} (h : a.length = n) (r : Bytes) :
    takeN n (a ++ r) = .ok (a, r) := by
  have hle : n ≤ a.length + r.length := by omega
  simp [takeN, List.length_append, hle, List.take_left' h, List.drop_left' h]

theorem readUTF8_utf8S {s : Bytes} (h : s.length ≤ 65535) (r : Bytes) :
    readUTF8 (utf8S s ++ r) = .ok (s, r) := by
  have hm : s.length % 65536 = s.length := Nat.mod_eq_of_lt (by omega)
  unfold utf8S readUTF8
  rw [List.append_assoc, readU16_u16]
  show takeN (s.length % 65536) (s ++ r) = .ok (s, r)
  rw [hm]
  exact takeN_exact rfl r

theorem readBinary_utf8S {s : Bytes} (h : s.length ≤ 65535) (r : Bytes) :
    readBinary (utf8S s ++ r) = .ok (s, r) := readUTF8_utf8S h r

theorem encodeVBIAux_mono : ∀ (f1 f2 n : Nat), n ≤ f1 → n ≤ f2 →
    encodeVBIAux f1 n = encodeVBIAux f2 n := by
  intro f1
  induction f1 with
  | zero =>
    intro f2 n h1 h2
    have hn : n = 0 := by omega
    subst hn
    cases f2 <;> simp [encodeVBIAux]
  | succ f ih =>
    intro f2 n h1 h2
    cases f2 with
    | zero =>
      have hn : n = 0 := by omega
      subst hn
      simp [encodeVBIAux]
    | succ g =>
      simp only [encodeVBIAux]
      by_cases h : n < 128
      · simp [h]
      · simp only [h, if_false]
        have hd : n / 128 ≤ f := by
          have := @Nat.div_lt_self n 128 (by omega) (by norm_num : (1:Nat) < 128)
          omega
        have hd2 : n / 128 ≤ g := by
          have := @Nat.div_lt_self n 128 (by omega) (by norm_num : (1:Nat) < 128)
          omega
        rw [ih g (n / 128) hd hd2]

theorem encodeVBI_eq (n : Nat) :
    encodeVBI n = if n < 128 then [n] else (n % 128 + 128) :: encodeVBI (n / 128) := by
  unfold encodeVBI
  cases hn : n with
  | zero => simp [encodeVBIAux]
  | succ m =>
    simp only [encodeVBIAux]
    by_cases h : m + 1 < 128
    · simp [h]
    · simp only [h, if_false]
      congr 1
      apply encodeVBIAux_mono
      · have := @Nat.div_lt_self (m + 1) 128 (by omega) (by norm_num : (1:Nat) < 128)
        omega
      · exact le_refl _

theorem encodeVBI_ne_nil (n : Nat) : encodeVBI n ≠ [] := by
  rw [encodeVBI_eq]
  split <;> simp

theorem readVBILoop_encode (n : Nat) : ∀ (g : Bool) (k v : Nat) (rest : Bytes),
    k ≤ 3 → n < 128 ^ (4 - k) →
    readVBILoop g (128 ^ k) v (encodeVBI n ++ rest)
      = .ok (some (v + n * 128 ^ k, rest)) := by
  induction n using Nat.strong_induction_on with
  | _ n ih =>
    intro g k v rest hk hn
    have hmul : ¬ (128 ^ k > 2097152) := by
      have : (128 : Nat) ^ k ≤ 128 ^ 3 := Nat.pow_le_pow_right (by norm_num) hk
      simp at this ⊢
      omega
    by_cases h : n < 128
    · rw [encodeVBI_eq]
      simp only [h, if_true]
      have h1 : n % 256 = n := by omega
      have h2 : n % 128 = n := by omega
      simp [readVBILoop, hmul, h1, h2, h]
    · rw [encodeVBI_eq]
      simp only [h, if_false]
      have hb2 : ¬ ((n % 128 + 128) % 256 < 128) := by omega
      have hb3 : (n % 128 + 128) % 256 % 128 = n % 128 := by omega
      have hk2 : k ≤ 2 := by
        by_contra hc
        have hkk : k = 3 := by omega
        subst hkk
        simp at hn
        omega
      have hn' : n / 128 < 128 ^ (4 - (k + 1)) := by
        rw [Nat.div_lt_iff_lt_mul (by norm_num : (0:Nat) < 128)]
        have h4 : (4 : Nat) - k = (4 - (k + 1)) + 1 := by omega
        calc n < 128 ^ (4 - k) := hn
          _ = 128 ^ ((4 - (k + 1)) + 1) := by rw [← h4]
          _ = 128 ^ (4 - (k + 1)) * 128 := pow_succ 128 _
      have hrec := ih (n / 128) (Nat.div_lt_self (by omega) (by norm_num)) g (k + 1)
        (v + n % 128 * 128 ^ k) rest (by omega) hn'
      have hsplit : v + n % 128 * 128 ^ k + n / 128 * 128 ^ (k + 1) = v + n * 128 ^ k := by
        rw [Nat.add_assoc]
        congr 1
        rw [pow_succ]
        have h128 : n % 128 + 128 * (n / 128) = n := Nat.mod_add_div n 128
        calc n % 128 * 128 ^ k + n / 128 * (128 ^ k * 128)
            = (n % 128 + 128 * (n / 128)) * 128 ^ k := by ring
          _ = n * 128 ^ k := by rw [h128]
      rw [List.cons_append, readVBILoop]
      simp only [hb3, if_neg hmul, if_neg hb2]
      rw [show (128:Nat) ^ k * 128 = 128 ^ (k + 1) from (pow_succ 128 k).symm]
      rw [hrec, hsplit]

theorem readVBI_encode {n : Nat} (hn : n ≤ 268435455) (rest : Bytes) :
    readVBI (encodeVBI n ++ rest) = .ok (n, rest) := by
  have h := readVBILoop_encode n false 0 0 rest (by omega) (by norm_num; omega)
  simp at h
  simp [readVBI, h]

theorem readVBIGraceful_encode {n : Nat} (hn : n ≤ 268435455) (rest : Bytes) :
    readVBIGraceful (encodeVBI n ++ rest) = .ok (some (n, rest)) := by
  have h := readVBILoop_encode n true 0 0 rest (by omega) (by norm_num; omega)
  simp at h
  simp [readVBIGraceful, h]

theorem asTopicE_ok {s : Bytes} (h : topicOKb s = true) : asTopicE s = .ok s := by
  simp only [topicOKb, Bool.and_eq_true, decide_eq_true_eq] at h
  obtain ⟨⟨⟨h1, h2⟩, h3⟩, h4⟩ := h
  rw [asTopicE, if_neg h1, if_neg h2, if_neg h3, if_neg h4]

theorem asTopicFilterE_ok {s : Bytes} (h : topicFilterOKb s = true) :
    asTopicFilterE s = .ok s := by
  simp only [topicFilterOKb, Bool.and_eq_true, decide_eq_true_eq] at h
  obtain ⟨⟨h1, h2⟩, h3⟩ := h
  rw [asTopicFilterE, if_neg h1, if_neg h2, if_pos h3]

theorem len_le_append (a b : Bytes) : b.length ≤ (a ++ b).length := by simp

theorem readPropsLoopF_nil (f : Nat) (a : AllProperties) :
    readPropsLoopF f a [] = .ok a := by
  cases f <;> rfl

theorem readPropsLoopF_mono : ∀ (f1 f2 : Nat) (a : AllProperties) (w : Bytes),
    w.length ≤ f1 → w.length ≤ f2 →
    readPropsLoopF f1 a w = readPropsLoopF f2 a w := by
  intro f1
  induction f1 with
  | zero =>
    intro f2 a w h1 h2
    have hw : w = [] := by cases w <;> simp_all
    subst hw
    rw [readPropsLoopF_nil, readPropsLoopF_nil]
  | succ f ih =>
    intro f2 a w h1 h2
    cases w with
    | nil => rw [readPropsLoopF_nil, readPropsLoopF_nil]
    | cons idb w' =>
      cases f2 with
      | zero => simp at h2
      | succ g =>
        simp only [readPropsLoopF]
        cases hp : propStep a (idb % 256) w' with
        | error e => rfl
        | ok pr =>
          obtain ⟨a', rest⟩ := pr
          apply ih
          · simp only [List.length_take, List.length_cons] at h1 ⊢
            omega
          · simp only [List.length_take, List.length_cons] at h2 ⊢
            omega

theorem readPropsLoop_cons {a : AllProperties} {idb : Nat} {w' : Bytes}
    {a' : AllProperties} {rest : Bytes}
    (h : propStep a (idb % 256) w' = .ok (a', rest)) (hlen : rest.length ≤ w'.length) :
    readPropsLoop a (idb :: w') = readPropsLoop a' rest := by
  show readPropsLoopF (idb :: w').length a (idb :: w') = readPropsLoopF rest.length a' rest
  simp only [List.length_cons, readPropsLoopF, h]
  rw [List.take_of_length_le hlen]
  exact readPropsLoopF_mono _ _ _ _ hlen (le_refl _)

theorem readPropsLoop_entry (a : AllProperties) (e : PropEntry) (rest : Bytes)
    (he : ValidEntry e) :
    readPropsLoop a (encodePropEntry e ++ rest)
      = readPropsLoop (applyEntry a e) rest := by
  cases e with
  | pfi v =>
    simp only [ValidEntry] at he
    refine readPropsLoop_cons ?_ (len_le_append _ _)
    norm_num [propStep, readU8_u8, applyEntry, Nat.mod_eq_of_lt he]
  | mei v =>
    simp only [ValidEntry] at he
    refine readPropsLoop_cons ?_ (len_le_append _ _)
    norm_num [propStep, readU32_u32, applyEntry, Nat.mod_eq_of_lt he]
  | contentType s =>
    simp only [ValidEntry] at he
    refine readPropsLoop_cons ?_ (len_le_append _ _)
    norm_num [propStep, readUTF8_utf8S he.1, applyEntry]
  | responseTopic s =>
    simp only [ValidEntry] at he
    refine readPropsLoop_cons ?_ (len_le_append _ _)
    norm_num [propStep, readUTF8_utf8S he.1.1, asTopicE_ok he.2, applyEntry]
  | correlationData b =>
    simp only [ValidEntry] at he
    refine readPropsLoop_cons ?_ (len_le_append _ _)
    have hb : readBinary (u16 b.length ++ (b ++ rest)) = .ok (b, rest) := by
      rw [← List.append_assoc]
      exact readBinary_utf8S he.1 rest
    norm_num [propStep, hb, applyEntry]
  | subId v =>
    simp only [ValidEntry] at he
    refine readPropsLoop_cons ?_ (len_le_append _ _)
    norm_num [propStep, readVBI_encode he, applyEntry]
  | sei v =>
    simp only [ValidEntry] at he
    refine readPropsLoop_cons ?_ (len_le_append _ _)
    norm_num [propStep, readU32_u32, applyEntry, Nat.mod_eq_of_lt he]
  | assignedClientId s =>
    simp only [ValidEntry] at he
    refine readPropsLoop_cons ?_ (len_le_append _ _)
    norm_num [propStep, readUTF8_utf8S he.1, applyEntry]
  | serverKeepAlive v =>
    simp only [ValidEntry] at he
    refine readPropsLoop_cons ?_ (len_le_append _ _)
    norm_num [propStep, readU16_u16, applyEntry, Nat.mod_eq_of_lt he]
  | authMethod s =>
    simp only [ValidEntry] at he
    refine readPropsLoop_cons ?_ (len_le_append _ _)
    norm_num [propStep, readUTF8_utf8S he.1, applyEntry]
  | authData b =>
    simp only [ValidEntry] at he
    refine readPropsLoop_cons ?_ (len_le_append _ _)
    have hb : readBinary (u16 b.length ++ (b ++ rest)) = .ok (b, rest) := by
      rw [← List.append_assoc]
      exact readBinary_utf8S he.1 rest
    norm_num [propStep, hb, applyEntry]
  | reqProbInfo v =>
    simp only [ValidEntry] at he
    refine readPropsLoop_cons ?_ (len_le_append _ _)
    norm_num [propStep, readU8_u8, applyEntry, Nat.mod_eq_of_lt he]
  | willDelay v =>
    simp only [ValidEntry] at he
    refine readPropsLoop_cons ?_ (len_le_append _ _)
    norm_num [propStep, readU32_u32, applyEntry, Nat.mod_eq_of_lt he]
  | reqRespInfo v =>
    simp only [ValidEntry] at he
    refine readPropsLoop_cons ?_ (len_le_append _ _)
    norm_num [propStep, readU8_u8, applyEntry, Nat.mod_eq_of_lt he]
  | respInfo s =>
    simp only [ValidEntry] at he
    refine readPropsLoop_cons ?_ (len_le_append _ _)
    norm_num [propStep, readUTF8_utf8S he.1.1, asTopicE_ok he.2, applyEntry]
  | serverRef s =>
    simp only [ValidEntry] at he
    refine readPropsLoop_cons ?_ (len_le_append _ _)
    norm_num [propStep, readUTF8_utf8S he.1, applyEntry]
  | reasonString s =>
    simp only [ValidEntry] at he
    refine readPropsLoop_cons ?_ (len_le_append _ _)
    norm_num [propStep, readUTF8_utf8S he.1, applyEntry]
  | recvMax v =>
    simp only [ValidEntry] at he
    refine readPropsLoop_cons ?_ (len_le_append _ _)
    norm_num [propStep, readU16_u16, applyEntry, Nat.mod_eq_of_lt he]
  | topicAliasMax v =>
    simp only [ValidEntry] at he
    refine readPropsLoop_cons ?_ (len_le_append _ _)
    norm_num [propStep, readU16_u16, applyEntry, Nat.mod_eq_of_lt he]
  | topicAlias v =>
    simp only [ValidEntry] at he
    refine readPropsLoop_cons ?_ (len_le_append _ _)
    norm_num [propStep, readU16_u16, applyEntry, Nat.mod_eq_of_lt he]
  | maxQoS v =>
    simp only [ValidEntry] at he
    refine readPropsLoop_cons ?_ (len_le_append _ _)
    norm_num [propStep, readU8_u8, applyEntry, Nat.mod_eq_of_lt he]
  | retainAvail v =>
    simp only [ValidEntry] at he
    refine readPropsLoop_cons ?_ (len_le_append _ _)
    norm_num [propStep, readU8_u8, applyEntry, Nat.mod_eq_of_lt he]
  | userProp k v =>
    simp only [ValidEntry] at he
    refine readPropsLoop_cons ?_ (len_le_append _ _)
    have h1 : readUTF8 (utf8S k ++ (utf8S v ++ rest)) = .ok (k, utf8S v ++ rest) :=
      readUTF8_utf8S he.1.1 _
    norm_num [propStep, h1, readUTF8_utf8S he.2.1, applyEntry]
  | maxPacketSize v =>
    simp only [ValidEntry] at he
    refine readPropsLoop_cons ?_ (len_le_append _ _)
    norm_num [propStep, readU32_u32, applyEntry, Nat.mod_eq_of_lt he]
  | wildcardAvail v =>
    simp only [ValidEntry] at he
    refine readPropsLoop_cons ?_ (len_le_append _ _)
    norm_num [propStep, readU8_u8, applyEntry, Nat.mod_eq_of_lt he]
  | subIdAvail v =>
    simp only [ValidEntry] at he
    refine readPropsLoop_cons ?_ (len_le_append _ _)
    norm_num [propStep, readU8_u8, applyEntry, Nat.mod_eq_of_lt he]
  | sharedAvail v =>
    simp only [ValidEntry] at he
    refine readPropsLoop_cons ?_ (len_le_append _ _)
    norm_num [propStep, readU8_u8, applyEntry, Nat.mod_eq_of_lt he]

theorem readPropsLoop_entries (es : List PropEntry) :
    ∀ (a : AllProperties), (∀ e ∈ es, ValidEntry e) →
    readPropsLoop a (catList (es.map encodePropEntry)) = .ok (es.foldl applyEntry a) := by
  induction es with
  | nil =>
    intro a _
    simp [catList, readPropsLoop, readPropsLoopF]
  | cons e t ih =>
    intro a hv
    simp only [List.map_cons, catList, List.foldl_cons]
    rw [readPropsLoop_entry a e _ (hv e (by simp))]
    exact ih _ (fun e' he' => hv e' (by simp [he']))

theorem catList_map_ne_nil (e : PropEntry) (t : List PropEntry) :
    catList ((e :: t).map encodePropEntry) ≠ [] := by
  simp only [List.map_cons, catList]
  cases e <;> simp [encodePropEntry]

theorem readProperties_block {es : List PropEntry}
    (hv : ∀ e ∈ es, ValidEntry e)
    (hlen : (catList (es.map encodePropEntry)).length ≤ 268435455) (rest : Bytes) :
    readProperties (propsBlock es ++ rest) = .ok (normalizeProps es, rest) := by
  cases es with
  | nil =>
    simp only [propsBlock, catList, List.map_nil, List.length_nil, List.append_nil,
      normalizeProps, List.isEmpty_nil, if_pos]
    have hne := encodeVBI_ne_nil 0
    have hie : (encodeVBI 0 ++ rest).isEmpty = false := by
      cases hE : encodeVBI 0 with
      | nil => exact absurd hE hne
      | cons x xs => simp
    rw [readProperties, hie]
    simp only [Bool.false_eq_true, if_false]
    rw [readVBI_encode (by norm_num) rest]
    rfl
  | cons e t =>
    have hne := catList_map_ne_nil e t
    set B := catList ((e :: t).map encodePropEntry) with hB
    have hie : (encodeVBI B.length ++ (B ++ rest)).isEmpty = false := by
      cases hE : encodeVBI B.length with
      | nil => exact absurd hE (encodeVBI_ne_nil _)
      | cons x xs => simp
    have hBlen : B.length ≠ 0 := by
      intro hc
      exact hne (List.length_eq_zero.mp hc)
    simp only [propsBlock, normalizeProps, ← hB]
    rw [readProperties, List.append_assoc, hie]
    simp only [Bool.false_eq_true, if_false]
    rw [readVBI_encode hlen (B ++ rest)]
    simp only [hBlen, if_false]
    rw [takeN_exact rfl rest]
    show (match readPropsLoop ({} : AllProperties) B with
      | Except.error e => (Except.error e : Except Err (Option AllProperties × Bytes))
      | Except.ok a => Except.ok (some a, rest)) = _
    rw [hB, readPropsLoop_entries _ {} hv]
    simp


theorem takeN_all (l : Bytes) : takeN l.length l = .ok (l, []) := by
  simp [takeN, List.take_length, List.drop_length]

theorem catList_map_u8 (l : List Nat) :
    catList (l.map u8) = l.map (fun x => x % 256) := by
  induction l with
  | nil => rfl
  | cons x t ih => simp [catList, u8, ih]

theorem map_mod256_self {l : List Nat} (h : ∀ x ∈ l, x < 256) :
    l.map (fun x => x % 256) = l := by
  induction l with
  | nil => rfl
  | cons x t ih =>
    simp only [List.map_cons, List.cons.injEq]
    constructor
    · exact Nat.mod_eq_of_lt (h x (by simp))
    · exact ih (fun y hy => h y (by simp [hy]))

theorem finalizeMessage_ok {maxSize ty flags : Nat} {body bs : Bytes}
    (h : finalizeMessage maxSize ty flags body = .ok bs) :
    bs = u8 (ty * 16 + flags) ++ encodeVBI body.length ++ body
      ∧ body.length < maxSize ∧ flags ≤ 15 := by
  unfold finalizeMessage at h
  split_ifs at h with h1 h2
  cases h
  exact ⟨rfl, by omega, by omega⟩

theorem decodePacket_encoded {ty flags : Nat} {body : Bytes} {pk : Packet}
    (hty : ty ≤ 15) (hfl : flags ≤ 15) (hlen : body.length ≤ 268435455)
    (hp : parseBody ty flags body = .ok pk) :
    decodePacket (u8 (ty * 16 + flags) ++ encodeVBI body.length ++ body)
      = .ok (pk, []) := by
  have hdeq : readFixedHeader (u8 (ty * 16 + flags) ++ encodeVBI body.length ++ body)
      = .ok (some ({ type := ty, flags := flags, length := body.length }, body)) := by
    have hd : (ty * 16 + flags) % 256 = ty * 16 + flags := by omega
    unfold readFixedHeader
    rw [List.append_assoc, readU8_u8, hd]
    show (match readVBIGraceful (encodeVBI body.length ++ body) with
      | .error e => (.error e : Except Err (Option (FixedHeader × Bytes)))
      | .ok none => .ok none
      | .ok (some (len, l)) =>
        .ok (some ({ type := (ty * 16 + flags) / 16,
                     flags := (ty * 16 + flags) % 16, length := len }, l))) = _
    rw [readVBIGraceful_encode hlen body,
      show (ty * 16 + flags) / 16 = ty from by omega,
      show (ty * 16 + flags) % 16 = flags from by omega]
  unfold decodePacket
  rw [hdeq]
  show deserializePacket { type := ty, flags := flags, length := body.length } body
    = .ok (pk, [])
  unfold deserializePacket
  simp only [takeN_all, hp]

theorem decode_serialize_aux {maxSize ty flags : Nat} {body bs : Bytes} {pk : Packet}
    (hfin : finalizeMessage maxSize ty flags body = .ok bs)
    (hty : ty ≤ 15) (hmax : maxSize ≤ 268435455)
    (hp : parseBody ty flags body = .ok pk) :
    decodePacket bs = .ok (pk, []) := by
  obtain ⟨hbs, hlen, hfl⟩ := finalizeMessage_ok hfin
  subst hbs
  exact decodePacket_encoded hty hfl (by omega) hp


theorem parseSubAckLike_body {p : SubAckPacket} (hv : ValidSubAckLike p) :
    parseSubAckLike
      (u16 p.packet_identifier
        ++ propsBlock (ackPropEntries (p.properties.getD {}))
        ++ catList (p.reason_codes.map u8))
      = .ok (normalizeSubAckLike p) := by
  have hpid := hv.1
  have hrc := hv.2.1
  have hents := hv.2.2.1
  have hlen := hv.2.2.2
  unfold parseSubAckLike
  rw [List.append_assoc, readU16_u16, Nat.mod_eq_of_lt hpid]
  show (match readProperties (propsBlock (ackPropEntries (p.properties.getD {}))
        ++ catList (p.reason_codes.map u8)) with
    | .error e => (.error e : Except Err SubAckPacket)
    | .ok (props, w) =>
      .ok ({ packet_identifier := p.packet_identifier,
             reason_codes := readReasonCodes w,
             properties := props } : SubAckPacket))
    = .ok (normalizeSubAckLike p)
  rw [readProperties_block hents hlen]
  show Except.ok ({ packet_identifier := p.packet_identifier,
                    reason_codes := readReasonCodes (catList (p.reason_codes.map u8)),
                    properties := normalizeProps (ackPropEntries (p.properties.getD {})) } : SubAckPacket)
    = .ok (normalizeSubAckLike p)
  rw [readReasonCodes, catList_map_u8, map_mod256_self hrc, map_mod256_self hrc]
  rfl

theorem parsePubAckLike_body_short {p : PubAckLikePacket} (hpid : p.packet_identifier < 65536) :
    parsePubAckLike (u16 p.packet_identifier)
      = .ok ({ packet_identifier := p.packet_identifier } : PubAckLikePacket) := by
  unfold parsePubAckLike
  have h : u16 p.packet_identifier ++ [] = u16 p.packet_identifier := by simp
  rw [← h, readU16_u16, Nat.mod_eq_of_lt hpid]

theorem parsePubAckLike_body_long {p : PubAckLikePacket}
    (hpid : p.packet_identifier < 65536) (hrc : p.reason_code.getD 0 < 256)
    (hents : ∀ e ∈ ackPropEntries (p.properties.getD {}), ValidEntry e)
    (hlen : (catList ((ackPropEntries (p.properties.getD {})).map encodePropEntry)).length
      ≤ 268435455) :
    parsePubAckLike
      (u16 p.packet_identifier ++ (u8 (p.reason_code.getD 0)
        ++ propsBlock (ackPropEntries (p.properties.getD {}))))
      = .ok ({ packet_identifier := p.packet_identifier,
               reason_code := some (p.reason_code.getD 0),
               properties := normalizeProps (ackPropEntries (p.properties.getD {})) }
             : PubAckLikePacket) := by
  unfold parsePubAckLike
  rw [readU16_u16, Nat.mod_eq_of_lt hpid]
  have hne : u8 (p.reason_code.getD 0) ++ propsBlock (ackPropEntries (p.properties.getD {}))
      = (p.reason_code.getD 0 % 256)
        :: propsBlock (ackPropEntries (p.properties.getD {})) := by
    simp [u8]
  rw [hne]
  show (match readU8 ((p.reason_code.getD 0 % 256)
        :: propsBlock (ackPropEntries (p.properties.getD {}))) with
    | .error e => (.error e : Except Err PubAckLikePacket)
    | .ok (rc, w) =>
      match readProperties w with
      | .error e => .error e
      | .ok (props, _) =>
        .ok ({ packet_identifier := p.packet_identifier, reason_code := some rc,
               properties := props } : PubAckLikePacket))
    = _
  rw [show readU8 ((p.reason_code.getD 0 % 256)
        :: propsBlock (ackPropEntries (p.properties.getD {})))
      = .ok (p.reason_code.getD 0, propsBlock (ackPropEntries (p.properties.getD {})))
    from by simp [readU8]; omega]
  show (match readProperties (propsBlock (ackPropEntries (p.properties.getD {}))) with
    | .error e => (.error e : Except Err PubAckLikePacket)
    | .ok (props, _) =>
      .ok ({ packet_identifier := p.packet_identifier,
             reason_code := some (p.reason_code.getD 0),
             properties := props } : PubAckLikePacket))
    = _
  have hbl : propsBlock (ackPropEntries (p.properties.getD {}))
      = propsBlock (ackPropEntries (p.properties.getD {})) ++ [] := by simp
  rw [hbl, readProperties_block hents hlen]

theorem parseReasonCodePacket_body_short :
    parseReasonCodePacket [] = .ok ({} : ReasonCodePacket) := rfl

theorem parseReasonCodePacket_body_long {rc : Nat} {es : List PropEntry}
    (hrc : rc < 256) (hents : ∀ e ∈ es, ValidEntry e)
    (hlen : (catList (es.map encodePropEntry)).length ≤ 268435455) :
    parseReasonCodePacket (u8 rc ++ propsBlock es)
      = .ok ({ reason_code := some rc, properties := normalizeProps es }
             : ReasonCodePacket) := by
  unfold parseReasonCodePacket
  have hne : u8 rc ++ propsBlock es = (rc % 256) :: propsBlock es := by simp [u8]
  rw [hne]
  show (match readU8 ((rc % 256) :: propsBlock es) with
    | .error e => (.error e : Except Err ReasonCodePacket)
    | .ok (rcv, w) =>
      match readProperties w with
      | .error e => .error e
      | .ok (props, _) =>
        .ok ({ reason_code := some rcv, properties := props } : ReasonCodePacket))
    = _
  rw [show readU8 ((rc % 256) :: propsBlock es) = .ok (rc, propsBlock es)
    from by simp [readU8]; omega]
  show (match readProperties (propsBlock es) with
    | .error e => (.error e : Except Err ReasonCodePacket)
    | .ok (props, _) =>
      .ok ({ reason_code := some rc, properties := props } : ReasonCodePacket))
    = _
  have hbl : propsBlock es = propsBlock es ++ [] := by simp
  rw [hbl, readProperties_block hents hlen]

theorem parseConnAck_body {p : ConnAckPacket} {es : List PropEntry}
    (hrc : p.connect_reason_code.getD 0 < 256)
    (hents : ∀ e ∈ es, ValidEntry e)
    (hlen : (catList (es.map encodePropEntry)).length ≤ 268435455) :
    parseConnAck (u8 (if p.session_present.getD false then 1 else 0)
        ++ u8 (p.connect_reason_code.getD 0) ++ propsBlock es)
      = .ok { session_present := some (p.session_present.getD false),
              connect_reason_code := some (p.connect_reason_code.getD 0),
              properties := normalizeProps es } := by
  unfold parseConnAck
  rw [List.append_assoc, readU8_u8]
  have hsp : (if p.session_present.getD false then 1 else 0) % 256
      = (if p.session_present.getD false then 1 else 0) := by
    split <;> norm_num
  rw [hsp]
  show (match readU8 (u8 (p.connect_reason_code.getD 0) ++ propsBlock es) with
    | .error e => (.error e : Except Err ConnAckPacket)
    | .ok (rc, w) =>
      match readProperties w with
      | .error e => .error e
      | .ok (props, _) =>
        .ok ({ session_present :=
                 some ((if p.session_present.getD false then 1 else 0) = 1),
               connect_reason_code := some rc,
               properties := props } : ConnAckPacket))
    = _
  rw [readU8_u8, Nat.mod_eq_of_lt hrc]
  show (match readProperties (propsBlock es) with
    | .error e => (.error e : Except Err ConnAckPacket)
    | .ok (props, _) =>
      .ok ({ session_present :=
               some ((if p.session_present.getD false then 1 else 0) = 1),
             connect_reason_code := some (p.connect_reason_code.getD 0),
             properties := props } : ConnAckPacket))
    = _
  have hbl : propsBlock es = propsBlock es ++ [] := by simp
  rw [hbl, readProperties_block hents hlen]
  rcases hsb : p.session_present.getD false <;> simp [hsb]


theorem parsePubAckLike_full {p : PubAckLikePacket} (hv : ValidPubAckLike p) :
    parsePubAckLike
      (u16 p.packet_identifier
        ++ (if p.reason_code = some 0 ∧ p.properties = none then []
            else u8 (p.reason_code.getD 0)
              ++ propsBlock (ackPropEntries (p.properties.getD {}))))
      = .ok (normalizePubAckLike p) := by
  have hpid := hv.1
  have hrc := hv.2.1
  have hents := hv.2.2.1
  have hlen := hv.2.2.2
  by_cases hc : p.reason_code = some 0 ∧ p.properties = none
  · rw [if_pos hc, normalizePubAckLike, if_pos hc]
    have := @parsePubAckLike_body_short p hpid
    simpa using this
  · rw [if_neg hc, normalizePubAckLike, if_neg hc]
    exact parsePubAckLike_body_long hpid hrc hents hlen

theorem suback_roundtrip {p : SubAckPacket} (hv : ValidSubAckLike p) {bs : Bytes}
    (h : serializeSubAckLike defaultMaxPacketSize 9 p = .ok bs) :
    decodePacket bs = .ok (.suback (normalizeSubAckLike p), []) := by
  unfold serializeSubAckLike at h
  by_cases hrc : p.reason_codes = []
  · rw [if_pos hrc] at h
    cases h
  · rw [if_neg hrc] at h
    refine decode_serialize_aux h (by norm_num) (by norm_num [defaultMaxPacketSize]) ?_
    have hd : ∀ w, parseBody 9 0 w = (parseSubAckLike w).map Packet.suback := by
      intro w
      norm_num [parseBody]
    rw [hd, parseSubAckLike_body hv]
    rfl

theorem unsuback_roundtrip {p : SubAckPacket} (hv : ValidSubAckLike p) {bs : Bytes}
    (h : serializeSubAckLike defaultMaxPacketSize 11 p = .ok bs) :
    decodePacket bs = .ok (.unsuback (normalizeSubAckLike p), []) := by
  unfold serializeSubAckLike at h
  by_cases hrc : p.reason_codes = []
  · rw [if_pos hrc] at h
    cases h
  · rw [if_neg hrc] at h
    refine decode_serialize_aux h (by norm_num) (by norm_num [defaultMaxPacketSize]) ?_
    have hd : ∀ w, parseBody 11 0 w = (parseSubAckLike w).map Packet.unsuback := by
      intro w
      norm_num [parseBody]
    rw [hd, parseSubAckLike_body hv]
    rfl

theorem puback_roundtrip {p : PubAckLikePacket} (hv : ValidPubAckLike p) {bs : Bytes}
    (h : serializePubAckLike defaultMaxPacketSize 4 0 p = .ok bs) :
    decodePacket bs = .ok (.puback (normalizePubAckLike p), []) := by
  unfold serializePubAckLike at h
  refine decode_serialize_aux h (by norm_num) (by norm_num [defaultMaxPacketSize]) ?_
  have hd : ∀ w, parseBody 4 0 w = (parsePubAckLike w).map Packet.puback := by
    intro w
    norm_num [parseBody]
  rw [hd, parsePubAckLike_full hv]
  rfl

theorem pubrec_roundtrip {p : PubAckLikePacket} (hv : ValidPubAckLike p) {bs : Bytes}
    (h : serializePubAckLike defaultMaxPacketSize 5 0 p = .ok bs) :
    decodePacket bs = .ok (.pubrec (normalizePubAckLike p), []) := by
  unfold serializePubAckLike at h
  refine decode_serialize_aux h (by norm_num) (by norm_num [defaultMaxPacketSize]) ?_
  have hd : ∀ w, parseBody 5 0 w = (parsePubAckLike w).map Packet.pubrec := by
    intro w
    norm_num [parseBody]
  rw [hd, parsePubAckLike_full hv]
  rfl

theorem pubrel_roundtrip {p : PubAckLikePacket} (hv : ValidPubAckLike p) {bs : Bytes}
    (h : serializePubAckLike defaultMaxPacketSize 6 2 p = .ok bs) :
    decodePacket bs = .ok (.pubrel (normalizePubAckLike p), []) := by
  unfold serializePubAckLike at h
  refine decode_serialize_aux h (by norm_num) (by norm_num [defaultMaxPacketSize]) ?_
  have hd : ∀ w, parseBody 6 2 w = (parsePubAckLike w).map Packet.pubrel := by
    intro w
    norm_num [parseBody]
  rw [hd, parsePubAckLike_full hv]
  rfl

theorem pubcomp_roundtrip {p : PubAckLikePacket} (hv : ValidPubAckLike p) {bs : Bytes}
    (h : serializePubAckLike defaultMaxPacketSize 7 0 p = .ok bs) :
    decodePacket bs = .ok (.pubcomp (normalizePubAckLike p), []) := by
  unfold serializePubAckLike at h
  refine decode_serialize_aux h (by norm_num) (by norm_num [defaultMaxPacketSize]) ?_
  have hd : ∀ w, parseBody 7 0 w = (parsePubAckLike w).map Packet.pubcomp := by
    intro w
    norm_num [parseBody]
  rw [hd, parsePubAckLike_full hv]
  rfl

theorem disconnect_roundtrip {p : ReasonCodePacket} (hv : ValidDisconnect p) {bs : Bytes}
    (h : serializeDisconnect defaultMaxPacketSize p = .ok bs) :
    decodePacket bs = .ok (.disconnect (normalizeDisconnect p), []) := by
  unfold serializeDisconnect at h
  have hd : ∀ w, parseBody 14 0 w = (parseReasonCodePacket w).map Packet.disconnect := by
    intro w
    norm_num [parseBody]
  by_cases hc : p.reason_code.getD 0 = 0 ∧ p.properties = none
  · rw [if_pos hc] at h
    refine decode_serialize_aux h (by norm_num) (by norm_num [defaultMaxPacketSize]) ?_
    rw [hd, parseReasonCodePacket_body_short, normalizeDisconnect, if_pos hc]
    rfl
  · rw [if_neg hc] at h
    refine decode_serialize_aux h (by norm_num) (by norm_num [defaultMaxPacketSize]) ?_
    rw [hd, parseReasonCodePacket_body_long hv.1 hv.2.1 hv.2.2,
      normalizeDisconnect, if_neg hc]
    rfl

theorem auth_roundtrip {p : ReasonCodePacket} (hv : ValidAuth p) {bs : Bytes}
    (h : serializeAuth defaultMaxPacketSize p = .ok bs) :
    decodePacket bs = .ok (.auth (normalizeAuth p), []) := by
  unfold serializeAuth at h
  have hd : ∀ w, parseBody 15 0 w = (parseReasonCodePacket w).map Packet.auth := by
    intro w
    norm_num [parseBody]
  by_cases hc : p.reason_code.getD 0 = 0 ∧ p.properties = none
  · rw [if_pos hc] at h
    refine decode_serialize_aux h (by norm_num) (by norm_num [defaultMaxPacketSize]) ?_
    rw [hd, parseReasonCodePacket_body_short, normalizeAuth, if_pos hc]
    rfl
  · rw [if_neg hc] at h
    cases hpe : authPropEntriesE (p.properties.getD {}) with
    | error e => rw [hpe] at h; cases h
    | ok pe =>
      rw [hpe] at h
      have hents : ValidEntries pe := by
        have h2 := hv.2
        simp only [ValidEntriesE.eq_def, hpe] at h2
        exact h2
      refine decode_serialize_aux h (by norm_num) (by norm_num [defaultMaxPacketSize]) ?_
      rw [hd, parseReasonCodePacket_body_long hv.1 hents.1 hents.2,
        normalizeAuth, if_neg hc]
      simp [normalizePropsE, hpe, Except.map]

theorem connack_roundtrip {p : ConnAckPacket} (hv : ValidConnAck p) {bs : Bytes}
    (h : serializeConnAck defaultMaxPacketSize p = .ok bs) :
    decodePacket bs = .ok (.connack (normalizeConnAck p), []) := by
  unfold serializeConnAck at h
  have hd : ∀ w, parseBody 2 0 w = (parseConnAck w).map Packet.connack := by
    intro w
    norm_num [parseBody]
  by_cases hg : ((p.properties.getD {}).server_reference.getD []) ≠ []
      ∧ p.connect_reason_code ≠ some 157 ∧ p.connect_reason_code ≠ some 156
  · rw [if_pos hg] at h
    cases h
  · rw [if_neg hg] at h
    cases hpe : connAckPropEntriesE (p.properties.getD {}) with
    | error e => rw [hpe] at h; cases h
    | ok pe =>
      rw [hpe] at h
      have hents : ValidEntries pe := by
        have h2 := hv.2
        simp only [ValidEntriesE.eq_def, hpe] at h2
        exact h2
      have h2f : finalizeMessage defaultMaxPacketSize 2 0
          (u8 (if p.session_present.getD false then 1 else 0)
            ++ (u8 (p.connect_reason_code.getD 0) ++ propsBlock pe)) = .ok bs := by
        rw [← List.append_assoc]
        exact h
      refine decode_serialize_aux h2f (by norm_num) (by norm_num [defaultMaxPacketSize]) ?_
      rw [hd, ← List.append_assoc, parseConnAck_body hv.1 hents.1 hents.2]
      show Except.ok (Packet.connack _) = _
      rw [normalizeConnAck]
      simp [normalizePropsE, hpe, Except.map]


theorem readTopicFiltersF_nil (f : Nat) : readTopicFiltersF f [] = .ok [] := by
  cases f <;> rfl

theorem readTopicFiltersF_mono : ∀ (f1 f2 : Nat) (w : Bytes),
    w.length ≤ f1 → w.length ≤ f2 →
    readTopicFiltersF f1 w = readTopicFiltersF f2 w := by
  intro f1
  induction f1 with
  | zero =>
    intro f2 w h1 h2
    have hw : w = [] := by cases w <;> simp_all
    subst hw
    rw [readTopicFiltersF_nil, readTopicFiltersF_nil]
  | succ f ih =>
    intro f2 w h1 h2
    cases w with
    | nil => rw [readTopicFiltersF_nil, readTopicFiltersF_nil]
    | cons idb tl =>
      cases f2 with
      | zero => simp at h2
      | succ g =>
        simp only [readTopicFiltersF]
        cases hu : readUTF8 (idb :: tl) with
        | error e => rfl
        | ok pr =>
          obtain ⟨t, rest⟩ := pr
          show (match asTopicFilterE t with
            | .error e => (.error e : Except Err (List Bytes))
            | .ok t =>
              match readTopicFiltersF f (rest.take tl.length) with
              | .error e => .error e
              | .ok ts => .ok (t :: ts))
            = (match asTopicFilterE t with
            | .error e => (.error e : Except Err (List Bytes))
            | .ok t =>
              match readTopicFiltersF g (rest.take tl.length) with
              | .error e => .error e
              | .ok ts => .ok (t :: ts))
          rw [ih g (rest.take tl.length)
            (by simp only [List.length_take, List.length_cons] at h1 ⊢; omega)
            (by simp only [List.length_take, List.length_cons] at h2 ⊢; omega)]

theorem readTopicFilters_step {w t rest : Bytes}
    (hr : rest.length + 1 ≤ w.length)
    (h1 : readUTF8 w = .ok (t, rest)) (h2 : asTopicFilterE t = .ok t) :
    readTopicFilters w
      = match readTopicFilters rest with
        | .error e => .error e
        | .ok ts => .ok (t :: ts) := by
  cases w with
  | nil => simp [readUTF8, readU16] at h1
  | cons idb tl =>
    show readTopicFiltersF (tl.length + 1) (idb :: tl) = _
    simp only [readTopicFiltersF, h1, h2]
    have hrl : rest.length ≤ tl.length := by
      simp only [List.length_cons] at hr
      omega
    rw [List.take_of_length_le hrl,
      readTopicFiltersF_mono tl.length rest.length rest hrl (le_refl _)]
    rfl

theorem readTopicFilters_catList {fs : List Bytes}
    (hv : ∀ f ∈ fs, StrOK f ∧ topicFilterOKb f = true) :
    readTopicFilters (catList (fs.map utf8S)) = .ok fs := by
  induction fs with
  | nil => rfl
  | cons f t ih =>
    simp only [List.map_cons, catList]
    have hf := hv f (by simp)
    rw [@readTopicFilters_step (utf8S f ++ catList (t.map utf8S)) f
      (catList (t.map utf8S))
      (by simp [utf8S, u16]; omega)
      (readUTF8_utf8S hf.1.1 _) (asTopicFilterE_ok hf.2)]
    rw [ih (fun x hx => hv x (by simp [hx]))]

theorem readSubscriptionsF_nil (f : Nat) : readSubscriptionsF f [] = .ok [] := by
  cases f <;> rfl

theorem readSubscriptionsF_mono : ∀ (f1 f2 : Nat) (w : Bytes),
    w.length ≤ f1 → w.length ≤ f2 →
    readSubscriptionsF f1 w = readSubscriptionsF f2 w := by
  intro f1
  induction f1 with
  | zero =>
    intro f2 w h1 h2
    have hw : w = [] := by cases w <;> simp_all
    subst hw
    rw [readSubscriptionsF_nil, readSubscriptionsF_nil]
  | succ f ih =>
    intro f2 w h1 h2
    cases w with
    | nil => rw [readSubscriptionsF_nil, readSubscriptionsF_nil]
    | cons idb tl =>
      cases f2 with
      | zero => simp at h2
      | succ g =>
        simp only [readSubscriptionsF]
        cases hu : readUTF8 (idb :: tl) with
        | error e => rfl
        | ok pr =>
          obtain ⟨t, w2⟩ := pr
          show (match asTopicFilterE t with
            | .error e => (.error e : Except Err (List Subscription))
            | .ok t =>
              match readU8 w2 with
              | .error e => .error e
              | .ok (fb, rest) =>
                match readSubscriptionsF f (rest.take tl.length) with
                | .error e => .error e
                | .ok subs =>
                  .ok ({ topic := t,
                         qos := if fb % 4 = 0 then none else some (fb % 4),
                         no_local := if fb / 4 % 2 = 1 then some true else none,
                         retain_handling := if fb / 16 = 0 then none else some (fb / 16),
                         retain_as_published := if fb / 8 % 2 = 1 then some true else none }
                    :: subs))
            = (match asTopicFilterE t with
            | .error e => (.error e : Except Err (List Subscription))
            | .ok t =>
              match readU8 w2 with
              | .error e => .error e
              | .ok (fb, rest) =>
                match readSubscriptionsF g (rest.take tl.length) with
                | .error e => .error e
                | .ok subs =>
                  .ok ({ topic := t,
                         qos := if fb % 4 = 0 then none else some (fb % 4),
                         no_local := if fb / 4 % 2 = 1 then some true else none,
                         retain_handling := if fb / 16 = 0 then none else some (fb / 16),
                         retain_as_published := if fb / 8 % 2 = 1 then some true else none }
                    :: subs))
          cases ha : asTopicFilterE t with
          | error e => rfl
          | ok t' =>
            show (match readU8 w2 with
              | .error e => (.error e : Except Err (List Subscription))
              | .ok (fb, rest) =>
                match readSubscriptionsF f (rest.take tl.length) with
                | .error e => .error e
                | .ok subs =>
                  .ok ({ topic := t',
                         qos := if fb % 4 = 0 then none else some (fb % 4),
                         no_local := if fb / 4 % 2 = 1 then some true else none,
                         retain_handling := if fb / 16 = 0 then none else some (fb / 16),
                         retain_as_published := if fb / 8 % 2 = 1 then some true else none }
                    :: subs))
              = (match readU8 w2 with
              | .error e => (.error e : Except Err (List Subscription))
              | .ok (fb, rest) =>
                match readSubscriptionsF g (rest.take tl.length) with
                | .error e => .error e
                | .ok subs =>
                  .ok ({ topic := t',
                         qos := if fb % 4 = 0 then none else some (fb % 4),
                         no_local := if fb / 4 % 2 = 1 then some true else none,
                         retain_handling := if fb / 16 = 0 then none else some (fb / 16),
                         retain_as_published := if fb / 8 % 2 = 1 then some true else none }
                    :: subs))
            cases h8 : readU8 w2 with
            | error e => rfl
            | ok pr2 =>
              obtain ⟨fb, rest⟩ := pr2
              show (match readSubscriptionsF f (rest.take tl.length) with
                | .error e => (.error e : Except Err (List Subscription))
                | .ok subs =>
                  .ok ({ topic := t',
                         qos := if fb % 4 = 0 then none else some (fb % 4),
                         no_local := if fb / 4 % 2 = 1 then some true else none,
                         retain_handling := if fb / 16 = 0 then none else some (fb / 16),
                         retain_as_published := if fb / 8 % 2 = 1 then some true else none }
                    :: subs))
                = _
              rw [ih g (rest.take tl.length)
                (by simp only [List.length_take, List.length_cons] at h1 ⊢; omega)
                (by simp only [List.length_take, List.length_cons] at h2 ⊢; omega)]

theorem readSubscriptions_step {w t w2 rest : Bytes} {fb : Nat}
    (hr : rest.length + 1 ≤ w.length)
    (h1 : readUTF8 w = .ok (t, w2)) (h2 : asTopicFilterE t = .ok t)
    (h3 : readU8 w2 = .ok (fb, rest)) :
    readSubscriptions w
      = match readSubscriptions rest with
        | .error e => .error e
        | .ok subs =>
          .ok ({ topic := t,
                 qos := if fb % 4 = 0 then none else some (fb % 4),
                 no_local := if fb / 4 % 2 = 1 then some true else none,
                 retain_handling := if fb / 16 = 0 then none else some (fb / 16),
                 retain_as_published := if fb / 8 % 2 = 1 then some true else none }
            :: subs) := by
  cases w with
  | nil => simp [readUTF8, readU16] at h1
  | cons idb tl =>
    show readSubscriptionsF (tl.length + 1) (idb :: tl) = _
    simp only [readSubscriptionsF, h1, h2, h3]
    have hrl : rest.length ≤ tl.length := by
      simp only [List.length_cons] at hr
      omega
    rw [List.take_of_length_le hrl,
      readSubscriptionsF_mono tl.length rest.length rest hrl (le_refl _)]
    rfl

theorem subscriptionFlagByte_lt {s : Subscription}
    (hq : s.qos.getD 0 ≤ 3) (hrh : s.retain_handling.getD 0 ≤ 3) :
    subscriptionFlagByte s < 256 := by
  unfold subscriptionFlagByte
  split_ifs <;> omega

theorem decoded_subscription_eq {s : Subscription}
    (hq : s.qos.getD 0 ≤ 3) (_hrh : s.retain_handling.getD 0 ≤ 3) :
    ({ topic := s.topic,
       qos := if subscriptionFlagByte s % 4 = 0 then none
              else some (subscriptionFlagByte s % 4),
       no_local := if subscriptionFlagByte s / 4 % 2 = 1 then some true else none,
       retain_handling := if subscriptionFlagByte s / 16 = 0 then none
                          else some (subscriptionFlagByte s / 16),
       retain_as_published := if subscriptionFlagByte s / 8 % 2 = 1 then some true
                              else none } : Subscription)
      = normalizeSubscription s := by
  have h4 : subscriptionFlagByte s % 4 = s.qos.getD 0 := by
    unfold subscriptionFlagByte
    split_ifs <;> omega
  have h42 : subscriptionFlagByte s / 4 % 2
      = (if s.no_local = some true then 1 else 0) := by
    unfold subscriptionFlagByte
    split_ifs <;> omega
  have h8 : subscriptionFlagByte s / 8 % 2
      = (if s.retain_as_published = some true then 1 else 0) := by
    unfold subscriptionFlagByte
    split_ifs <;> omega
  have h16 : subscriptionFlagByte s / 16 = s.retain_handling.getD 0 := by
    unfold subscriptionFlagByte
    split_ifs <;> omega
  rw [normalizeSubscription]
  rw [h4, h42, h8, h16]
  by_cases hnl : s.no_local = some true <;>
    by_cases hrap : s.retain_as_published = some true <;>
      simp [hnl, hrap]

theorem readSubscriptions_catList {subs : List Subscription}
    (hv : ∀ s ∈ subs, StrOK s.topic ∧ topicFilterOKb s.topic = true ∧
      s.qos.getD 0 ≤ 3 ∧ s.retain_handling.getD 0 ≤ 3) :
    readSubscriptions
      (catList (subs.map (fun s => utf8S s.topic ++ u8 (subscriptionFlagByte s))))
      = .ok (subs.map normalizeSubscription) := by
  induction subs with
  | nil => rfl
  | cons s t ih =>
    simp only [List.map_cons, catList]
    obtain ⟨hs1, hs2, hq, hrh⟩ := hv s (by simp)
    have hflag := subscriptionFlagByte_lt hq hrh
    have hread8 : readU8 (u8 (subscriptionFlagByte s)
        ++ catList (t.map (fun s => utf8S s.topic ++ u8 (subscriptionFlagByte s))))
        = .ok (subscriptionFlagByte s,
            catList (t.map (fun s => utf8S s.topic ++ u8 (subscriptionFlagByte s)))) := by
      rw [readU8_u8, Nat.mod_eq_of_lt hflag]
    have hutf : readUTF8 ((utf8S s.topic ++ u8 (subscriptionFlagByte s))
        ++ catList (t.map (fun s => utf8S s.topic ++ u8 (subscriptionFlagByte s))))
        = .ok (s.topic, u8 (subscriptionFlagByte s)
            ++ catList (t.map (fun s => utf8S s.topic ++ u8 (subscriptionFlagByte s)))) := by
      rw [List.append_assoc]
      exact readUTF8_utf8S hs1.1 _
    rw [readSubscriptions_step (by simp [utf8S, u16, u8]; omega) hutf
      (asTopicFilterE_ok hs2) hread8]
    rw [ih (fun x hx => hv x (by simp [hx]))]
    rw [decoded_subscription_eq hq hrh]


theorem parseUnsubscribe_body {p : UnsubscribePacket} (hv : ValidUnsubscribe p) :
    parseUnsubscribe
      (u16 p.packet_identifier
        ++ propsBlock (unsubscribePropEntries (p.properties.getD {}))
        ++ catList (p.topic_filters.map utf8S))
      = .ok (normalizeUnsubscribe p) := by
  have hpid := hv.1
  have hfs := hv.2.1
  have hents := hv.2.2.1
  have hlen := hv.2.2.2
  unfold parseUnsubscribe
  rw [List.append_assoc, readU16_u16, Nat.mod_eq_of_lt hpid]
  show (match readProperties (propsBlock (unsubscribePropEntries (p.properties.getD {}))
        ++ catList (p.topic_filters.map utf8S)) with
    | .error e => (.error e : Except Err UnsubscribePacket)
    | .ok (props, w) =>
      match readTopicFilters w with
      | .error e => .error e
      | .ok ts =>
        .ok ({ packet_identifier := p.packet_identifier, topic_filters := ts,
               properties := props } : UnsubscribePacket))
    = .ok (normalizeUnsubscribe p)
  rw [readProperties_block hents hlen]
  show (match readTopicFilters (catList (p.topic_filters.map utf8S)) with
    | .error e => (.error e : Except Err UnsubscribePacket)
    | .ok ts =>
      .ok ({ packet_identifier := p.packet_identifier, topic_filters := ts,
             properties := normalizeProps
               (unsubscribePropEntries (p.properties.getD {})) } : UnsubscribePacket))
    = .ok (normalizeUnsubscribe p)
  rw [readTopicFilters_catList hfs]
  rfl

theorem unsubscribe_roundtrip {p : UnsubscribePacket} (hv : ValidUnsubscribe p)
    {bs : Bytes} (h : serializeUnsubscribe defaultMaxPacketSize p = .ok bs) :
    decodePacket bs = .ok (.unsubscribe (normalizeUnsubscribe p), []) := by
  unfold serializeUnsubscribe at h
  by_cases hfs : p.topic_filters = []
  · rw [if_pos hfs] at h
    cases h
  · rw [if_neg hfs] at h
    refine decode_serialize_aux h (by norm_num) (by norm_num [defaultMaxPacketSize]) ?_
    have hd : ∀ w, parseBody 10 2 w = (parseUnsubscribe w).map Packet.unsubscribe := by
      intro w
      norm_num [parseBody]
    rw [hd, parseUnsubscribe_body hv]
    rfl

theorem parseSubscribe_body {p : SubscribePacket} (hv : ValidSubscribe p) :
    parseSubscribe 2
      (u16 p.packet_identifier
        ++ propsBlock (subscribePropEntries (p.properties.getD {}))
        ++ catList (p.subscriptions.map
            (fun s => utf8S s.topic ++ u8 (subscriptionFlagByte s))))
      = .ok (normalizeSubscribe p) := by
  have hpid := hv.1
  have hsubs := hv.2.1
  have hents := hv.2.2.1
  have hlen := hv.2.2.2
  unfold parseSubscribe
  rw [if_neg (by norm_num)]
  rw [List.append_assoc, readU16_u16, Nat.mod_eq_of_lt hpid]
  show (match readProperties (propsBlock (subscribePropEntries (p.properties.getD {}))
        ++ catList (p.subscriptions.map
            (fun s => utf8S s.topic ++ u8 (subscriptionFlagByte s)))) with
    | .error e => (.error e : Except Err SubscribePacket)
    | .ok (props, w) =>
      match readSubscriptions w with
      | .error e => .error e
      | .ok subs =>
        .ok ({ packet_identifier := p.packet_identifier, subscriptions := subs,
               properties := subscribePropsOfAll props } : SubscribePacket))
    = .ok (normalizeSubscribe p)
  rw [readProperties_block hents hlen]
  show (match readSubscriptions (catList (p.subscriptions.map
        (fun s => utf8S s.topic ++ u8 (subscriptionFlagByte s)))) with
    | .error e => (.error e : Except Err SubscribePacket)
    | .ok subs =>
      .ok ({ packet_identifier := p.packet_identifier, subscriptions := subs,
             properties := subscribePropsOfAll (normalizeProps
               (subscribePropEntries (p.properties.getD {}))) } : SubscribePacket))
    = .ok (normalizeSubscribe p)
  rw [readSubscriptions_catList hsubs]
  rfl

theorem subscribe_roundtrip {p : SubscribePacket} (hv : ValidSubscribe p)
    {bs : Bytes} (h : serializeSubscribe defaultMaxPacketSize p = .ok bs) :
    decodePacket bs = .ok (.subscribe (normalizeSubscribe p), []) := by
  unfold serializeSubscribe at h
  by_cases hs : p.subscriptions = []
  · rw [if_pos hs] at h
    cases h
  · rw [if_neg hs] at h
    refine decode_serialize_aux h (by norm_num) (by norm_num [defaultMaxPacketSize]) ?_
    have hd : ∀ w, parseBody 8 2 w = (parseSubscribe 2 w).map Packet.subscribe := by
      intro w
      norm_num [parseBody]
    rw [hd, parseSubscribe_body hv]
    rfl


theorem mem_optDef {α : Type} {x : Option α} {f : α → PropEntry} {e : PropEntry} :
    e ∈ optDef x f ↔ ∃ v, x = some v ∧ e = f v := by
  cases x <;> simp [optDef]

theorem mem_optTruthyNat {x : Option Nat} {f : Nat → PropEntry} {e : PropEntry} :
    e ∈ optTruthyNat x f ↔ ∃ v, x = some v ∧ v ≠ 0 ∧ e = f v := by
  cases x with
  | none => simp [optTruthyNat]
  | some v =>
    by_cases hv : v = 0 <;> simp [optTruthyNat, hv]

theorem mem_userPropEntries {x : Option (List (Bytes × Bytes))} {e : PropEntry} :
    e ∈ userPropEntries x ↔ ∃ kv ∈ x.getD [], e = .userProp kv.1 kv.2 := by
  simp only [userPropEntries, List.mem_map]
  constructor
  · rintro ⟨⟨a, b⟩, hab, he⟩
    exact ⟨(a, b), hab, he.symm⟩
  · rintro ⟨⟨a, b⟩, hab, he⟩
    exact ⟨(a, b), hab, he.symm⟩

theorem applyEntry_pfi {a : AllProperties} {e : PropEntry}
    (he : ∀ v, e ≠ .pfi v) :
    (applyEntry a e).payload_format_indicator = a.payload_format_indicator := by
  cases e with
  | pfi v => exact absurd rfl (he v)
  | _ => simp [applyEntry]

theorem foldl_pfi {es : List PropEntry} :
    ∀ (a : AllProperties), (∀ v, PropEntry.pfi v ∉ es) →
    (es.foldl applyEntry a).payload_format_indicator = a.payload_format_indicator := by
  induction es with
  | nil => intro a _; rfl
  | cons e t ih =>
    intro a h
    rw [List.foldl_cons, ih _ (fun v hv => h v (by simp [hv])),
      applyEntry_pfi (fun v hv => h v (by simp [hv]))]

theorem publishPropEntries_false_no_pfi (pr : AllProperties) (v : Nat) :
    PropEntry.pfi v ∉ publishPropEntries false pr := by
  intro hmem
  simp only [publishPropEntries, Bool.false_eq_true, if_false, List.nil_append,
    List.mem_append, mem_optDef, mem_optTruthyNat, mem_userPropEntries,
    List.mem_map, List.not_mem_nil, false_or] at hmem
  rcases hmem with ((((((h | h) | h) | h) | h) | h) | h)
  · obtain ⟨a, ha, h⟩ := h
    cases h
  · obtain ⟨a, ha, h⟩ := h
    cases h
  · obtain ⟨a, ha, h⟩ := h
    cases h
  · obtain ⟨a, ha, h⟩ := h
    cases h
  · obtain ⟨a, ha, h⟩ := h
    cases h
  · obtain ⟨a, ha, hne, h⟩ := h
    cases h
  · obtain ⟨a, ha, h⟩ := h
    cases h

theorem publishPropEntries_true (pr : AllProperties) :
    publishPropEntries true pr = .pfi 1 :: publishPropEntries false pr := by
  rfl

theorem normalizeProps_publish_false_pfi (pr : AllProperties) :
    (normalizeProps (publishPropEntries false pr)).bind (·.payload_format_indicator)
      = none := by
  unfold normalizeProps
  by_cases he : (publishPropEntries false pr).isEmpty
  · rw [if_pos he]
    rfl
  · rw [if_neg he]
    show (List.foldl applyEntry {}
        (publishPropEntries false pr)).payload_format_indicator = none
    rw [foldl_pfi _ (fun v => publishPropEntries_false_no_pfi pr v)]

theorem normalizeProps_publish_true_pfi (pr : AllProperties) :
    (normalizeProps (publishPropEntries true pr)).bind (·.payload_format_indicator)
      = some 1 := by
  rw [publishPropEntries_true]
  unfold normalizeProps
  rw [if_neg (by simp)]
  show (List.foldl applyEntry (applyEntry {} (.pfi 1))
      (publishPropEntries false pr)).payload_format_indicator = some 1
  rw [foldl_pfi _ (fun v => publishPropEntries_false_no_pfi pr v)]
  rfl

theorem publish_flag_facts {p : PublishPacket} (hq : p.qos.getD 0 ≤ 3) :
    publishFlags p / 2 % 4 = p.qos.getD 0
    ∧ publishFlags p / 8 % 2 = (if p.dup = some true then 1 else 0)
    ∧ publishFlags p % 2 = (if p.retain = some true then 1 else 0) := by
  unfold publishFlags
  split_ifs <;> omega

theorem decoded_dup_eq {p : PublishPacket} (hq : p.qos.getD 0 ≤ 3) :
    (if publishFlags p / 8 % 2 = 1 then (some true : Option Bool) else none)
      = (if p.dup = some true then some true else none) := by
  rw [(publish_flag_facts hq).2.1]
  by_cases hd : p.dup = some true <;> simp [hd]

theorem decoded_retain_eq {p : PublishPacket} (hq : p.qos.getD 0 ≤ 3) :
    (if publishFlags p % 2 = 1 then (some true : Option Bool) else none)
      = (if p.retain = some true then some true else none) := by
  rw [(publish_flag_facts hq).2.2]
  by_cases hr : p.retain = some true <;> simp [hr]

theorem corrCheckedEntries_ok {es es' : List PropEntry} {c : Option Bytes}
    (h : corrCheckedEntries es c = .ok es') : es' = es := by
  unfold corrCheckedEntries at h
  cases c with
  | none =>
    cases h
    rfl
  | some b =>
    have h2 : (if b.length > 65535 then (.error "data limit is 65535" :
        Except Err (List PropEntry)) else .ok es) = .ok es' := h
    by_cases hb : b.length > 65535
    · rw [if_pos hb] at h2
      cases h2
    · rw [if_neg hb] at h2
      cases h2
      rfl

theorem parsePublish_payload_eq {p : PublishPacket} :
    (match payloadBytes p.payload with
      | [] => none
      | _ :: _ =>
        match (normalizeProps (publishPropEntries (isStrPayload p.payload)
            (p.properties.getD {}))).bind (fun a => a.payload_format_indicator) with
        | some v => if v ≠ 0 then some (.str (payloadBytes p.payload))
                    else some (.bin (payloadBytes p.payload))
        | none => some (.bin (payloadBytes p.payload)))
      = (normalizePublish p).payload := by
  show _ = (match p.payload with
      | none => none
      | some (.str s) => if s = [] then none else some (.str s)
      | some (.bin b) => if b = [] then none else some (.bin b))
  cases hp : p.payload with
  | none => rfl
  | some pv =>
    cases pv with
    | str s =>
      have hpfi := normalizeProps_publish_true_pfi (p.properties.getD {})
      show (match s with
        | [] => (none : Option PayloadVal)
        | _ :: _ =>
          match (normalizeProps (publishPropEntries true (p.properties.getD {}))).bind
              (fun a => a.payload_format_indicator) with
          | some v => if v ≠ 0 then some (.str s) else some (.bin s)
          | none => some (.bin s)) = _
      cases s with
      | nil => rfl
      | cons x xs =>
        rw [hpfi]
        simp
    | bin b =>
      have hpfi := normalizeProps_publish_false_pfi (p.properties.getD {})
      show (match b with
        | [] => (none : Option PayloadVal)
        | _ :: _ =>
          match (normalizeProps (publishPropEntries false (p.properties.getD {}))).bind
              (fun a => a.payload_format_indicator) with
          | some v => if v ≠ 0 then some (.str b) else some (.bin b)
          | none => some (.bin b)) = _
      cases b with
      | nil => rfl
      | cons x xs =>
        rw [hpfi]
        simp

theorem parsePublish_body_qos0 {p : PublishPacket} (hv : ValidPublish p)
    (hq0 : p.qos.getD 0 = 0) :
    parsePublish (publishFlags p)
      (utf8S p.topic ++ []
        ++ propsBlock (publishPropEntries (isStrPayload p.payload) (p.properties.getD {}))
        ++ payloadBytes p.payload)
      = .ok (normalizePublish p) := by
  have hstr := hv.1
  have htop := hv.2.1
  have hq := hv.2.2.1
  have hpid := hv.2.2.2.1
  have hpay := hv.2.2.2.2.1
  have hents := hv.2.2.2.2.2.1
  have hlen := hv.2.2.2.2.2.2
  obtain ⟨hf1, hf2, hf3⟩ := publish_flag_facts hq
  unfold parsePublish
  rw [List.append_nil, List.append_assoc, readUTF8_utf8S hstr.1]
  show (match asTopicE p.topic with
    | .error e => (.error e : Except Err PublishPacket)
    | .ok topic =>
      match (if publishFlags p / 2 % 4 ≠ 0 then
               match readU16 (propsBlock (publishPropEntries (isStrPayload p.payload)
                   (p.properties.getD {})) ++ payloadBytes p.payload) with
               | .error e => .error e
               | .ok (pid, w) => .ok (some (publishFlags p / 2 % 4), some pid, w)
             else .ok (none, none, propsBlock (publishPropEntries (isStrPayload p.payload)
                 (p.properties.getD {})) ++ payloadBytes p.payload) :
               Except Err (Option Nat × Option Nat × Bytes)) with
      | .error e => .error e
      | .ok (qos, pid, w) =>
        match readProperties w with
        | .error e => .error e
        | .ok (props, w) =>
          .ok { packet_identifier := pid,
                dup := if publishFlags p / 8 % 2 = 1 then some true else none,
                qos := qos,
                retain := if publishFlags p % 2 = 1 then some true else none,
                topic := topic,
                payload :=
                  match w with
                  | [] => none
                  | _ :: _ =>
                    match props.bind (fun a => a.payload_format_indicator) with
                    | some v => if v ≠ 0 then some (.str w) else some (.bin w)
                    | none => some (.bin w),
                properties := props })
    = .ok (normalizePublish p)
  rw [asTopicE_ok htop]
  show (match (if publishFlags p / 2 % 4 ≠ 0 then
           match readU16 (propsBlock (publishPropEntries (isStrPayload p.payload)
               (p.properties.getD {})) ++ payloadBytes p.payload) with
           | .error e => .error e
           | .ok (pid, w) => .ok (some (publishFlags p / 2 % 4), some pid, w)
         else .ok (none, none, propsBlock (publishPropEntries (isStrPayload p.payload)
             (p.properties.getD {})) ++ payloadBytes p.payload) :
           Except Err (Option Nat × Option Nat × Bytes)) with
    | .error e => (.error e : Except Err PublishPacket)
    | .ok (qos, pid, w) =>
      match readProperties w with
      | .error e => .error e
      | .ok (props, w) =>
        .ok { packet_identifier := pid,
              dup := if publishFlags p / 8 % 2 = 1 then some true else none,
              qos := qos,
              retain := if publishFlags p % 2 = 1 then some true else none,
              topic := p.topic,
              payload :=
                match w with
                | [] => none
                | _ :: _ =>
                  match props.bind (fun a => a.payload_format_indicator) with
                  | some v => if v ≠ 0 then some (.str w) else some (.bin w)
                  | none => some (.bin w),
              properties := props })
    = .ok (normalizePublish p)
  rw [show (if publishFlags p / 2 % 4 ≠ 0 then
        match readU16 (propsBlock (publishPropEntries (isStrPayload p.payload)
            (p.properties.getD {})) ++ payloadBytes p.payload) with
        | .error e => .error e
        | .ok (pid, w) => .ok (some (publishFlags p / 2 % 4), some pid, w)
      else .ok (none, none, propsBlock (publishPropEntries (isStrPayload p.payload)
          (p.properties.getD {})) ++ payloadBytes p.payload) :
        Except Err (Option Nat × Option Nat × Bytes))
    = .ok (none, none, propsBlock (publishPropEntries (isStrPayload p.payload)
        (p.properties.getD {})) ++ payloadBytes p.payload)
    from by rw [hf1, hq0]; simp]
  show (match readProperties (propsBlock (publishPropEntries (isStrPayload p.payload)
        (p.properties.getD {})) ++ payloadBytes p.payload) with
    | .error e => (.error e : Except Err PublishPacket)
    | .ok (props, w) =>
      .ok ({ packet_identifier := none,
             dup := if publishFlags p / 8 % 2 = 1 then some true else none,
             qos := none,
             retain := if publishFlags p % 2 = 1 then some true else none,
             topic := p.topic,
             payload :=
               match w with
               | [] => none
               | _ :: _ =>
                 match props.bind (fun a => a.payload_format_indicator) with
                 | some v => if v ≠ 0 then some (.str w) else some (.bin w)
                 | none => some (.bin w),
             properties := props } : PublishPacket))
    = .ok (normalizePublish p)
  rw [readProperties_block hents hlen]
  show Except.ok ({ packet_identifier := none,
                    dup := if publishFlags p / 8 % 2 = 1 then some true else none,
                    qos := none,
                    retain := if publishFlags p % 2 = 1 then some true else none,
                    topic := p.topic,
                    payload :=
                    match payloadBytes p.payload with
                    | [] => none
                    | _ :: _ =>
                    match (normalizeProps (publishPropEntries (isStrPayload p.payload)
                    (p.properties.getD {}))).bind (fun a => a.payload_format_indicator) with
                    | some v => if v ≠ 0 then some (.str (payloadBytes p.payload))
                    else some (.bin (payloadBytes p.payload))
                    | none => some (.bin (payloadBytes p.payload)),
                    properties := normalizeProps (publishPropEntries (isStrPayload p.payload)
                    (p.properties.getD {})) } : PublishPacket) = .ok (normalizePublish p)
  rw [decoded_dup_eq hq, decoded_retain_eq hq, parsePublish_payload_eq]
  unfold normalizePublish
  rw [if_pos hq0, if_pos hq0]

theorem parsePublish_body_qosPos {p : PublishPacket} (hv : ValidPublish p)
    {i : Nat} (hpi : p.packet_identifier = some i)
    (hq0 : ¬ p.qos.getD 0 = 0) :
    parsePublish (publishFlags p)
      (utf8S p.topic ++ u16 i
        ++ propsBlock (publishPropEntries (isStrPayload p.payload) (p.properties.getD {}))
        ++ payloadBytes p.payload)
      = .ok (normalizePublish p) := by
  have hstr := hv.1
  have htop := hv.2.1
  have hq := hv.2.2.1
  have hpid := hv.2.2.2.1
  have hpay := hv.2.2.2.2.1
  have hents := hv.2.2.2.2.2.1
  have hlen := hv.2.2.2.2.2.2
  obtain ⟨hf1, hf2, hf3⟩ := publish_flag_facts hq
  have hi : i < 65536 := hpid i hpi
  unfold parsePublish
  rw [List.append_assoc, List.append_assoc, readUTF8_utf8S hstr.1]
  show (match asTopicE p.topic with
    | .error e => (.error e : Except Err PublishPacket)
    | .ok topic =>
      match (if publishFlags p / 2 % 4 ≠ 0 then
               match readU16 (u16 i ++ (propsBlock (publishPropEntries
                   (isStrPayload p.payload) (p.properties.getD {}))
                   ++ payloadBytes p.payload)) with
               | .error e => .error e
               | .ok (pid, w) => .ok (some (publishFlags p / 2 % 4), some pid, w)
             else .ok (none, none, u16 i ++ (propsBlock (publishPropEntries
                 (isStrPayload p.payload) (p.properties.getD {}))
                 ++ payloadBytes p.payload)) :
               Except Err (Option Nat × Option Nat × Bytes)) with
      | .error e => .error e
      | .ok (qos, pid, w) =>
        match readProperties w with
        | .error e => .error e
        | .ok (props, w) =>
          .ok { packet_identifier := pid,
                dup := if publishFlags p / 8 % 2 = 1 then some true else none,
                qos := qos,
                retain := if publishFlags p % 2 = 1 then some true else none,
                topic := topic,
                payload :=
                  match w with
                  | [] => none
                  | _ :: _ =>
                    match props.bind (fun a => a.payload_format_indicator) with
                    | some v => if v ≠ 0 then some (.str w) else some (.bin w)
                    | none => some (.bin w),
                properties := props })
    = .ok (normalizePublish p)
  rw [asTopicE_ok htop]
  show (match (if publishFlags p / 2 % 4 ≠ 0 then
           match readU16 (u16 i ++ (propsBlock (publishPropEntries
               (isStrPayload p.payload) (p.properties.getD {}))
               ++ payloadBytes p.payload)) with
           | .error e => .error e
           | .ok (pid, w) => .ok (some (publishFlags p / 2 % 4), some pid, w)
         else .ok (none, none, u16 i ++ (propsBlock (publishPropEntries
             (isStrPayload p.payload) (p.properties.getD {}))
             ++ payloadBytes p.payload)) :
           Except Err (Option Nat × Option Nat × Bytes)) with
    | .error e => (.error e : Except Err PublishPacket)
    | .ok (qos, pid, w) =>
      match readProperties w with
      | .error e => .error e
      | .ok (props, w) =>
        .ok { packet_identifier := pid,
              dup := if publishFlags p / 8 % 2 = 1 then some true else none,
              qos := qos,
              retain := if publishFlags p % 2 = 1 then some true else none,
              topic := p.topic,
              payload :=
                match w with
                | [] => none
                | _ :: _ =>
                  match props.bind (fun a => a.payload_format_indicator) with
                  | some v => if v ≠ 0 then some (.str w) else some (.bin w)
                  | none => some (.bin w),
              properties := props })
    = .ok (normalizePublish p)
  rw [show (if publishFlags p / 2 % 4 ≠ 0 then
        match readU16 (u16 i ++ (propsBlock (publishPropEntries (isStrPayload p.payload)
            (p.properties.getD {})) ++ payloadBytes p.payload)) with
        | .error e => .error e
        | .ok (pid, w) => .ok (some (publishFlags p / 2 % 4), some pid, w)
      else .ok (none, none, u16 i ++ (propsBlock (publishPropEntries
          (isStrPayload p.payload) (p.properties.getD {})) ++ payloadBytes p.payload)) :
        Except Err (Option Nat × Option Nat × Bytes))
    = .ok (some (p.qos.getD 0), some i,
        propsBlock (publishPropEntries (isStrPayload p.payload) (p.properties.getD {}))
          ++ payloadBytes p.payload)
    from by
      rw [hf1, if_pos hq0, readU16_u16, Nat.mod_eq_of_lt hi]]
  show (match readProperties (propsBlock (publishPropEntries (isStrPayload p.payload)
        (p.properties.getD {})) ++ payloadBytes p.payload) with
    | .error e => (.error e : Except Err PublishPacket)
    | .ok (props, w) =>
      .ok ({ packet_identifier := some i,
             dup := if publishFlags p / 8 % 2 = 1 then some true else none,
             qos := some (p.qos.getD 0),
             retain := if publishFlags p % 2 = 1 then some true else none,
             topic := p.topic,
             payload :=
               match w with
               | [] => none
               | _ :: _ =>
                 match props.bind (fun a => a.payload_format_indicator) with
                 | some v => if v ≠ 0 then some (.str w) else some (.bin w)
                 | none => some (.bin w),
             properties := props } : PublishPacket))
    = .ok (normalizePublish p)
  rw [readProperties_block hents hlen]
  show Except.ok ({ packet_identifier := some i,
                    dup := if publishFlags p / 8 % 2 = 1 then some true else none,
                    qos := some (p.qos.getD 0),
                    retain := if publishFlags p % 2 = 1 then some true else none,
                    topic := p.topic,
                    payload :=
                    match payloadBytes p.payload with
                    | [] => none
                    | _ :: _ =>
                    match (normalizeProps (publishPropEntries (isStrPayload p.payload)
                    (p.properties.getD {}))).bind (fun a => a.payload_format_indicator) with
                    | some v => if v ≠ 0 then some (.str (payloadBytes p.payload))
                    else some (.bin (payloadBytes p.payload))
                    | none => some (.bin (payloadBytes p.payload)),
                    properties := normalizeProps (publishPropEntries (isStrPayload p.payload)
                    (p.properties.getD {})) } : PublishPacket) = .ok (normalizePublish p)
  rw [decoded_dup_eq hq, decoded_retain_eq hq, parsePublish_payload_eq]
  unfold normalizePublish
  rw [if_neg hq0, if_neg hq0, hpi]

theorem publish_roundtrip {p : PublishPacket} (hv : ValidPublish p) {bs : Bytes}
    (h : serializePublish defaultMaxPacketSize p = .ok bs) :
    decodePacket bs = .ok (.publish (normalizePublish p), []) := by
  unfold serializePublish at h
  have hd : ∀ fl w, parseBody 3 fl w = (parsePublish fl w).map Packet.publish := by
    intro fl w
    norm_num [parseBody]
  cases hpidb : p.packet_identifier with
  | some pid =>
    rw [hpidb] at h
    have h2 : (match (if p.qos.getD 0 = 0 then
          (.error "packet_identifier can only be set for QoS above 0" : Except Err Bytes)
        else .ok (u16 pid)) with
      | .error e => (.error e : Except Err Bytes)
      | .ok pidBytes =>
        match corrCheckedEntries
            (publishPropEntries (isStrPayload p.payload) (p.properties.getD {}))
            ((p.properties.getD {}).correlation_data) with
        | .error e => .error e
        | .ok pe =>
          finalizeMessage defaultMaxPacketSize 3 (publishFlags p)
            (utf8S p.topic ++ pidBytes ++ propsBlock pe ++ payloadBytes p.payload))
      = .ok bs := h
    by_cases hq0 : p.qos.getD 0 = 0
    · rw [if_pos hq0] at h2
      simp at h2
    · rw [if_neg hq0] at h2
      have h3 : (match corrCheckedEntries
            (publishPropEntries (isStrPayload p.payload) (p.properties.getD {}))
            ((p.properties.getD {}).correlation_data) with
        | .error e => (.error e : Except Err Bytes)
        | .ok pe =>
          finalizeMessage defaultMaxPacketSize 3 (publishFlags p)
            (utf8S p.topic ++ u16 pid ++ propsBlock pe ++ payloadBytes p.payload))
        = .ok bs := h2
      cases hc : corrCheckedEntries
          (publishPropEntries (isStrPayload p.payload) (p.properties.getD {}))
          ((p.properties.getD {}).correlation_data) with
      | error e =>
        rw [hc] at h3
        simp at h3
      | ok pe =>
        rw [hc] at h3
        obtain rfl := corrCheckedEntries_ok hc
        have h4 : finalizeMessage defaultMaxPacketSize 3 (publishFlags p)
            (utf8S p.topic ++ u16 pid
              ++ propsBlock (publishPropEntries (isStrPayload p.payload)
                  (p.properties.getD {}))
              ++ payloadBytes p.payload) = .ok bs := h3
        refine decode_serialize_aux h4 (by norm_num) (by norm_num [defaultMaxPacketSize]) ?_
        rw [hd, parsePublish_body_qosPos hv hpidb hq0]
        rfl
  | none =>
    rw [hpidb] at h
    have h2 : (match (if p.qos.getD 0 ≠ 0 then
          (.error "packet_identifier are required for QoS above 0" : Except Err Bytes)
        else .ok []) with
      | .error e => (.error e : Except Err Bytes)
      | .ok pidBytes =>
        match corrCheckedEntries
            (publishPropEntries (isStrPayload p.payload) (p.properties.getD {}))
            ((p.properties.getD {}).correlation_data) with
        | .error e => .error e
        | .ok pe =>
          finalizeMessage defaultMaxPacketSize 3 (publishFlags p)
            (utf8S p.topic ++ pidBytes ++ propsBlock pe ++ payloadBytes p.payload))
      = .ok bs := h
    by_cases hq0 : p.qos.getD 0 = 0
    · rw [if_neg (fun hcon => hcon hq0)] at h2
      have h3 : (match corrCheckedEntries
            (publishPropEntries (isStrPayload p.payload) (p.properties.getD {}))
            ((p.properties.getD {}).correlation_data) with
        | .error e => (.error e : Except Err Bytes)
        | .ok pe =>
          finalizeMessage defaultMaxPacketSize 3 (publishFlags p)
            (utf8S p.topic ++ [] ++ propsBlock pe ++ payloadBytes p.payload))
        = .ok bs := h2
      cases hc : corrCheckedEntries
          (publishPropEntries (isStrPayload p.payload) (p.properties.getD {}))
          ((p.properties.getD {}).correlation_data) with
      | error e =>
        rw [hc] at h3
        simp at h3
      | ok pe =>
        rw [hc] at h3
        obtain rfl := corrCheckedEntries_ok hc
        have h4 : finalizeMessage defaultMaxPacketSize 3 (publishFlags p)
            (utf8S p.topic ++ []
              ++ propsBlock (publishPropEntries (isStrPayload p.payload)
                  (p.properties.getD {}))
              ++ payloadBytes p.payload) = .ok bs := h3
        refine decode_serialize_aux h4 (by norm_num) (by norm_num [defaultMaxPacketSize]) ?_
        rw [hd, parsePublish_body_qos0 hv hq0]
        rfl
    · rw [if_pos hq0] at h2
      simp at h2

theorem readWillPayload_emit {pv : Option PayloadVal}
    (hok : match pv with
           | none => True
           | some (.str s) => s.length ≤ 65535
           | some (.bin b) => b.length ≤ 65535) (rest : Bytes) :
    readWillPayload (willPayloadB pv ++ rest)
      = .ok (.str (willRawBytes pv), rest) := by
  cases pv with
  | none =>
    show readWillPayload (u16 0 ++ rest) = .ok (.str [], rest)
    unfold readWillPayload
    rw [readU16_u16]
    show (match takeN (0 % 65536) rest with
      | .ok (s, w2) => (.ok (.str s, w2) : Except Err (PayloadVal × Bytes))
      | .error _ =>
        match readBinary rest with
        | .error e => .error e
        | .ok (b, w2) => .ok (.bin b, w2)) = .ok (.str [], rest)
    rw [show takeN (0 % 65536) rest = .ok ([], rest) from
      @takeN_exact [] (0 % 65536) (by norm_num) rest]
  | some pv2 =>
    cases pv2 with
    | str s =>
      have hok2 : s.length ≤ 65535 := hok
      show readWillPayload (utf8S s ++ rest) = .ok (.str s, rest)
      unfold readWillPayload
      rw [show utf8S s ++ rest = u16 s.length ++ (s ++ rest) from by simp [utf8S]]
      rw [readU16_u16]
      show (match takeN (s.length % 65536) (s ++ rest) with
        | .ok (s2, w2) => (.ok (.str s2, w2) : Except Err (PayloadVal × Bytes))
        | .error _ =>
          match readBinary (s ++ rest) with
          | .error e => .error e
          | .ok (b, w2) => .ok (.bin b, w2)) = .ok (.str s, rest)
      rw [Nat.mod_eq_of_lt (by omega : s.length < 65536), takeN_exact rfl rest]
    | bin b =>
      have hok2 : b.length ≤ 65535 := hok
      show readWillPayload ((u16 b.length ++ b) ++ rest) = .ok (.str b, rest)
      unfold readWillPayload
      rw [List.append_assoc, readU16_u16]
      show (match takeN (b.length % 65536) (b ++ rest) with
        | .ok (s2, w2) => (.ok (.str s2, w2) : Except Err (PayloadVal × Bytes))
        | .error _ =>
          match readBinary (b ++ rest) with
          | .error e => .error e
          | .ok (b2, w2) => .ok (.bin b2, w2)) = .ok (.str b, rest)
      rw [Nat.mod_eq_of_lt (by omega : b.length < 65536), takeN_exact rfl rest]

theorem connectFlags_facts {p : ConnectPacket}
    (hq : (p.will.bind (·.qos)).getD 0 ≤ 3) :
    connectFlags p < 256
    ∧ connectFlags p / 128 % 2 = (if p.username ≠ none then 1 else 0)
    ∧ connectFlags p / 64 % 2 = (if p.password ≠ none then 1 else 0)
    ∧ connectFlags p / 32 % 2
      = (if p.will.bind (·.retain) = some true then 1 else 0)
    ∧ connectFlags p / 8 % 4 = (p.will.bind (·.qos)).getD 0
    ∧ connectFlags p / 4 % 2 = (if p.will ≠ none then 1 else 0)
    ∧ connectFlags p / 2 % 2
      = (if p.clean_start = none ∨ p.clean_start = some true then 1 else 0) := by
  have hm : (match p.will.bind (·.qos) with
      | some q => if q = 0 then 0 else q * 8
      | none => 0) = (p.will.bind (·.qos)).getD 0 * 8 := by
    cases hb : p.will.bind (·.qos) with
    | none => rfl
    | some q =>
      by_cases hq0 : q = 0 <;> simp [hq0]
  unfold connectFlags
  rw [hm]
  split_ifs <;> omega

theorem connect_cs_eq {p : ConnectPacket}
    (hq : (p.will.bind (·.qos)).getD 0 ≤ 3) :
    (decide (connectFlags p / 2 % 2 = 1)) = p.clean_start.getD true := by
  rw [(connectFlags_facts hq).2.2.2.2.2.2]
  rcases p.clean_start with _ | b
  · simp
  · cases b <;> simp

theorem connect_wretain_eq {p : ConnectPacket} {wl : Will} (hw : p.will = some wl)
    (hq : (p.will.bind (·.qos)).getD 0 ≤ 3) :
    (decide (connectFlags p / 32 % 2 = 1)) = wl.retain.getD false := by
  rw [(connectFlags_facts hq).2.2.2.1, hw]
  rcases hr : wl.retain with _ | b
  · simp [Option.bind, hr]
  · cases b <;> simp [Option.bind, hr]

theorem connect_wqos_eq {p : ConnectPacket} {wl : Will} (hw : p.will = some wl)
    (hq : (p.will.bind (·.qos)).getD 0 ≤ 3) :
    connectFlags p / 8 % 4 = wl.qos.getD 0 := by
  rw [(connectFlags_facts hq).2.2.2.2.1, hw]
  rfl

theorem parseConnect_body {p : ConnectPacket} (hv : ValidConnect p)
    {pe : List PropEntry}
    (hpe : connectPropEntriesE (p.properties.getD {}) = .ok pe)
    (hvpe : ValidEntries pe) :
    parseConnect
      (utf8S mqttStr ++ u8 5 ++ u8 (connectFlags p) ++ u16 (p.keepalive.getD 0)
        ++ propsBlock pe ++ utf8S (p.client_id.getD [])
        ++ willBytesOpt p.will ++ optUserBytes p.username ++ optUserBytes p.password)
      = .ok (normalizeConnect p) := by
  have hwq : (p.will.bind (fun x => x.qos)).getD 0 ≤ 3 := by
    cases hw2 : p.will with
    | none => simp
    | some wl => simpa [Option.bind] using (hv.2.2.2.2.2.2.1 wl hw2).2.1
  obtain ⟨hlt, h128, h64, h32, h8, h4, h2cs⟩ := connectFlags_facts hwq
  have hcs := connect_cs_eq hwq
  have hmq : (mqttStr : Bytes).length ≤ 65535 := by norm_num [mqttStr]
  have hcid := hv.2.2.1
  have hka := hv.2.2.2.2.2.1
  have hcidb : readUTF8 (utf8S (p.client_id.getD [])) = .ok (p.client_id.getD [], []) := by
    simpa using readUTF8_utf8S hcid.1 []
  cases hw : p.will with
  | none =>
    have h4z : connectFlags p / 4 % 2 = 0 := by rw [h4, hw]; simp
    cases hu : p.username with
    | none =>
      have h128z : connectFlags p / 128 % 2 = 0 := by rw [h128, hu]; simp
      cases hpw : p.password with
      | none =>
        have h64z : connectFlags p / 64 % 2 = 0 := by rw [h64, hpw]; simp
        simp [parseConnect, List.append_assoc, willBytesOpt, optUserBytes,
          readUTF8_utf8S hmq, readU8_u8, readU16_u16,
          Nat.mod_eq_of_lt hlt, Nat.mod_eq_of_lt hka,
          readProperties_block hvpe.1 hvpe.2, readUTF8_utf8S hcid.1, hcidb,
          h4z, h128z, h64z, hcs, hw, hu, hpw,
          normalizeConnect, normalizePropsE, hpe]
      | some pw =>
        have h64o : connectFlags p / 64 % 2 = 1 := by rw [h64, hpw]; simp
        have hpws := hv.2.2.2.2.1 pw hpw
        have hpwb : readUTF8 (utf8S pw) = .ok (pw, []) := by
          simpa using readUTF8_utf8S hpws.1 []
        simp [parseConnect, List.append_assoc, willBytesOpt, optUserBytes,
          readUTF8_utf8S hmq, readU8_u8, readU16_u16,
          Nat.mod_eq_of_lt hlt, Nat.mod_eq_of_lt hka,
          readProperties_block hvpe.1 hvpe.2, readUTF8_utf8S hcid.1, hcidb,
          readUTF8_utf8S hpws.1, hpwb,
          h4z, h128z, h64o, hcs, hw, hu, hpw,
          normalizeConnect, normalizePropsE, hpe]
    | some u =>
      have h128o : connectFlags p / 128 % 2 = 1 := by rw [h128, hu]; simp
      have hus := hv.2.2.2.1 u hu
      have husb : readUTF8 (utf8S u) = .ok (u, []) := by
        simpa using readUTF8_utf8S hus.1 []
      cases hpw : p.password with
      | none =>
        have h64z : connectFlags p / 64 % 2 = 0 := by rw [h64, hpw]; simp
        simp [parseConnect, List.append_assoc, willBytesOpt, optUserBytes,
          readUTF8_utf8S hmq, readU8_u8, readU16_u16,
          Nat.mod_eq_of_lt hlt, Nat.mod_eq_of_lt hka,
          readProperties_block hvpe.1 hvpe.2, readUTF8_utf8S hcid.1, hcidb,
          readUTF8_utf8S hus.1, husb,
          h4z, h128o, h64z, hcs, hw, hu, hpw,
          normalizeConnect, normalizePropsE, hpe]
      | some pw =>
        have h64o : connectFlags p / 64 % 2 = 1 := by rw [h64, hpw]; simp
        have hpws := hv.2.2.2.2.1 pw hpw
        have hpwb : readUTF8 (utf8S pw) = .ok (pw, []) := by
          simpa using readUTF8_utf8S hpws.1 []
        simp [parseConnect, List.append_assoc, willBytesOpt, optUserBytes,
          readUTF8_utf8S hmq, readU8_u8, readU16_u16,
          Nat.mod_eq_of_lt hlt, Nat.mod_eq_of_lt hka,
          readProperties_block hvpe.1 hvpe.2, readUTF8_utf8S hcid.1, hcidb,
          readUTF8_utf8S hus.1, husb, readUTF8_utf8S hpws.1, hpwb,
          h4z, h128o, h64o, hcs, hw, hu, hpw,
          normalizeConnect, normalizePropsE, hpe]
  | some wl =>
    have hwl := hv.2.2.2.2.2.2.1 wl hw
    have h4o : connectFlags p / 4 % 2 = 1 := by rw [h4, hw]; simp
    have hwqos := connect_wqos_eq hw hwq
    have hwret := connect_wretain_eq hw hwq
    have hwtop : StrOK wl.topic := hwl.1
    have hwents := hwl.2.2.2
    have hwpok : (match wl.payload with
        | none => True
        | some (.str s) => s.length ≤ 65535
        | some (.bin b) => b.length ≤ 65535) := by
      have h3 := hwl.2.2.1
      cases hp2 : wl.payload with
      | none => trivial
      | some pv =>
        cases pv with
        | str s =>
          rw [hp2] at h3
          exact h3.1
        | bin b =>
          rw [hp2] at h3
          exact h3.elim
    have hwpb : readWillPayload (willPayloadB wl.payload)
        = .ok (.str (willRawBytes wl.payload), []) := by
      simpa using readWillPayload_emit hwpok []
    cases hu : p.username with
    | none =>
      have h128z : connectFlags p / 128 % 2 = 0 := by rw [h128, hu]; simp
      cases hpw : p.password with
      | none =>
        have h64z : connectFlags p / 64 % 2 = 0 := by rw [h64, hpw]; simp
        simp [parseConnect, List.append_assoc, willBytesOpt, optUserBytes,
          readUTF8_utf8S hmq, readU8_u8, readU16_u16,
          Nat.mod_eq_of_lt hlt, Nat.mod_eq_of_lt hka,
          readProperties_block hvpe.1 hvpe.2, readUTF8_utf8S hcid.1, hcidb,
          readProperties_block hwents.1 hwents.2, readUTF8_utf8S hwtop.1,
          readWillPayload_emit hwpok, hwpb,
          h4o, h128z, h64z, hcs, hwqos, hwret, hw, hu, hpw,
          normalizeConnect, normalizeWill, normalizePropsE, hpe]
      | some pw =>
        have h64o : connectFlags p / 64 % 2 = 1 := by rw [h64, hpw]; simp
        have hpws := hv.2.2.2.2.1 pw hpw
        have hpwb : readUTF8 (utf8S pw) = .ok (pw, []) := by
          simpa using readUTF8_utf8S hpws.1 []
        simp [parseConnect, List.append_assoc, willBytesOpt, optUserBytes,
          readUTF8_utf8S hmq, readU8_u8, readU16_u16,
          Nat.mod_eq_of_lt hlt, Nat.mod_eq_of_lt hka,
          readProperties_block hvpe.1 hvpe.2, readUTF8_utf8S hcid.1, hcidb,
          readProperties_block hwents.1 hwents.2, readUTF8_utf8S hwtop.1,
          readWillPayload_emit hwpok, hwpb, readUTF8_utf8S hpws.1, hpwb,
          h4o, h128z, h64o, hcs, hwqos, hwret, hw, hu, hpw,
          normalizeConnect, normalizeWill, normalizePropsE, hpe]
    | some u =>
      have h128o : connectFlags p / 128 % 2 = 1 := by rw [h128, hu]; simp
      have hus := hv.2.2.2.1 u hu
      have husb : readUTF8 (utf8S u) = .ok (u, []) := by
        simpa using readUTF8_utf8S hus.1 []
      cases hpw : p.password with
      | none =>
        have h64z : connectFlags p / 64 % 2 = 0 := by rw [h64, hpw]; simp
        simp [parseConnect, List.append_assoc, willBytesOpt, optUserBytes,
          readUTF8_utf8S hmq, readU8_u8, readU16_u16,
          Nat.mod_eq_of_lt hlt, Nat.mod_eq_of_lt hka,
          readProperties_block hvpe.1 hvpe.2, readUTF8_utf8S hcid.1, hcidb,
          readProperties_block hwents.1 hwents.2, readUTF8_utf8S hwtop.1,
          readWillPayload_emit hwpok, hwpb, readUTF8_utf8S hus.1, husb,
          h4o, h128o, h64z, hcs, hwqos, hwret, hw, hu, hpw,
          normalizeConnect, normalizeWill, normalizePropsE, hpe]
      | some pw =>
        have h64o : connectFlags p / 64 % 2 = 1 := by rw [h64, hpw]; simp
        have hpws := hv.2.2.2.2.1 pw hpw
        have hpwb : readUTF8 (utf8S pw) = .ok (pw, []) := by
          simpa using readUTF8_utf8S hpws.1 []
        simp [parseConnect, List.append_assoc, willBytesOpt, optUserBytes,
          readUTF8_utf8S hmq, readU8_u8, readU16_u16,
          Nat.mod_eq_of_lt hlt, Nat.mod_eq_of_lt hka,
          readProperties_block hvpe.1 hvpe.2, readUTF8_utf8S hcid.1, hcidb,
          readProperties_block hwents.1 hwents.2, readUTF8_utf8S hwtop.1,
          readWillPayload_emit hwpok, hwpb, readUTF8_utf8S hus.1, husb,
          readUTF8_utf8S hpws.1, hpwb,
          h4o, h128o, h64o, hcs, hwqos, hwret, hw, hu, hpw,
          normalizeConnect, normalizeWill, normalizePropsE, hpe]

theorem connect_roundtrip {p : ConnectPacket} (hv : ValidConnect p) {bs : Bytes}
    (h : serializeConnect defaultMaxPacketSize p = .ok bs) :
    decodePacket bs = .ok (.connect (normalizeConnect p), []) := by
  unfold serializeConnect at h
  have hd : ∀ w, parseBody 1 0 w = (parseConnect w).map Packet.connect := by
    intro w
    norm_num [parseBody]
  cases hpe : connectPropEntriesE (p.properties.getD {}) with
  | error e =>
    rw [hpe] at h
    simp at h
  | ok pe =>
    rw [hpe] at h
    have hvpe : ValidEntries pe := by
      have h2 := hv.2.2.2.2.2.2.2
      simp only [ValidEntriesE.eq_def, hpe] at h2
      exact h2
    have hpn : p.protocol_name.getD mqttStr = mqttStr := by
      rcases hv.1 with h1 | h1 <;> simp [h1]
    have hpv5 : p.protocol_version.getD 5 = 5 := by
      rcases hv.2.1 with h1 | h1 <;> simp [h1]
    rw [hpn, hpv5] at h
    cases hw : p.will with
    | none =>
      rw [hw] at h
      have h5 : finalizeMessage defaultMaxPacketSize 1 0
          (utf8S mqttStr ++ u8 5 ++ u8 (connectFlags p) ++ u16 (p.keepalive.getD 0)
            ++ propsBlock pe ++ utf8S (p.client_id.getD [])
            ++ willBytesOpt p.will ++ optUserBytes p.username
            ++ optUserBytes p.password) = .ok bs := by
        rw [hw]
        exact h
      refine decode_serialize_aux h5 (by norm_num) (by norm_num [defaultMaxPacketSize]) ?_
      rw [hd, parseConnect_body hv hpe hvpe]
      rfl
    | some wl =>
      rw [hw] at h
      have hwl := hv.2.2.2.2.2.2.1 wl hw
      cases hcc : corrCheckedEntries
          (willPropEntries (isStrPayload wl.payload) (wl.properties.getD {}))
          ((wl.properties.getD {}).correlation_data) with
      | error e =>
        simp only [hcc] at h
        cases h
      | ok wpe =>
        simp only [hcc] at h
        obtain rfl := corrCheckedEntries_ok hcc
        have hplex : (match wl.payload with
            | none => (.ok (u16 0) : Except Err Bytes)
            | some (.str s) => .ok (utf8S s)
            | some (.bin b) => binData b) = .ok (willPayloadB wl.payload) := by
          cases hp2 : wl.payload with
          | none => rfl
          | some pv =>
            cases pv with
            | str s => rfl
            | bin b =>
              have h3 := hwl.2.2.1
              rw [hp2] at h3
              exact h3.elim
        rw [hplex] at h
        have h5 : finalizeMessage defaultMaxPacketSize 1 0
            (utf8S mqttStr ++ u8 5 ++ u8 (connectFlags p) ++ u16 (p.keepalive.getD 0)
              ++ propsBlock pe ++ utf8S (p.client_id.getD [])
              ++ willBytesOpt p.will ++ optUserBytes p.username
              ++ optUserBytes p.password) = .ok bs := by
          rw [hw]
          exact h
        refine decode_serialize_aux h5 (by norm_num) (by norm_num [defaultMaxPacketSize]) ?_
        rw [hd, parseConnect_body hv hpe hvpe]
        rfl

theorem pingreq_roundtrip {bs : Bytes} (h : PingReqMessage = .ok bs) :
    decodePacket bs = .ok (.pingreq, []) := by
  have hb : PingReqMessage = .ok [192, 0] := by decide
  rw [hb] at h
  cases h
  decide

theorem pingresp_roundtrip {bs : Bytes} (h : PingRespMessage = .ok bs) :
    decodePacket bs = .ok (.pingresp, []) := by
  have hb : PingRespMessage = .ok [208, 0] := by decide
  rw [hb] at h
  cases h
  decide

/-- C1 (counterexample to the claim as stated): the Publish packet with
topic "a" and an explicit QoS 0 is well-formed and serializes, but decoding
the bytes yields a Publish whose qos field is `undefined` rather than 0:
the encoder silently drops an explicit QoS 0, which is not one of the
fields the claim exempts (it names only the derived
payload_format_indicator). -/
theorem c1_roundtrip_counterexample :
    ValidPacket (.publish { topic := [97], qos := some 0 })
    ∧ serialize defaultMaxPacketSize (.publish { topic := [97], qos := some 0 })
        = .ok [48, 4, 0, 1, 97, 0]
    ∧ decodePacket [48, 4, 0, 1, 97, 0]
        = .ok (.publish { topic := [97] }, [])
    ∧ (Packet.publish { topic := [97] })
        ≠ .publish { topic := [97], qos := some 0 } := by
  exact ⟨by decide, by decide, by decide, by decide⟩

/-- C1 (amended): for every well-formed packet of a supported type,
decoding the serializer's bytes succeeds, consumes the whole buffer, and
returns the packet up to the encoder's canonicalisation `normalizePacket`:
fields the encoder derives (payload_format_indicator from the payload
type), defaults it materialises (clean_start, keepalive, reason codes,
QoS/retain handling read back from flag bits), and explicit values equal
to a default that it does not put on the wire (QoS 0, retain false,
reason code 0 short forms). -/
theorem c1_roundtrip {p : Packet} (hv : ValidPacket p) {bs : Bytes}
    (h : serialize defaultMaxPacketSize p = .ok bs) :
    decodePacket bs = .ok (normalizePacket p, []) := by
  cases p with
  | connect q => exact connect_roundtrip hv h
  | connack q => exact connack_roundtrip hv h
  | publish q => exact publish_roundtrip hv h
  | puback q => exact puback_roundtrip hv h
  | pubrec q => exact pubrec_roundtrip hv h
  | pubrel q => exact pubrel_roundtrip hv h
  | pubcomp q => exact pubcomp_roundtrip hv h
  | subscribe q => exact subscribe_roundtrip hv h
  | suback q => exact suback_roundtrip hv h
  | unsubscribe q => exact unsubscribe_roundtrip hv h
  | unsuback q => exact unsuback_roundtrip hv h
  | pingreq => exact pingreq_roundtrip h
  | pingresp => exact pingresp_roundtrip h
  | disconnect q => exact disconnect_roundtrip hv h
  | auth q => exact auth_roundtrip hv h

/-- C1 (witness): the amended round trip evaluated on a concrete QoS 1
Publish packet. -/
theorem c1_roundtrip_witness :
    ValidPacket (.publish { topic := [97], packet_identifier := some 7, qos := some 1 })
    ∧ decodePacket [50, 6, 0, 1, 97, 0, 7, 0]
      = .ok (normalizePacket
          (.publish { topic := [97], packet_identifier := some 7, qos := some 1 }), []) :=
  ⟨by decide, c1_roundtrip (by decide) (by decide)⟩

/-- C3: the minimal Connect packet of the spec's example serializes to the
fifteen documented bytes, and the PingReq and PingResp singletons are
always exactly `c0 00` and `d0 00`, for every negotiated maximum size. -/
theorem c3_fixed_encodings :
    serialize defaultMaxPacketSize
        (.connect { keepalive := some 0, clean_start := some true })
      = .ok [0x10, 0x0d, 0x00, 0x04, 0x4d, 0x51, 0x54, 0x54, 0x05, 0x02,
             0x00, 0x00, 0x00, 0x00, 0x00]
    ∧ (∀ maxSize, serialize maxSize .pingreq = .ok [0xc0, 0x00])
    ∧ (∀ maxSize, serialize maxSize .pingresp = .ok [0xd0, 0x00]) := by
  have h1 : PingReqMessage = .ok [0xc0, 0x00] := by decide
  have h2 : PingRespMessage = .ok [0xd0, 0x00] := by decide
  exact ⟨by decide, fun _ => h1, fun _ => h2⟩

/-- C4 (counterexample): the size guard of Writer.finalizeMessage rejects
with `>=`, not `>`: a Disconnect whose remaining length is exactly the
negotiated maximum (2 bytes here) is rejected even though it does not
exceed it, contradicting the claim's final sentence. -/
theorem c4_size_boundary_counterexample :
    (u8 139 ++ propsBlock (disconnectPropEntries {})).length = 2
    ∧ serialize 2 (.disconnect { reason_code := some 139 })
        = .error "Message size is too large" := by
  exact ⟨by decide, by decide⟩

/-- C4 (amended): the encoder's rejection conditions, with the size guard
corrected to `remaining length ≥ maximum` (equality also rejects): the
success/failure dichotomy of finalizeMessage, the empty-list guards of
Subscribe, Unsubscribe, SubAck and UnsubAck, authentication data without a
method, the ConnAck server_reference guard, and the two Publish
packet-identifier/QoS conditions. -/
theorem c4_encoder_errors :
    (∀ maxSize ty flags (body : Bytes), flags ≤ 15 → body.length < maxSize →
      finalizeMessage maxSize ty flags body
        = .ok (u8 (ty * 16 + flags) ++ encodeVBI body.length ++ body))
    ∧ (∀ maxSize ty flags (body : Bytes), flags ≤ 15 → body.length ≥ maxSize →
      finalizeMessage maxSize ty flags body = .error "Message size is too large")
    ∧ (∀ maxSize p, p.subscriptions = [] →
      serializeSubscribe maxSize p = .error "Empty subscriptions are not allowed")
    ∧ (∀ maxSize p, p.topic_filters = [] →
      serializeUnsubscribe maxSize p = .error "Empty subscriptions are not allowed")
    ∧ (∀ maxSize ty p, p.reason_codes = [] →
      serializeSubAckLike maxSize ty p = .error "reason_codes cannot be empty")
    ∧ (∀ base (d : Bytes), d.length ≤ 65535 →
      authCheckedEntries base none (some d)
        = .error "authentication data can only be set if the authentication method is set")
    ∧ (∀ maxSize p, ((p.properties.getD {}).server_reference.getD []) ≠ [] →
      p.connect_reason_code ≠ some 157 → p.connect_reason_code ≠ some 156 →
      serializeConnAck maxSize p
        = .error "server_reference can only be set if the reason_code is Server_moved or Use_another_server")
    ∧ (∀ maxSize p i, p.packet_identifier = some i → p.qos.getD 0 = 0 →
      serializePublish maxSize p
        = .error "packet_identifier can only be set for QoS above 0")
    ∧ (∀ maxSize p, p.packet_identifier = none → p.qos.getD 0 ≠ 0 →
      serializePublish maxSize p
        = .error "packet_identifier are required for QoS above 0") := by
  refine ⟨?_, ?_, ?_, ?_, ?_, ?_, ?_, ?_, ?_⟩
  · intro maxSize ty flags body h1 h2
    unfold finalizeMessage
    rw [if_neg (by omega), if_neg (by omega)]
  · intro maxSize ty flags body h1 h2
    unfold finalizeMessage
    rw [if_neg (by omega), if_pos (by omega)]
  · intro maxSize p hs
    unfold serializeSubscribe
    rw [if_pos hs]
  · intro maxSize p hs
    unfold serializeUnsubscribe
    rw [if_pos hs]
  · intro maxSize ty p hs
    unfold serializeSubAckLike
    rw [if_pos hs]
  · intro base d hd
    unfold authCheckedEntries
    show (if (none : Option Bytes) = none then
        (.error "authentication data can only be set if the authentication method is set"
          : Except Err (List PropEntry))
      else if d.length > 65535 then .error "data limit is 65535"
      else .ok (base ++ [.authData d])) = _
    rw [if_pos rfl]
  · intro maxSize p h1 h2 h3
    unfold serializeConnAck
    rw [if_pos ⟨h1, h2, h3⟩]
  · intro maxSize p i hpi hq
    unfold serializePublish
    rw [hpi]
    show (match (if p.qos.getD 0 = 0 then
          (.error "packet_identifier can only be set for QoS above 0" : Except Err Bytes)
        else .ok (u16 i)) with
      | .error e => (.error e : Except Err Bytes)
      | .ok pidBytes =>
        match corrCheckedEntries
            (publishPropEntries (isStrPayload p.payload) (p.properties.getD {}))
            ((p.properties.getD {}).correlation_data) with
        | .error e => .error e
        | .ok pe =>
          finalizeMessage maxSize 3 (publishFlags p)
            (utf8S p.topic ++ pidBytes ++ propsBlock pe ++ payloadBytes p.payload))
      = .error "packet_identifier can only be set for QoS above 0"
    rw [if_pos hq]
  · intro maxSize p hpi hq
    unfold serializePublish
    rw [hpi]
    show (match (if p.qos.getD 0 ≠ 0 then
          (.error "packet_identifier are required for QoS above 0" : Except Err Bytes)
        else .ok []) with
      | .error e => (.error e : Except Err Bytes)
      | .ok pidBytes =>
        match corrCheckedEntries
            (publishPropEntries (isStrPayload p.payload) (p.properties.getD {}))
            ((p.properties.getD {}).correlation_data) with
        | .error e => .error e
        | .ok pe =>
          finalizeMessage maxSize 3 (publishFlags p)
            (utf8S p.topic ++ pidBytes ++ propsBlock pe ++ payloadBytes p.payload))
      = .error "packet_identifier are required for QoS above 0"
    rw [if_pos hq]

/-- C4 (witness): the amended characterization evaluated on concrete
inputs: a two-byte body passes a maximum of 3 and is rejected by a maximum
of 2; an empty subscription list is rejected. -/
theorem c4_encoder_errors_witness :
    finalizeMessage 3 14 0 [139, 0] = .ok (u8 (14 * 16 + 0) ++ encodeVBI 2 ++ [139, 0])
    ∧ finalizeMessage 2 14 0 [139, 0] = .error "Message size is too large"
    ∧ serializeSubscribe 268435455 { packet_identifier := 1, subscriptions := [] }
        = .error "Empty subscriptions are not allowed" :=
  ⟨c4_encoder_errors.1 3 14 0 [139, 0] (by norm_num) (by norm_num),
   c4_encoder_errors.2.1 2 14 0 [139, 0] (by norm_num) (by norm_num),
   c4_encoder_errors.2.2.1 268435455 _ rfl⟩

theorem readVBILoop_mult_exceeded (g : Bool) (m v b : Nat) (l : Bytes)
    (hm : m > 2097152) :
    readVBILoop g m v (b :: l) = .error "Malformed Variable Byte Integer" := by
  unfold readVBILoop
  rw [if_pos hm]

theorem readVBILoop_cont (g : Bool) (m v b : Nat) (l : Bytes)
    (hb : 128 ≤ b % 256) (hm : m ≤ 2097152) :
    readVBILoop g m v (b :: l)
      = readVBILoop g (m * 128) (v + b % 256 % 128 * m) l := by
  have h1 : readVBILoop g m v (b :: l)
      = (if m > 2097152 then .error "Malformed Variable Byte Integer"
         else if b % 256 < 128 then .ok (some (v + b % 256 % 128 * m, l))
         else readVBILoop g (m * 128) (v + b % 256 % 128 * m) l) := rfl
  rw [h1, if_neg (by omega), if_neg (by omega)]

/-- C5 (counterexample): Writer.addVariableByteInteger never raises: for
the out-of-range input 268435456 it silently emits five bytes (which the
decoder then rejects), refuting the claim's second half. -/
theorem c5_vbi_counterexample :
    encodeVBI 268435456 = [128, 128, 128, 128, 1]
    ∧ readVBI [128, 128, 128, 128, 1] = .error "Malformed Variable Byte Integer" := by
  exact ⟨by decide, by decide⟩

/-- C5 (amended): the decoder rejects any input whose first four bytes all
carry the continuation bit and that has a fifth byte; the encoder never
fails, and on any input beyond 268435455 it emits at least five bytes
whose decoding the decoder rejects as malformed. -/
theorem c5_vbi_bounds :
    (∀ b1 b2 b3 b4 b5 (rest : Bytes), 128 ≤ b1 % 256 → 128 ≤ b2 % 256 →
      128 ≤ b3 % 256 → 128 ≤ b4 % 256 →
      readVBI (b1 :: b2 :: b3 :: b4 :: b5 :: rest)
        = .error "Malformed Variable Byte Integer")
    ∧ (∀ n (rest : Bytes), n > 268435455 →
      readVBI (encodeVBI n ++ rest) = .error "Malformed Variable Byte Integer")
    ∧ (∀ n, n > 268435455 → 5 ≤ (encodeVBI n).length) := by
  have hstep : ∀ n, n ≥ 128 → encodeVBI n = (n % 128 + 128) :: encodeVBI (n / 128) := by
    intro n hn
    rw [encodeVBI_eq, if_neg (by omega)]
  refine ⟨?_, ?_, ?_⟩
  · intro b1 b2 b3 b4 b5 rest h1 h2 h3 h4
    unfold readVBI
    rw [readVBILoop_cont _ _ _ _ _ h1 (by norm_num),
      readVBILoop_cont _ _ _ _ _ h2 (by norm_num),
      readVBILoop_cont _ _ _ _ _ h3 (by norm_num),
      readVBILoop_cont _ _ _ _ _ h4 (by norm_num),
      readVBILoop_mult_exceeded _ _ _ _ _ (by norm_num)]
  · intro n rest hn
    obtain ⟨b5, l5, h5⟩ : ∃ b5 l5,
        encodeVBI (n / 128 / 128 / 128 / 128) ++ rest = b5 :: l5 := by
      cases hE : encodeVBI (n / 128 / 128 / 128 / 128) with
      | nil => exact absurd hE (encodeVBI_ne_nil _)
      | cons x xs => exact ⟨x, xs ++ rest, by simp [hE]⟩
    unfold readVBI
    rw [hstep n (by omega), hstep (n / 128) (by omega),
      hstep (n / 128 / 128) (by omega), hstep (n / 128 / 128 / 128) (by omega)]
    simp only [List.cons_append]
    rw [readVBILoop_cont _ _ _ _ _ (by omega) (by norm_num),
      readVBILoop_cont _ _ _ _ _ (by omega) (by norm_num),
      readVBILoop_cont _ _ _ _ _ (by omega) (by norm_num),
      readVBILoop_cont _ _ _ _ _ (by omega) (by norm_num),
      h5, readVBILoop_mult_exceeded _ _ _ _ _ (by norm_num)]
  · intro n hn
    rw [hstep n (by omega), hstep (n / 128) (by omega),
      hstep (n / 128 / 128) (by omega), hstep (n / 128 / 128 / 128) (by omega)]
    have hne := encodeVBI_ne_nil (n / 128 / 128 / 128 / 128)
    have hpos : 1 ≤ (encodeVBI (n / 128 / 128 / 128 / 128)).length :=
      List.length_pos.mpr hne
    simp only [List.length_cons]
    omega

/-- C5 (witness): the amended bounds at a five-continuation-byte input and
at the encoder output for 268435456. -/
theorem c5_vbi_witness :
    readVBI [255, 255, 255, 255, 1] = .error "Malformed Variable Byte Integer"
    ∧ readVBI (encodeVBI 268435456 ++ []) = .error "Malformed Variable Byte Integer"
    ∧ 5 ≤ (encodeVBI 268435456).length :=
  ⟨c5_vbi_bounds.1 255 255 255 255 1 [] (by norm_num) (by norm_num) (by norm_num)
      (by norm_num),
   c5_vbi_bounds.2.1 268435456 [] (by norm_num),
   c5_vbi_bounds.2.2 268435456 (by norm_num)⟩

/-- C6 (code bug): Client.#handleMessages awaits the ConnAck with the
hard-coded literal 1000 ms, not the configured connectTimeout whose
documented default is 10000 ms; the configuration field is never read.
The retry shape itself matches the claim: anything other than a ConnAck
packet within the deadline counts as a failed attempt, and the retry delay
is the configured reconnectTime (default 1000 ms). -/
theorem c6_connack_deadline_mismatch :
    (∀ props, connAckAwaitDeadlineMs props = 1000)
    ∧ DefaultClientProperties.connectTimeout = 10000
    ∧ connAckAwaitDeadlineMs (some { connectTimeout := some 10000 }) ≠ 10000
    ∧ connAckPhase none = .failedAttempt
    ∧ (∀ a, connAckPhase (some (.connack a)) = .accepted a)
    ∧ connAckPhase (some .pingresp) = .failedAttempt
    ∧ reconnectDelayMs none = 1000 := by
  exact ⟨fun _ => rfl, rfl, by decide, rfl, fun _ => rfl, rfl, rfl⟩

/-- C7 (counterexample): when neither the client nor the server supplies a
truthy keepalive, the guard around setInterval is falsy and no timer is
started at all — the claimed 5-second default never runs (the fallback
branch is dead code, reachable only when the guard passed). -/
theorem c7_keepalive_counterexample :
    keepaliveTimerStarted none none = false
    ∧ keepaliveTimerStarted (some 0) (some 0) = false
    ∧ keepAliveSecondsUsed none none = 5 := by
  exact ⟨rfl, by decide, rfl⟩

/-- C7 (amended): the timer runs only when the requested or the
server-advertised keepalive is truthy; the seconds used are the
server-advertised value when defined, else the requested one (the 5-second
fallback is unreachable under the guard); the interval is seconds × 1000 −
100 ms; a tick aborts when the last PingResp is older than seconds × 1500
ms or the write fails, and otherwise writes the two-byte PingReq
singleton. -/
theorem c7_keepalive_behaviour :
    (∀ ck sk, keepaliveTimerStarted ck sk = false ↔
      (truthyNat ck = false ∧ truthyNat sk = false))
    ∧ (∀ ck s, keepAliveSecondsUsed ck (some s) = s)
    ∧ (∀ c, keepAliveSecondsUsed (some c) none = c)
    ∧ keepAliveSecondsUsed none none = 5
    ∧ (∀ ck sk, pingIntervalMs ck sk = (keepAliveSecondsUsed ck sk : Int) * 1000 - 100)
    ∧ (∀ ms ks w, ms > ks * 1500 → keepaliveTick ms ks w = .aborted)
    ∧ (∀ ms ks, ms ≤ ks * 1500 → keepaliveTick ms ks true = .sentPingReq)
    ∧ (∀ ms ks, ms ≤ ks * 1500 → keepaliveTick ms ks false = .aborted)
    ∧ PingReqMessage = .ok [0xc0, 0x00] := by
  refine ⟨?_, fun _ _ => rfl, fun _ => rfl, rfl, fun _ _ => rfl, ?_, ?_, ?_, by decide⟩
  · intro ck sk
    unfold keepaliveTimerStarted
    cases htc : truthyNat ck <;> cases hts : truthyNat sk <;> simp
  · intro ms ks w h
    unfold keepaliveTick
    rw [if_pos h]
  · intro ms ks h
    unfold keepaliveTick
    rw [if_neg (by omega), if_pos rfl]
  · intro ms ks h
    unfold keepaliveTick
    rw [if_neg (by omega), if_neg (by simp)]

/-- C7 (witness): the tick behaviour at keepalive 6 s: 9001 ms without a
PingResp aborts, 9000 ms sends the PingReq. -/
theorem c7_keepalive_witness :
    keepaliveTick 9001 6 true = .aborted
    ∧ keepaliveTick 9000 6 true = .sentPingReq
    ∧ keepaliveTick 9000 6 false = .aborted :=
  ⟨c7_keepalive_behaviour.2.2.2.2.2.1 9001 6 true (by norm_num),
   c7_keepalive_behaviour.2.2.2.2.2.2.1 9000 6 (by norm_num),
   c7_keepalive_behaviour.2.2.2.2.2.2.2.1 9000 6 (by norm_num)⟩

/-- C9 (counterexample): the decoder does not advance past an unknown
property's value.  In the three-byte section `04 01 01` — an unknown
identifier 4 followed by two value bytes — the value bytes are re-parsed
as a fresh property: the decoder reads identifier 1 (payload format
indicator) out of the unknown property's value and reports it, instead of
skipping the entry wholesale. -/
theorem c9_unknown_skip_counterexample :
    readProperties [3, 4, 1, 1]
      = .ok (some { payload_format_indicator := some 1 }, []) := by
  decide

/-- C9 (amended): an identifier the switch does not recognise consumes no
value bytes at all: the step function returns the window unchanged, so the
loop continues parsing at the byte right after the identifier. -/
theorem c9_unknown_id_consumes_nothing (a : AllProperties) {id : Nat}
    (hid : id ∉ ([1, 2, 3, 8, 9, 11, 17, 18, 19, 21, 22, 23, 24, 25, 26, 28,
      31, 33, 34, 35, 36, 37, 38, 39, 40, 41, 42] : List Nat)) (w : Bytes) :
    propStep a id w = .ok (a, w) := by
  simp only [List.mem_cons, not_or, List.not_mem_nil] at hid
  unfold propStep
  rw [if_neg hid.1,
    if_neg hid.2.1,
    if_neg hid.2.2.1,
    if_neg hid.2.2.2.1,
    if_neg hid.2.2.2.2.1,
    if_neg hid.2.2.2.2.2.1,
    if_neg hid.2.2.2.2.2.2.1,
    if_neg hid.2.2.2.2.2.2.2.1,
    if_neg hid.2.2.2.2.2.2.2.2.1,
    if_neg hid.2.2.2.2.2.2.2.2.2.1,
    if_neg hid.2.2.2.2.2.2.2.2.2.2.1,
    if_neg hid.2.2.2.2.2.2.2.2.2.2.2.1,
    if_neg hid.2.2.2.2.2.2.2.2.2.2.2.2.1,
    if_neg hid.2.2.2.2.2.2.2.2.2.2.2.2.2.1,
    if_neg hid.2.2.2.2.2.2.2.2.2.2.2.2.2.2.1,
    if_neg hid.2.2.2.2.2.2.2.2.2.2.2.2.2.2.2.1,
    if_neg hid.2.2.2.2.2.2.2.2.2.2.2.2.2.2.2.2.1,
    if_neg hid.2.2.2.2.2.2.2.2.2.2.2.2.2.2.2.2.2.1,
    if_neg hid.2.2.2.2.2.2.2.2.2.2.2.2.2.2.2.2.2.2.1,
    if_neg hid.2.2.2.2.2.2.2.2.2.2.2.2.2.2.2.2.2.2.2.1,
    if_neg hid.2.2.2.2.2.2.2.2.2.2.2.2.2.2.2.2.2.2.2.2.1,
    if_neg hid.2.2.2.2.2.2.2.2.2.2.2.2.2.2.2.2.2.2.2.2.2.1,
    if_neg hid.2.2.2.2.2.2.2.2.2.2.2.2.2.2.2.2.2.2.2.2.2.2.1,
    if_neg hid.2.2.2.2.2.2.2.2.2.2.2.2.2.2.2.2.2.2.2.2.2.2.2.1,
    if_neg hid.2.2.2.2.2.2.2.2.2.2.2.2.2.2.2.2.2.2.2.2.2.2.2.2.1,
    if_neg hid.2.2.2.2.2.2.2.2.2.2.2.2.2.2.2.2.2.2.2.2.2.2.2.2.2.1,
    if_neg hid.2.2.2.2.2.2.2.2.2.2.2.2.2.2.2.2.2.2.2.2.2.2.2.2.2.2.1]

/-- C9 (witness): the amended step behaviour at the unknown identifier 4. -/
theorem c9_unknown_id_witness :
    propStep {} 4 [1, 2] = .ok ({}, [1, 2]) :=
  c9_unknown_id_consumes_nothing {} (by decide) [1, 2]

set_option maxHeartbeats 2000000 in
theorem applyEntry_overwrite {e1 e2 : PropEntry} (h : sameProp e1 e2 = true)
    (a : AllProperties) :
    applyEntry (applyEntry a e1) e2 = applyEntry a e2 := by
  cases e1 <;> cases e2 <;> first
    | rfl
    | simp [sameProp] at h

/-- C10: a properties block holding two occurrences of the same
non-repeating known property (same constructor, not User_Property and not
Subscription_Identifier) decodes without error, and the record that comes
out is the one obtained from the second occurrence alone: the last
occurrence overwrites the earlier one. -/
theorem c10_duplicate_property_last_wins {e1 e2 : PropEntry}
    (hs : sameProp e1 e2 = true) (h1 : ValidEntry e1) (h2 : ValidEntry e2)
    (a : AllProperties) :
    readPropsLoop a (catList ([e1, e2].map encodePropEntry))
      = .ok (applyEntry a e2) := by
  rw [readPropsLoop_entries [e1, e2] a
    (by
      intro e he
      simp only [List.mem_cons, List.not_mem_nil, or_false] at he
      rcases he with rfl | rfl
      · exact h1
      · exact h2)]
  show Except.ok (applyEntry (applyEntry a e1) e2) = _
  rw [applyEntry_overwrite hs]

theorem c10_duplicate_property_witness :
    readPropsLoop ({} : AllProperties)
        (catList ([PropEntry.mei 1, PropEntry.mei 2].map encodePropEntry))
      = .ok (applyEntry {} (.mei 2)) :=
  c10_duplicate_property_last_wins (by decide) (by decide) (by decide) {}

theorem getD_get {l : List Bool} {j : Nat} (hj : j < l.length) :
    l.getD j false = l.get ⟨j, hj⟩ := by
  rw [List.getD_eq_getElem?_getD, List.getElem?_eq_getElem hj]
  rfl

theorem findIdx_false_some {l : List Bool} {i : Nat}
    (h : l.findIdx? (fun b => b = false) = some i) :
    i < l.length ∧ l.getD i false = false ∧ ∀ j < i, l.getD j false = true := by
  rw [List.findIdx?_eq_some_iff_getElem] at h
  obtain ⟨hlt, hfi, hmin⟩ := h
  refine ⟨hlt, ?_, ?_⟩
  · rw [getD_get hlt]
    simpa using hfi
  · intro j hj
    have hjl : j < l.length := by omega
    have h2 := hmin j hj
    rw [getD_get hjl]
    simpa using h2

theorem findIdx_false_none {l : List Bool} (h : l.findIdx? (fun b => b = false) = none) :
    ∀ j < l.length, l.getD j false = true := by
  rw [List.findIdx?_eq_none_iff] at h
  intro j hj
  have h2 := h (l.get ⟨j, hj⟩) (l.get_mem j hj)
  rw [getD_get hj]
  simpa using h2

theorem tableNZ_invariant {l : List Bool} (h : ReachableTableNZ l) :
    l.head? = some true ∧ l.length ≤ 65536 := by
  induction h with
  | init => exact ⟨rfl, by norm_num [clearPendingReplies]⟩
  | alloc l i l' hr ha ih =>
    obtain ⟨ihh, ihl⟩ := ih
    unfold allocIdentifier at ha
    cases hf : l.findIdx? (fun b => b = false) with
    | some i0 =>
      rw [hf] at ha
      simp only [Except.ok.injEq, Prod.mk.injEq] at ha
      obtain ⟨rfl, rfl⟩ := ha
      obtain ⟨hlt, hfree, hmin⟩ := findIdx_false_some hf
      constructor
      · cases l with
        | nil => simp at ihh
        | cons a t =>
          cases i0 with
          | zero =>
            simp only [List.head?_cons, Option.some.injEq] at ihh
            simp [ihh] at hfree
          | succ i1 => simpa using ihh
      · simpa using ihl
    | none =>
      rw [hf] at ha
      split_ifs at ha with hlen
      simp only [Except.ok.injEq, Prod.mk.injEq] at ha
      obtain ⟨rfl, rfl⟩ := ha
      constructor
      · cases l with
        | nil => simp at ihh
        | cons a t => simpa using ihh
      · simp only [List.length_append, List.length_cons, List.length_nil]
        omega
  | resolve l pid hr h1 h2 ih =>
    obtain ⟨ihh, ihl⟩ := ih
    unfold resolveSlot
    split_ifs with hp
    · constructor
      · cases l with
        | nil => simp at ihh
        | cons a t =>
          cases pid with
          | zero => omega
          | succ p' => simpa using ihh
      · simpa using ihl
    · constructor
      · cases l with
        | nil => simp at ihh
        | cons a t => simpa using ihh
      · simp only [List.length_append, List.length_replicate]
        omega
  | clear l hr ih => exact ⟨rfl, by norm_num [clearPendingReplies]⟩

theorem alloc_spec {l : List Bool} {i : Nat} {l' : List Bool}
    (hr : ReachableTableNZ l) (ha : allocIdentifier l = .ok (i, l')) :
    1 ≤ i ∧ i ≤ 65535 ∧ l.getD i false = false ∧
      (∀ j < i, l.getD j false = true) ∧ l'.getD i false = true := by
  obtain ⟨ihh, ihl⟩ := tableNZ_invariant hr
  unfold allocIdentifier at ha
  cases hf : l.findIdx? (fun b => b = false) with
  | some i0 =>
    rw [hf] at ha
    simp only [Except.ok.injEq, Prod.mk.injEq] at ha
    obtain ⟨rfl, rfl⟩ := ha
    obtain ⟨hlt, hfree, hmin⟩ := findIdx_false_some hf
    have hnz : 1 ≤ i0 := by
      rcases Nat.eq_zero_or_pos i0 with rfl | hpos
      · cases l with
        | nil => simp at ihh
        | cons a t =>
          simp only [List.head?_cons, Option.some.injEq] at ihh
          simp [ihh] at hfree
      · exact hpos
    refine ⟨hnz, by omega, hfree, hmin, ?_⟩
    have : (l.set i0 true).getD i0 false = true := by
      rw [List.getD_eq_getElem?_getD]
      rw [List.getElem?_set_self (by omega)]
      rfl
    exact this
  | none =>
    rw [hf] at ha
    split_ifs at ha with hlen
    simp only [Except.ok.injEq, Prod.mk.injEq] at ha
    obtain ⟨rfl, rfl⟩ := ha
    have hne : 1 ≤ l.length := by
      cases l with
      | nil => simp at ihh
      | cons a t => simp
    refine ⟨hne, by omega, ?_, ?_, ?_⟩
    · simp [List.getD_eq_getElem?_getD]
    · intro j hj
      exact findIdx_false_none hf j hj
    · rw [List.getD_eq_getElem?_getD]
      rw [List.getElem?_append_right (le_refl _)]
      simp

theorem alloc_error_iff {l : List Bool} (hr : ReachableTableNZ l) :
    (∃ e, allocIdentifier l = .error e) ↔
      (l.length = 65536 ∧ ∀ j < l.length, l.getD j false = true) := by
  obtain ⟨ihh, ihl⟩ := tableNZ_invariant hr
  constructor
  · rintro ⟨e, he⟩
    unfold allocIdentifier at he
    cases hf : l.findIdx? (fun b => b = false) with
    | some i0 =>
      rw [hf] at he
      cases he
    | none =>
      rw [hf] at he
      split_ifs at he with hlen
      exact ⟨by omega, findIdx_false_none hf⟩
  · rintro ⟨hlen, hall⟩
    refine ⟨"Too many pending replies, max is 65535", ?_⟩
    unfold allocIdentifier
    cases hf : l.findIdx? (fun b => b = false) with
    | some i0 =>
      obtain ⟨hlt, hfree, _⟩ := findIdx_false_some hf
      rw [hall i0 hlt] at hfree
      cases hfree
    | none =>
      rw [if_pos (by omega)]

/-- C8: in every state of the reply-correlation table reachable while
incoming acknowledgements carry the non-zero identifiers the client itself
issues, slot 0 stays occupied by the sentinel and the table holds at most
65536 slots; an allocation returns the smallest free slot, which is never 0,
never currently outstanding and at most 65535, and occupies it; and
allocation fails exactly when all 65536 slots are outstanding. -/
theorem c8_identifier_discipline :
    (∀ l, ReachableTableNZ l → l.head? = some true ∧ l.length ≤ 65536)
      ∧ (∀ l i l', ReachableTableNZ l → allocIdentifier l = .ok (i, l') →
          1 ≤ i ∧ i ≤ 65535 ∧ l.getD i false = false ∧
            (∀ j < i, l.getD j false = true) ∧ l'.getD i false = true)
      ∧ (∀ l, ReachableTableNZ l →
          ((∃ e, allocIdentifier l = .error e) ↔
            l.length = 65536 ∧ ∀ j < l.length, l.getD j false = true)) := by
  refine ⟨?_, ?_, ?_⟩
  · intro l hr
    exact tableNZ_invariant hr
  · intro l i l' hr ha
    exact alloc_spec hr ha
  · intro l hr
    exact alloc_error_iff hr

theorem c8_identifier_zero_counterexample :
    ReachableTable (resolveSlot clearPendingReplies 0)
      ∧ resolveSlot clearPendingReplies 0 = [false]
      ∧ allocIdentifier [false] = .ok (0, [true]) :=
  ⟨ReachableTable.resolve clearPendingReplies 0 ReachableTable.init (by norm_num),
   by decide, rfl⟩

theorem c8_identifier_discipline_witness :
    1 ≤ 1 ∧ 1 ≤ 65535 ∧ clearPendingReplies.getD 1 false = false ∧
      (∀ j < 1, clearPendingReplies.getD j false = true) ∧
      (clearPendingReplies ++ [true]).getD 1 false = true :=
  c8_identifier_discipline.2.1 clearPendingReplies 1 (clearPendingReplies ++ [true])
    ReachableTableNZ.init rfl

theorem processChunkF_succ (fuel : Nat) (b : Nat) (tl : Bytes) :
    processChunkF (fuel + 1) (b :: tl)
      = match readFixedHeader (b :: tl) with
        | .error e => { emits := [], carry := [], thrown := some e }
        | .ok none => { emits := [], carry := b :: tl }
        | .ok (some (fh, after)) =>
          if after.length < fh.length then { emits := [], carry := b :: tl }
          else
            match takeN fh.length after with
            | .error e => { emits := [], carry := [], thrown := some e }
            | .ok (w, rest) =>
              let out := processChunkF fuel (rest.take tl.length)
              { out with emits := parseBody fh.type fh.flags w :: out.emits } := rfl

theorem readFixedHeader_frame {n : Nat} (b : Nat) (hbound : n ≤ 268435455)
    (after : Bytes) :
    readFixedHeader (b :: encodeVBI n ++ after)
      = .ok (some ({ type := b % 256 / 16, flags := b % 256 % 16, length := n },
          after)) := by
  unfold readFixedHeader
  show (match readVBIGraceful (encodeVBI n ++ after) with
    | .error e => (.error e : Except Err (Option (FixedHeader × Bytes)))
    | .ok none => .ok none
    | .ok (some (len, l)) =>
      .ok (some ({ type := b % 256 / 16, flags := b % 256 % 16, length := len }, l)))
    = .ok (some ({ type := b % 256 / 16, flags := b % 256 % 16, length := n }, after))
  rw [readVBIGraceful_encode hbound after]

theorem frameEmit_frame {n : Nat} (b : Nat) {body : Bytes} (hn : body.length = n)
    (hbound : n ≤ 268435455) :
    frameEmit (b :: encodeVBI n ++ body)
      = parseBody (b % 256 / 16) (b % 256 % 16) body := by
  subst hn
  unfold frameEmit decodePacket
  rw [readFixedHeader_frame b hbound body]
  show (deserializePacket
      { type := b % 256 / 16, flags := b % 256 % 16, length := body.length }
      body).map Prod.fst = parseBody (b % 256 / 16) (b % 256 % 16) body
  unfold deserializePacket
  show ((match takeN body.length body with
    | .error e => (.error e : Except Err (Packet × Bytes))
    | .ok (w, rest) =>
      match parseBody (b % 256 / 16) (b % 256 % 16) w with
      | .error e => .error e
      | .ok p => .ok (p, rest))).map Prod.fst
    = parseBody (b % 256 / 16) (b % 256 % 16) body
  rw [takeN_all body]
  show ((match parseBody (b % 256 / 16) (b % 256 % 16) body with
    | .error e => (.error e : Except Err (Packet × Bytes))
    | .ok p => .ok (p, []))).map Prod.fst
    = parseBody (b % 256 / 16) (b % 256 % 16) body
  cases hp : parseBody (b % 256 / 16) (b % 256 % 16) body <;> simp [Except.map]

theorem processChunkF_mono : ∀ (f1 : Nat) (bs : Bytes) (f2 : Nat),
    bs.length ≤ f1 → bs.length ≤ f2 → processChunkF f1 bs = processChunkF f2 bs := by
  intro f1
  induction f1 with
  | zero =>
    intro bs f2 h1 _
    have hbs : bs = [] := List.length_eq_zero.mp (by omega)
    subst hbs
    cases f2 <;> rfl
  | succ f ih =>
    intro bs f2 h1 h2
    cases bs with
    | nil => cases f2 <;> rfl
    | cons b tl =>
      cases f2 with
      | zero => simp at h2
      | succ g =>
        rw [processChunkF_succ f b tl, processChunkF_succ g b tl]
        cases hrfh : readFixedHeader (b :: tl) with
        | error e => rfl
        | ok o =>
          cases o with
          | none => rfl
          | some p =>
            obtain ⟨fh, after⟩ := p
            show (if after.length < fh.length
                then ({ emits := [], carry := b :: tl } : ChunkOut)
              else match takeN fh.length after with
                | .error e => { emits := [], carry := [], thrown := some e }
                | .ok (w, rest) =>
                  let out := processChunkF f (rest.take tl.length)
                  { out with emits := parseBody fh.type fh.flags w :: out.emits })
              = (if after.length < fh.length then { emits := [], carry := b :: tl }
              else match takeN fh.length after with
                | .error e => { emits := [], carry := [], thrown := some e }
                | .ok (w, rest) =>
                  let out := processChunkF g (rest.take tl.length)
                  { out with emits := parseBody fh.type fh.flags w :: out.emits })
            by_cases hlen : after.length < fh.length
            · rw [if_pos hlen, if_pos hlen]
            · rw [if_neg hlen, if_neg hlen]
              cases htk : takeN fh.length after with
              | error e => rfl
              | ok wr =>
                obtain ⟨w, rest⟩ := wr
                have hle : (rest.take tl.length).length ≤ tl.length := by
                  simp [List.length_take]
                have heq := ih (rest.take tl.length) g (by simp at h1; omega)
                  (by simp at h2; omega)
                show { processChunkF f (rest.take tl.length) with
                    emits := parseBody fh.type fh.flags w
                      :: (processChunkF f (rest.take tl.length)).emits }
                  = { processChunkF g (rest.take tl.length) with
                    emits := parseBody fh.type fh.flags w
                      :: (processChunkF g (rest.take tl.length)).emits }
                rw [heq]

theorem processChunk_frame {n : Nat} (b : Nat) {body : Bytes} (hn : body.length = n)
    (hbound : n ≤ 268435455) (rest : Bytes) :
    processChunk ((b :: encodeVBI n ++ body) ++ rest)
      = { emits := parseBody (b % 256 / 16) (b % 256 % 16) body
            :: (processChunk rest).emits,
          carry := (processChunk rest).carry,
          thrown := (processChunk rest).thrown } := by
  have hassoc : (b :: encodeVBI n ++ body) ++ rest
      = b :: (encodeVBI n ++ (body ++ rest)) := by simp
  rw [processChunk, hassoc]
  rw [show (b :: (encodeVBI n ++ (body ++ rest))).length
      = (encodeVBI n ++ (body ++ rest)).length + 1 from rfl]
  rw [processChunkF_succ]
  rw [show (b :: (encodeVBI n ++ (body ++ rest)))
      = b :: encodeVBI n ++ (body ++ rest) from rfl]
  rw [readFixedHeader_frame b hbound (body ++ rest)]
  show (if (body ++ rest).length < n
      then ({ emits := [], carry := b :: (encodeVBI n ++ (body ++ rest)) } : ChunkOut)
    else match takeN n (body ++ rest) with
      | .error e => { emits := [], carry := [], thrown := some e }
      | .ok (w, rest2) =>
        let out := processChunkF (encodeVBI n ++ (body ++ rest)).length
          (rest2.take (encodeVBI n ++ (body ++ rest)).length)
        { out with emits := parseBody (b % 256 / 16) (b % 256 % 16) w :: out.emits })
    = { emits := parseBody (b % 256 / 16) (b % 256 % 16) body
          :: (processChunk rest).emits,
        carry := (processChunk rest).carry,
        thrown := (processChunk rest).thrown }
  have hnlt : ¬ ((body ++ rest).length < n) := by
    simp only [List.length_append]
    omega
  rw [if_neg hnlt]
  rw [takeN_exact hn rest]
  show { processChunkF (encodeVBI n ++ (body ++ rest)).length
        (rest.take (encodeVBI n ++ (body ++ rest)).length) with
      emits := parseBody (b % 256 / 16) (b % 256 % 16) body
        :: (processChunkF (encodeVBI n ++ (body ++ rest)).length
          (rest.take (encodeVBI n ++ (body ++ rest)).length)).emits }
    = { emits := parseBody (b % 256 / 16) (b % 256 % 16) body
          :: (processChunk rest).emits,
        carry := (processChunk rest).carry,
        thrown := (processChunk rest).thrown }
  have htake : rest.take (encodeVBI n ++ (body ++ rest)).length = rest :=
    List.take_of_length_le (by simp [List.length_append]; omega)
  rw [htake]
  rw [processChunkF_mono (encodeVBI n ++ (body ++ rest)).length rest rest.length
    (by simp [List.length_append]; omega) (le_refl _)]
  rfl

theorem encodeVBI_len : ∀ (k n : Nat), n < 128 ^ (k + 1) → (encodeVBI n).length ≤ k + 1 := by
  intro k
  induction k with
  | zero =>
    intro n hn
    rw [encodeVBI_eq, if_pos (by simpa using hn)]
    simp
  | succ k ih =>
    intro n hn
    rw [encodeVBI_eq]
    by_cases h : n < 128
    · rw [if_pos h]
      simp
    · rw [if_neg h]
      simp only [List.length_cons]
      have hdiv : n / 128 < 128 ^ (k + 1) := by
        rw [Nat.div_lt_iff_lt_mul (by norm_num : (0:Nat) < 128)]
        calc n < 128 ^ (k + 2) := hn
          _ = 128 ^ (k + 1) * 128 := by rw [pow_succ]
      have h2 := ih (n / 128) hdiv
      omega

theorem readVBILoop_prefix_none : ∀ (pre : Bytes) (n m v : Nat) (post : Bytes),
    encodeVBI n = pre ++ post → post ≠ [] → m * 128 ^ pre.length ≤ 268435456 →
    readVBILoop true m v pre = .ok none := by
  intro pre
  induction pre with
  | nil => intro n m v post _ _ _; rfl
  | cons p pre ih =>
    intro n m v post henc hpost hm
    rw [encodeVBI_eq] at henc
    by_cases hn : n < 128
    · rw [if_pos hn] at henc
      have h2 : ([n] : Bytes) = p :: (pre ++ post) := henc
      injection h2 with h3 h4
      have hlen := congrArg List.length h4
      simp only [List.length_nil, List.length_append] at hlen
      have : post = [] := List.length_eq_zero.mp (by omega)
      exact absurd this hpost
    · rw [if_neg hn] at henc
      have h2 : ((n % 128 + 128) :: encodeVBI (n / 128) : Bytes)
          = p :: (pre ++ post) := henc
      injection h2 with h3 h4
      have hm2 : m * 128 ^ (pre.length + 1) ≤ 268435456 := hm
      have hpow : (1 : Nat) ≤ 128 ^ pre.length := Nat.one_le_pow _ _ (by norm_num)
      have hm128 : m * 128 ≤ 268435456 := by
        calc m * 128 = m * 128 * 1 := by ring
          _ ≤ m * 128 * 128 ^ pre.length := Nat.mul_le_mul_left _ hpow
          _ = m * 128 ^ (pre.length + 1) := by rw [pow_succ]; ring
          _ ≤ 268435456 := hm2
      have hmle : ¬ (m > 2097152) := by omega
      have hp : ¬ (p % 256 < 128) := by omega
      have hstep : readVBILoop true m v (p :: pre)
          = if m > 2097152
            then (.error "Malformed Variable Byte Integer"
              : Except Err (Option (Nat × Bytes)))
            else if p % 256 < 128 then .ok (some (v + (p % 256 % 128) * m, pre))
            else readVBILoop true (m * 128) (v + (p % 256 % 128) * m) pre := rfl
      rw [hstep, if_neg hmle, if_neg hp]
      exact ih (n / 128) (m * 128) (v + (p % 256 % 128) * m) post (h4.symm ▸ rfl)
        hpost (by rw [mul_assoc, ← pow_succ']; exact hm2)

theorem processChunk_partial {c f : Bytes} (hf : Framed f) {d : Bytes} (hd : d ≠ [])
    (hcd : c ++ d = f) :
    processChunk c = { emits := [], carry := c, thrown := none } := by
  obtain ⟨b, n, body, hshape, hblen, hbound⟩ := hf
  cases c with
  | nil => rfl
  | cons x c2 =>
    rw [hshape] at hcd
    have hcd2 : x :: (c2 ++ d) = b :: (encodeVBI n ++ body) := hcd
    injection hcd2 with hx htail
    rw [processChunk, show (x :: c2).length = c2.length + 1 from rfl, processChunkF_succ]
    by_cases hlen : c2.length < (encodeVBI n).length
    · have h1 : (c2 ++ d).take c2.length = c2 := by
        rw [List.take_append_of_le_length (le_refl _), List.take_length]
      rw [htail] at h1
      rw [List.take_append_of_le_length (by omega)] at h1
      have hpost : (encodeVBI n).drop c2.length ≠ [] := by
        intro hc
        have := congrArg List.length hc
        simp only [List.length_drop, List.length_nil] at this
        omega
      have hsplit2 : encodeVBI n = c2 ++ (encodeVBI n).drop c2.length := by
        conv_lhs => rw [← List.take_append_drop c2.length (encodeVBI n)]
        rw [h1]
      have hvbi : readVBIGraceful c2 = .ok none := by
        have hlen4 : (encodeVBI n).length ≤ 4 := encodeVBI_len 3 n (by omega)
        exact readVBILoop_prefix_none c2 n 1 0 ((encodeVBI n).drop c2.length)
          hsplit2 hpost
          (by
            have : (128:Nat) ^ c2.length ≤ 128 ^ 3 :=
              Nat.pow_le_pow_right (by norm_num) (by omega)
            simpa using le_trans this (by norm_num))
      have hrfh : readFixedHeader (x :: c2) = .ok none := by
        unfold readFixedHeader
        show (match readVBIGraceful c2 with
          | .error e => (.error e : Except Err (Option (FixedHeader × Bytes)))
          | .ok none => .ok none
          | .ok (some (len, l)) =>
            .ok (some ({ type := x % 256 / 16, flags := x % 256 % 16,
                         length := len }, l))) = .ok none
        rw [hvbi]
      rw [hrfh]
    · push_neg at hlen
      have h1 : (c2 ++ d).take (encodeVBI n).length = c2.take (encodeVBI n).length := by
        rw [List.take_append_of_le_length hlen]
      rw [htail, List.take_left] at h1
      have hc2 : c2 = encodeVBI n ++ c2.drop (encodeVBI n).length := by
        conv_lhs => rw [← List.take_append_drop (encodeVBI n).length c2]
        rw [← h1]
      have hb1d : c2.drop (encodeVBI n).length ++ d = body := by
        apply @List.append_cancel_left Nat (encodeVBI n)
        rw [← List.append_assoc, ← hc2, htail]
      have hb1len : (c2.drop (encodeVBI n).length).length < n := by
        have h5 := congrArg List.length hb1d
        simp only [List.length_append] at h5
        have h6 : 0 < d.length := List.length_pos.mpr hd
        omega
      rw [hc2]
      rw [show x :: (encodeVBI n ++ c2.drop (encodeVBI n).length)
          = x :: encodeVBI n ++ c2.drop (encodeVBI n).length from rfl]
      rw [readFixedHeader_frame x hbound (c2.drop (encodeVBI n).length)]
      show (if (c2.drop (encodeVBI n).length).length < n
          then ({ emits := [],
                  carry := x :: (encodeVBI n ++ c2.drop (encodeVBI n).length) }
            : ChunkOut)
          else match takeN n (c2.drop (encodeVBI n).length) with
            | .error e => { emits := [], carry := [], thrown := some e }
            | .ok (w, rest) =>
              let out := processChunkF
                (encodeVBI n ++ c2.drop (encodeVBI n).length).length
                (rest.take (encodeVBI n ++ c2.drop (encodeVBI n).length).length)
              { out with
                  emits := parseBody (x % 256 / 16) (x % 256 % 16) w :: out.emits })
        = { emits := [], carry := x :: (encodeVBI n ++ c2.drop (encodeVBI n).length),
            thrown := none }
      rw [if_pos hb1len]

theorem catList_append (A B : List Bytes) :
    catList (A ++ B) = catList A ++ catList B := by
  induction A with
  | nil => rfl
  | cons a t ih => simp [catList, ih]

theorem processChunk_catList : ∀ (F : List Bytes), (∀ f ∈ F, Framed f) →
    ∀ (c : Bytes), (c = [] ∨ ∃ f d, Framed f ∧ d ≠ [] ∧ c ++ d = f) →
    processChunk (catList F ++ c)
      = { emits := F.map frameEmit, carry := c, thrown := none } := by
  intro F
  induction F with
  | nil =>
    intro _ c hc
    rw [show catList ([] : List Bytes) = [] from rfl, List.nil_append]
    rcases hc with rfl | ⟨f, d, hf, hd, hcd⟩
    · rfl
    · exact processChunk_partial hf hd hcd
  | cons f F ih =>
    intro hF c hc
    obtain ⟨b, n, body, hshape, hblen, hbound⟩ := hF f (by simp)
    subst hshape
    rw [show catList ((b :: encodeVBI n ++ body) :: F)
        = (b :: encodeVBI n ++ body) ++ catList F from rfl]
    rw [List.append_assoc]
    rw [processChunk_frame b hblen hbound (catList F ++ c)]
    rw [ih (fun g hg => hF g (by simp [hg])) c hc]
    show ({ emits := parseBody (b % 256 / 16) (b % 256 % 16) body :: F.map frameEmit,
            carry := c, thrown := none } : ChunkOut)
      = { emits := ((b :: encodeVBI n ++ body) :: F).map frameEmit,
          carry := c, thrown := none }
    rw [List.map_cons, frameEmit_frame b hblen hbound]

theorem catList_chop : ∀ (F : List Bytes), (∀ f ∈ F, Framed f) →
    ∀ (B suffix : Bytes), B ++ suffix = catList F →
    ∃ F1 F2 c, F = F1 ++ F2 ∧ B = catList F1 ++ c ∧
      (c = [] ∨ ∃ f F3 d, F2 = f :: F3 ∧ d ≠ [] ∧ c ++ d = f) := by
  intro F
  induction F with
  | nil =>
    intro _ B suffix hB
    rw [show catList ([] : List Bytes) = [] from rfl] at hB
    have hBn : B = [] := (List.append_eq_nil.mp hB).1
    exact ⟨[], [], [], rfl, by simp [catList, hBn], Or.inl rfl⟩
  | cons f F ih =>
    intro hF B suffix hB
    rw [show catList (f :: F) = f ++ catList F from rfl] at hB
    by_cases hlen : B.length < f.length
    · refine ⟨[], f :: F, B, rfl, by simp [catList], Or.inr ⟨f, F, f.drop B.length,
        rfl, ?_, ?_⟩⟩
      · intro hc
        have := congrArg List.length hc
        simp only [List.length_drop, List.length_nil] at this
        omega
      · have h1 : (B ++ suffix).take B.length = B := by
          rw [List.take_append_of_le_length (le_refl _), List.take_length]
        rw [hB, List.take_append_of_le_length (by omega)] at h1
        nth_rewrite 1 [← h1]
        exact List.take_append_drop B.length f
    · push_neg at hlen
      have h1 : B.take f.length = f := by
        have h2 : (B ++ suffix).take f.length = B.take f.length :=
          List.take_append_of_le_length hlen
        rw [hB, List.take_left] at h2
        exact h2.symm
      have hBsplit : B = f ++ B.drop f.length := by
        conv_lhs => rw [← List.take_append_drop f.length B]
        rw [h1]
      have hB2 : B.drop f.length ++ suffix = catList F := by
        apply @List.append_cancel_left Nat f
        rw [← List.append_assoc, ← hBsplit, hB]
      obtain ⟨F1, F2, c, hFeq, hBeq, hinv⟩ :=
        ih (fun g hg => hF g (by simp [hg])) (B.drop f.length) suffix hB2
      refine ⟨f :: F1, F2, c, by rw [hFeq]; rfl, ?_, hinv⟩
      rw [show catList (f :: F1) = f ++ catList F1 from rfl, List.append_assoc, ← hBeq]
      exact hBsplit

theorem feed_frames : ∀ (chunks F : List Bytes) (c : Bytes),
    (∀ f ∈ F, Framed f) →
    (c = [] ∨ ∃ f F3 d, F = f :: F3 ∧ d ≠ [] ∧ c ++ d = f) →
    c ++ catList chunks = catList F →
    feed c chunks = (F.map frameEmit, []) := by
  intro chunks
  induction chunks with
  | nil =>
    intro F c hF hinv hcat
    rw [show catList ([] : List Bytes) = [] from rfl, List.append_nil] at hcat
    rcases hinv with rfl | ⟨f, F3, d, rfl, hd, hcd⟩
    · cases F with
      | nil => rfl
      | cons f F3 =>
        obtain ⟨b, n, body, hshape, _, _⟩ := hF f (by simp)
        rw [show catList (f :: F3) = f ++ catList F3 from rfl, hshape] at hcat
        simp at hcat
    · exfalso
      have h1 := congrArg List.length hcd
      have h2 := congrArg List.length hcat
      rw [show catList (f :: F3) = f ++ catList F3 from rfl] at h2
      simp only [List.length_append] at h1 h2
      have hd1 : 0 < d.length := List.length_pos.mpr hd
      omega
  | cons c0 cs ih =>
    intro F c hF hinv hcat
    have hB : (c ++ c0) ++ catList cs = catList F := by
      rw [List.append_assoc]
      exact hcat
    obtain ⟨F1, F2, c2, hFeq, hBeq, hinv2⟩ := catList_chop F hF (c ++ c0) (catList cs) hB
    subst hFeq
    have hF1 : ∀ f ∈ F1, Framed f := fun g hg => hF g (by simp [hg])
    have hF2 : ∀ f ∈ F2, Framed f := fun g hg => hF g (by simp [hg])
    have hsplit : transformStep c c0
        = { emits := F1.map frameEmit, carry := c2, thrown := none } := by
      show processChunk (c ++ c0) = _
      rw [hBeq]
      apply processChunk_catList F1 hF1 c2
      rcases hinv2 with rfl | ⟨f, F3, d, hF2eq, hd, hcd⟩
      · exact Or.inl rfl
      · exact Or.inr ⟨f, d, hF2 f (by rw [hF2eq]; simp), hd, hcd⟩
    have hcat2 : c2 ++ catList cs = catList F2 := by
      apply @List.append_cancel_left Nat (catList F1)
      rw [← List.append_assoc, ← hBeq, hB, catList_append]
    have hrec := ih F2 c2 hF2 hinv2 hcat2
    show (let out := transformStep c c0;
      match out.thrown with
      | some _ => (out.emits, out.carry)
      | none =>
        let (es, fin) := feed out.carry cs
        (out.emits ++ es, fin)) = ((F1 ++ F2).map frameEmit, [])
    rw [hsplit]
    show (let (es, fin) := feed c2 cs; (F1.map frameEmit ++ es, fin))
      = ((F1 ++ F2).map frameEmit, [])
    rw [hrec]
    show (F1.map frameEmit ++ F2.map frameEmit, ([] : Bytes))
      = ((F1 ++ F2).map frameEmit, [])
    rw [List.map_append]

/-- C2: for any list of whole encoded frames and any partition of their
concatenation into chunks, feeding the chunks one at a time through
DeserializeStream.transform yields the same emissions and final carry as
feeding the whole buffer as a single chunk, namely one emission per frame
in order, and the carry is empty afterwards. -/
theorem c2_fragmentation_invariance {F chunks : List Bytes}
    (hF : ∀ f ∈ F, Framed f) (hc : catList chunks = catList F) :
    feed [] chunks = feed [] [catList F]
      ∧ feed [] chunks = ((processChunk (catList F)).emits, [])
      ∧ (processChunk (catList F)).carry = [] := by
  have h1 : feed [] chunks = (F.map frameEmit, []) :=
    feed_frames chunks F [] hF (Or.inl rfl) (by simpa using hc)
  have h2 : feed [] [catList F] = (F.map frameEmit, []) :=
    feed_frames [catList F] F [] hF (Or.inl rfl) (by simp [catList])
  have h3 : processChunk (catList F)
      = { emits := F.map frameEmit, carry := [], thrown := none } := by
    have h4 := processChunk_catList F hF [] (Or.inl rfl)
    simpa using h4
  refine ⟨h1.trans h2.symm, ?_, ?_⟩
  · rw [h1, h3]
  · rw [h3]

theorem c2_fragmentation_invariance_witness :
    feed [] [[192], [0, 208], [0]] = feed [] [catList [[192, 0], [208, 0]]]
      ∧ feed [] [[192], [0, 208], [0]]
        = ((processChunk (catList [[192, 0], [208, 0]])).emits, [])
      ∧ (processChunk (catList [[192, 0], [208, 0]])).carry = [] :=
  c2_fragmentation_invariance
    (by
      intro f hf
      simp only [List.mem_cons, List.not_mem_nil, or_false] at hf
      rcases hf with rfl | rfl
      · exact ⟨192, 0, [], rfl, rfl, by norm_num⟩
      · exact ⟨208, 0, [], rfl, rfl, by norm_num⟩)
    rfl

end MqttSpec
